import Mathlib

/-!
Verification of the `ir` package (intermediate representation of compiled
programs): a shallow embedding, in Lean 4, of the type cache and parser
(typecache source file), the memory model (`model.go`), the function verifier
(`ir.go` / `operation.go`), the linker (`link.go`) and the snapshot header
checks (`Objects.ReadFrom`), together with theorems settling the claims of the
specification.

Modelling conventions:
* Byte strings are `List Nat`.  The external string interner (`xc.Dict`) is a
  bijection between byte strings and integer ids; we therefore model `TypeID`,
  `NameID` and `StringID` directly as the underlying byte strings (`List Nat`),
  so that id equality is byte equality, which is exactly the interner's
  contract.  The zero id corresponds to the empty string `[]`.
* Go `int64` arithmetic that can overflow is modelled on `Int` with an explicit
  two's complement wrap (`wrap64`).
* Go maps used by the verifier and linker are modelled as association lists in
  insertion order.
* `token.Position` is an opaque token, modelled as `Nat`.
* Functions that Go implements with unbounded recursion or graph traversal
  (the type parser, the verifier's abstract interpreter, the linker's
  `define`) take an explicit fuel argument; running out of fuel yields a
  distinguished error that the theorems treat as failure.
-/

namespace IR

/-- Bytes of a string literal, used to build concrete interned ids. -/
def strBytes (s : String) : List Nat := s.data.map Char.toNat

/-- `TypeID` is the canonical textual form of a type as interned by the global
dictionary; modelled as the byte string itself (see module conventions). -/
abbrev TypeID := List Nat

/-- `NameID`, modelled as the interned byte string. -/
abbrev NameID := List Nat

/-- `StringID`, modelled as the interned byte string. -/
abbrev StringID := List Nat

/-- `TypeKind` from the enumeration in the kinds source file. -/
inductive TypeKind where
  | Int8 | Int16 | Int32 | Int64
  | Uint8 | Uint16 | Uint32 | Uint64
  | Float32 | Float64 | Float128
  | Complex64 | Complex128 | Complex256
  | Array | Union | Struct | Pointer | Function
deriving DecidableEq, Repr

/-- `Linkage` enumeration. -/
inductive Linkage where
  | External
  | Internal
deriving DecidableEq, Repr

/-- Interned ids used by the package (`etc.go`). -/
def idInt8 : TypeID := strBytes "int8"

def idInt16 : TypeID := strBytes "int16"

def idInt32 : TypeID := strBytes "int32"

def idInt64 : TypeID := strBytes "int64"

def idUint32 : TypeID := strBytes "uint32"

def idUint64 : TypeID := strBytes "uint64"

def idVoid : TypeID := strBytes "struct{}"

def idVoidPtr : TypeID := strBytes "*struct{}"

def idStart : NameID := strBytes "_start"

def idBuiltinPrefix : NameID := strBytes "__builtin_"

/-- Interned id of `main` (referenced by `link.go`; the defining declaration of
the constant is not among the provided sources, but `LinkLib` compares function
names against the interned string `"main"`). -/
def idMain : NameID := strBytes "main"

/-- Interned id of `*int32` (used by the `main` stub injected by `LinkLib`). -/
def idPint32 : TypeID := strBytes "*int32"

/-! ## Lexer (`TypeCache.lex2`)

The lexer works on a byte slice through two primitives: `c` peeks at the
current byte (or end of input) and `n` advances one byte and peeks.  Token
values are `tok int`: a plain byte stands for itself and the named tokens
start at `0x80` (`iota + 0x7f` with a leading blank). -/

def tokI8 : Nat := 0x80
def tokI16 : Nat := 0x81
def tokI32 : Nat := 0x82
def tokI64 : Nat := 0x83
def tokU8 : Nat := 0x84
def tokU16 : Nat := 0x85
def tokU32 : Nat := 0x86
def tokU64 : Nat := 0x87
def tokF32 : Nat := 0x88
def tokF64 : Nat := 0x89
def tokF128 : Nat := 0x8a
def tokC64 : Nat := 0x8b
def tokC128 : Nat := 0x8c
def tokC256 : Nat := 0x8d
def tokEllipsis : Nat := 0x8e
def tokFunc : Nat := 0x8f
def tokNumber : Nat := 0x90
def tokStruct : Nat := 0x91
def tokUnion : Nat := 0x92
def tokEOF : Nat := 0x93
def tokIllegal : Nat := 0x94

/-- `TypeCache.c`: peek at the current byte, `tokEOF` at end of input. -/
def cTok : List Nat → Nat
  | [] => tokEOF
  | b :: _ => b

/-- `TypeCache.n`: advance one byte and peek; on empty input the position is
unchanged and `tokEOF` is returned. -/
def nAdv : List Nat → Nat × List Nat
  | [] => (tokEOF, [])
  | _ :: s => (cTok s, s)

/-- Go `int64` maximum. -/
def maxInt64 : Int := 9223372036854775807

/-- Two's complement wraparound of Go `int64` arithmetic. -/
def wrap64 (x : Int) : Int := (x + 2 ^ 63) % 2 ^ 64 - 2 ^ 63

/-- The numeric-literal loop of `lex2`.  The head of `s` is the digit already
consumed into `n`; each iteration advances, stops at the first non-digit, and
accumulates `n = 10*n + digit` in wrapping `int64` arithmetic, failing with
`tokIllegal` when the accumulator compares below zero (the `n > math.MaxInt64`
comparison of the source is vacuous for `int64` and kept verbatim). -/
def lexNum : List Nat → Int → Nat × Int × List Nat
  | [], n => (tokNumber, n, [])
  | _ :: rest, n =>
    match rest with
    | [] => (tokNumber, n, [])
    | t :: _ =>
      if t < 0x30 ∨ t > 0x39 then (tokNumber, n, rest)
      else
        let n' := wrap64 (10 * n + ((t : Int) - 0x30))
        if n' < 0 ∨ n' > maxInt64 then (tokIllegal, 0, rest)
        else lexNum rest n'

/-- The shared fall-through of `lex2`: advance once and return `tokIllegal`. -/
def lexIllegal (s : List Nat) : Nat × Int × List Nat := (tokIllegal, 0, (nAdv s).2)

/-- Keyword matcher: checks that advancing through `s` spells the remaining
bytes `ks` of a keyword, then advances once more (past its final byte) and
yields `t`; any mismatch falls through to `lexIllegal` from the current
position, exactly as the chained `c.n(p) == …` conditions of the source. -/
def lexKeyword (t : Nat) : List Nat → List Nat → Nat × Int × List Nat
  | [], s => let (_, s') := nAdv s; (t, 0, s')
  | k :: ks, s =>
    let (b, s') := nAdv s
    if b = k then lexKeyword t ks s' else lexIllegal s'

/-- `TypeCache.lex2`: one token of the type-specifier language. -/
def lex2 (s : List Nat) : Nat × Int × List Nat :=
  let t := cTok s
  if t = 0x2a ∨ t = 0x28 ∨ t = 0x29 ∨ t = 0x7b ∨ t = 0x7d ∨ t = 0x2c ∨
      t = 0x5b ∨ t = 0x5d then
    -- '*', '(', ')', '{', '}', ',', '[', ']'
    (t, 0, (nAdv s).2)
  else if t = 0x2e then
    -- '.': expect two more dots
    let (b1, s1) := nAdv s
    if b1 = 0x2e then
      let (b2, s2) := nAdv s1
      if b2 = 0x2e then let (_, s3) := nAdv s2; (tokEllipsis, 0, s3)
      else lexIllegal s2
    else lexIllegal s1
  else if 0x30 ≤ t ∧ t ≤ 0x39 then
    lexNum s ((t : Int) - 0x30)
  else if t = 0x63 then
    -- 'c': "omplex" then a width
    let (b1, s1) := nAdv s
    if b1 = 0x6f then
      let (b2, s2) := nAdv s1
      if b2 = 0x6d then
        let (b3, s3) := nAdv s2
        if b3 = 0x70 then
          let (b4, s4) := nAdv s3
          if b4 = 0x6c then
            let (b5, s5) := nAdv s4
            if b5 = 0x65 then
              let (b6, s6) := nAdv s5
              if b6 = 0x78 then
                let (w, s7) := nAdv s6
                if w = 0x31 then lexKeyword tokC128 (strBytes "28") s7
                else if w = 0x32 then lexKeyword tokC256 (strBytes "56") s7
                else if w = 0x36 then lexKeyword tokC64 (strBytes "4") s7
                else lexIllegal s7
              else lexIllegal s6
            else lexIllegal s5
          else lexIllegal s4
        else lexIllegal s3
      else lexIllegal s2
    else lexIllegal s1
  else if t = 0x66 then
    -- 'f': "loat" widths or "unc"
    let (b1, s1) := nAdv s
    if b1 = 0x6c then
      let (b2, s2) := nAdv s1
      if b2 = 0x6f then
        let (b3, s3) := nAdv s2
        if b3 = 0x61 then
          let (b4, s4) := nAdv s3
          if b4 = 0x74 then
            let (w, s5) := nAdv s4
            if w = 0x31 then lexKeyword tokF128 (strBytes "28") s5
            else if w = 0x33 then lexKeyword tokF32 (strBytes "2") s5
            else if w = 0x36 then lexKeyword tokF64 (strBytes "4") s5
            else lexIllegal s5
          else lexIllegal s4
        else lexIllegal s3
      else lexIllegal s2
    else if b1 = 0x75 then
      let (b2, s2) := nAdv s1
      if b2 = 0x6e then
        let (b3, s3) := nAdv s2
        if b3 = 0x63 then let (_, s4) := nAdv s3; (tokFunc, 0, s4)
        else lexIllegal s3
      else lexIllegal s2
    else lexIllegal s1
  else if t = 0x69 then
    -- 'i': "nt" widths
    let (b1, s1) := nAdv s
    if b1 = 0x6e then
      let (b2, s2) := nAdv s1
      if b2 = 0x74 then
        let (w, s3) := nAdv s2
        if w = 0x31 then lexKeyword tokI16 (strBytes "6") s3
        else if w = 0x33 then lexKeyword tokI32 (strBytes "2") s3
        else if w = 0x36 then lexKeyword tokI64 (strBytes "4") s3
        else if w = 0x38 then let (_, s4) := nAdv s3; (tokI8, 0, s4)
        else lexIllegal s3
      else lexIllegal s2
    else lexIllegal s1
  else if t = 0x73 then
    lexKeyword tokStruct (strBytes "truct") s
  else if t = 0x75 then
    -- 'u': "int" widths or "nion"
    let (b1, s1) := nAdv s
    if b1 = 0x69 then
      let (b2, s2) := nAdv s1
      if b2 = 0x6e then
        let (b3, s3) := nAdv s2
        if b3 = 0x74 then
          let (w, s4) := nAdv s3
          if w = 0x31 then lexKeyword tokU16 (strBytes "6") s4
          else if w = 0x33 then lexKeyword tokU32 (strBytes "2") s4
          else if w = 0x36 then lexKeyword tokU64 (strBytes "4") s4
          else if w = 0x38 then let (_, s5) := nAdv s4; (tokU8, 0, s5)
          else lexIllegal s4
        else lexIllegal s3
      else lexIllegal s2
    else if b1 = 0x6e then
      let (b2, s2) := nAdv s1
      if b2 = 0x69 then
        let (b3, s3) := nAdv s2
        if b3 = 0x6f then
          let (b4, s4) := nAdv s3
          if b4 = 0x6e then let (_, s5) := nAdv s4; (tokUnion, 0, s5)
          else lexIllegal s4
        else lexIllegal s3
      else lexIllegal s2
    else lexIllegal s1
  else if t = tokEOF then
    (tokEOF, 0, s)
  else
    lexIllegal s

/-- `TypeCache.lex`: `lex2` dropping the numeric value. -/
def lex (s : List Nat) : Nat × List Nat :=
  let (t, _, s') := lex2 s
  (t, s')

/-! ## Types and the parser (`TypeCache.parse`)

`Typ` mirrors the `Type` hierarchy (`TypeBase`, `PointerType`, `ArrayType`,
`FunctionType`, `StructOrUnionType`); every node carries the `TypeID` assigned
by `TypeBase.setID`: the id passed down by `TypeCache.Type` for the root, and
the interned consumed source text for inner nodes. -/

inductive Typ where
  | base (tid : TypeID) (k : TypeKind)
  | pointerT (tid : TypeID) (element : Typ)
  | arrayT (tid : TypeID) (item : Typ) (items : Int)
  | functionT (tid : TypeID) (args : List Typ) (results : List Typ) (variadic : Bool)
  | structOrUnionT (tid : TypeID) (k : TypeKind) (fields : List Typ)
deriving Repr

/-- `Type.ID()`: the stored `TypeID` of a node. -/
def Typ.tid : Typ → TypeID
  | .base t _ => t
  | .pointerT t _ => t
  | .arrayT t _ _ => t
  | .functionT t _ _ _ => t
  | .structOrUnionT t _ _ => t

/-- `Type.Kind()`. -/
def Typ.kind : Typ → TypeKind
  | .base _ k => k
  | .pointerT _ _ => .Pointer
  | .arrayT _ _ _ => .Array
  | .functionT _ _ _ _ => .Function
  | .structOrUnionT _ k _ => k

/-- `TypeBase.setID`: a freshly built node receives the id passed down when it
is non-zero, otherwise the interned id of the source text consumed for it
(`p0[:len(p0)-len(*p)]`). -/
def setID (id : TypeID) (p0 rest : List Nat) : TypeID :=
  if id ≠ [] then id else p0.take (p0.length - rest.length)

mutual

/-- `TypeCache.parse`. -/
def parseF : Nat → List Nat → TypeID → Option (Typ × List Nat)
  | 0, _, _ => none
  | fuel + 1, p0, id =>
    let (tk, n, p) := lex2 p0
    if tk = tokI8 then some (.base (setID id p0 p) .Int8, p)
    else if tk = tokI16 then some (.base (setID id p0 p) .Int16, p)
    else if tk = tokI32 then some (.base (setID id p0 p) .Int32, p)
    else if tk = tokI64 then some (.base (setID id p0 p) .Int64, p)
    else if tk = tokU8 then some (.base (setID id p0 p) .Uint8, p)
    else if tk = tokU16 then some (.base (setID id p0 p) .Uint16, p)
    else if tk = tokU32 then some (.base (setID id p0 p) .Uint32, p)
    else if tk = tokU64 then some (.base (setID id p0 p) .Uint64, p)
    else if tk = tokF32 then some (.base (setID id p0 p) .Float32, p)
    else if tk = tokF64 then some (.base (setID id p0 p) .Float64, p)
    else if tk = tokF128 then some (.base (setID id p0 p) .Float128, p)
    else if tk = tokC64 then some (.base (setID id p0 p) .Complex64, p)
    else if tk = tokC128 then some (.base (setID id p0 p) .Complex128, p)
    else if tk = tokC256 then some (.base (setID id p0 p) .Complex256, p)
    else if tk = 0x2a then
      -- '*'
      match parseF fuel p [] with
      | none => none
      | some (element, p1) => some (.pointerT (setID id p0 p1) element, p1)
    else if tk = 0x5b then
      -- '['
      let (tk2, n2, p2) := lex2 p
      if tk2 = tokNumber then
        let (tk3, p3) := lex p2
        if tk3 = 0x5d then
          match parseF fuel p3 [] with
          | none => none
          | some (item, p4) => some (.arrayT (setID id p0 p4) item n2, p4)
        else none
      else none
    else if tk = tokFunc then
      match parseFuncF fuel p with
      | none => none
      | some (args, results, variadic, p1) =>
          some (.functionT (setID id p0 p1) args results variadic, p1)
    else if tk = tokStruct ∨ tk = tokUnion then
      let k := if tk = tokStruct then TypeKind.Struct else TypeKind.Union
      let (tk2, p2) := lex p
      if tk2 = 0x7b then
        match parseTypeListF fuel p2 with
        | none => none
        | some (l, p3) =>
          let (tk4, p4) := lex p3
          if tk4 = 0x7d then some (.structOrUnionT (setID id p0 p4) k l, p4)
          else none
      else none
    else
      -- the unused token value `n` is referenced to mirror the source's lex2
      let _ := n
      none

/-- `TypeCache.parseTypeList`. -/
def parseTypeListF : Nat → List Nat → Option (List Typ × List Nat)
  | 0, _ => none
  | fuel + 1, p =>
    if cTok p = 0x7d then some ([], p)
    else
      match parseF fuel p [] with
      | none => none
      | some (t, p1) =>
        if cTok p1 = 0x2c then
          let (_, p2) := nAdv p1
          if cTok p2 = 0x2e then some ([t], p2)
          else
            match parseTypeListF fuel p2 with
            | none => none
            | some (l, p3) => some (t :: l, p3)
        else some ([t], p1)

/-- `TypeCache.parseResults`. -/
def parseResultsF : Nat → List Nat → Option (List Typ × List Nat)
  | 0, _ => none
  | fuel + 1, p =>
    let t := cTok p
    if t = tokEOF ∨ t = 0x2c ∨ t = 0x29 ∨ t = 0x7d then some ([], p)
    else if t = 0x28 then
      let (_, p1) := nAdv p
      match parseTypeListF fuel p1 with
      | none => none
      | some (l, p2) =>
        let (tk, p3) := lex p2
        if tk = 0x29 then some (l, p3) else none
    else
      match parseF fuel p [] with
      | none => none
      | some (u, p1) => some ([u], p1)

/-- `TypeCache.parseFunc`: the opening parenthesis and argument list. -/
def parseFuncF : Nat → List Nat → Option (List Typ × List Typ × Bool × List Nat)
  | 0, _ => none
  | fuel + 1, p =>
    let (tk, p1) := lex p
    if tk = 0x28 then
      let argsStep : Option (List Typ × List Nat) :=
        if cTok p1 = 0x29 ∨ cTok p1 = 0x2e then some ([], p1)
        else parseTypeListF fuel p1
      match argsStep with
      | none => none
      | some (arguments, p2) => parseFuncMore fuel arguments false p2
    else none

/-- The `more:` loop of `TypeCache.parseFunc`: a closing parenthesis (followed
by the result types) or at most one ellipsis. -/
def parseFuncMore : Nat → List Typ → Bool → List Nat →
    Option (List Typ × List Typ × Bool × List Nat)
  | 0, _, _, _ => none
  | fuel + 1, arguments, variadic, p =>
    let (tk, p1) := lex p
    if tk = 0x29 then
      match parseResultsF fuel p1 with
      | none => none
      | some (results, p2) => some (arguments, results, variadic, p2)
    else if tk = tokEllipsis then
      if variadic then none
      else parseFuncMore fuel arguments true p1
    else none

end

/-- Fuel sufficient for the provided sources' concrete type texts. -/
def typFuel (s : List Nat) : Nat := 3 * s.length + 16

/-- `TypeCache.Type`: parse the canonical text stored at `id` (passing `id`
down, so the root node's `ID()` is `id`) and require that the remainder lexes
to `tokEOF`.  The cache itself is a referential-identity optimisation with no
observable effect on the returned structure and is not modelled. -/
def typeOfText (s : TypeID) : Option Typ :=
  match parseF (typFuel s) s s with
  | none => none
  | some (t, rest) =>
    let (tk, _) := lex rest
    if tk = tokEOF then some t else none

/-! Structural identity: `PTyp` is a `Typ` with the interned ids erased;
two `Typ` values are structurally identical when their erasures coincide. -/

inductive PTyp where
  | base (k : TypeKind)
  | pointerT (element : PTyp)
  | arrayT (item : PTyp) (items : Int)
  | functionT (args : List PTyp) (results : List PTyp) (variadic : Bool)
  | structOrUnionT (k : TypeKind) (fields : List PTyp)
deriving Repr

mutual

/-- Erase the interned ids of a type, keeping the pure structure. -/
def Typ.strip : Typ → PTyp
  | .base _ k => .base k
  | .pointerT _ e => .pointerT e.strip
  | .arrayT _ item n => .arrayT item.strip n
  | .functionT _ args results v => .functionT (stripList args) (stripList results) v
  | .structOrUnionT _ k fields => .structOrUnionT k (stripList fields)

def stripList : List Typ → List PTyp
  | [] => []
  | t :: ts => t.strip :: stripList ts

end

/-! ## Memory model (`model.go`) -/

/-- `roundup`: round `n` up to a multiple of `to` (Go `%` is the truncated
remainder, `Int.tmod`). -/
def roundup (n a : Int) : Int :=
  if Int.tmod n a ≠ 0 then n + a - Int.tmod n a else n

/-- `MemoryModelItem`. -/
structure MemoryModelItem where
  Size : Int
  Align : Int
  StructAlign : Int
deriving DecidableEq, Repr

/-- `MemoryModel`: in Go a map from `TypeKind`; the predefined models are
total on every kind the methods look up (`Array`, `Struct` and `Union` are
handled structurally and never consulted), so the model is a total function
here. -/
abbrev MemoryModel := TypeKind → MemoryModelItem

/-- `mathutil.Max`. -/
def mathutilMax (a b : Int) : Int := if a > b then a else b

mutual

/-- `MemoryModel.Alignof`. -/
def Alignof (m : MemoryModel) : Typ → Int
  | .arrayT _ item _ => mathutilMax 1 (Alignof m item)
  | .structOrUnionT _ _ fields => mathutilMax 1 (alignofFields m fields 0)
  | t => (m t.kind).Align

/-- The field loop of `Alignof`: `if a := m.Alignof(v); a > r { r = a }`. -/
def alignofFields (m : MemoryModel) : List Typ → Int → Int
  | [], r => r
  | v :: fields, r =>
    alignofFields m fields (if Alignof m v > r then Alignof m v else r)

end

mutual

/-- `MemoryModel.StructAlignof`. -/
def StructAlignof (m : MemoryModel) : Typ → Int
  | .arrayT _ item _ => StructAlignof m item
  | .structOrUnionT _ _ fields => structAlignofFields m fields 0
  | t => (m t.kind).StructAlign

/-- The field loop of `StructAlignof`. -/
def structAlignofFields (m : MemoryModel) : List Typ → Int → Int
  | [], r => r
  | v :: fields, r =>
    structAlignofFields m fields (if StructAlignof m v > r then StructAlignof m v else r)

end

mutual

/-- `MemoryModel.Sizeof`. -/
def Sizeof (m : MemoryModel) : Typ → Int
  | .arrayT _ item n => Sizeof m item * n
  | .structOrUnionT tid k fields =>
    if fields.isEmpty then 0
    else if k = .Struct then
      roundup (structOffFields m fields 0) (Alignof m (.structOrUnionT tid k fields))
    else if k = .Union then
      roundup (unionMaxFields m fields 0) (Alignof m (.structOrUnionT tid k fields))
    else 0 -- unreachable: the source panics for a non-struct/union kind here
  | t => (m t.kind).Size

/-- The struct loop of `Sizeof`: pad the running offset to each field's
struct alignment (when non-zero) and add the field's size. -/
def structOffFields (m : MemoryModel) : List Typ → Int → Int
  | [], off => off
  | v :: fields, off =>
    let sz := Sizeof m v
    let a := StructAlignof m v
    let off1 := if a ≠ 0 then roundup off a else off
    structOffFields m fields (off1 + sz)

/-- The union loop of `Sizeof`: the maximum field size. -/
def unionMaxFields (m : MemoryModel) : List Typ → Int → Int
  | [], sz => sz
  | v :: fields, sz =>
    unionMaxFields m fields (if Sizeof m v > sz then Sizeof m v else sz)

end

/-- `FieldProperties`. -/
structure FieldProperties where
  Offset : Int
  Size : Int
  Padding : Int
deriving DecidableEq, Repr

/-- Set the `Padding` of the most recently emitted field (the source writes
`r[i-1].Padding`; the list is accumulated in reverse here, so that field is
the head).  The index `i-1` is touched only under the guard `off != z`, which
is false at the first field, so the empty case is unreachable. -/
def setPadHead (p : Int) : List FieldProperties → List FieldProperties
  | [] => []
  | x :: xs => { x with Padding := p } :: xs

/-- One iteration of the struct loop of `MemoryModel.Layout`, carrying the
emitted fields (in reverse) and the running offset. -/
def layoutStructStep (m : MemoryModel) (acc : List FieldProperties × Int) (v : Typ) :
    List FieldProperties × Int :=
  let sz := Sizeof m v
  let a := StructAlignof m v
  let z := acc.2
  let off1 := if a ≠ 0 then roundup acc.2 a else acc.2
  let r1 := if off1 ≠ z then setPadHead (off1 - z) acc.1 else acc.1
  (⟨off1, sz, 0⟩ :: r1, off1 + sz)

/-- `MemoryModel.Layout` (defined on `StructOrUnionType` in the source; other
nodes cannot be passed). -/
def Layout (m : MemoryModel) (t : Typ) : List FieldProperties :=
  match t with
  | .structOrUnionT _ k fields =>
    if fields.isEmpty then []
    else if k = .Struct then
      let (r, off) := fields.foldl (layoutStructStep m) ([], 0)
      let off1 := roundup off (Alignof m t)
      let r1 := if off1 ≠ off then setPadHead (off1 - off) r else r
      r1.reverse
    else if k = .Union then
      let sz := roundup (unionMaxFields m fields 0) (Alignof m t)
      fields.map fun v => ⟨0, Sizeof m v, sz - Sizeof m v⟩
    else []
  | _ => []

/-- `FieldProperties.Sizeof`: the sum of `Size` and `Padding`. -/
def FieldProperties.sizeofFP (f : FieldProperties) : Int := f.Size + f.Padding

/-- The 32-bit-target memory model of `NewMemoryModel` (`386`, `arm`, …):
64-bit scalars aligned to 4. -/
def MemoryModel32 : MemoryModel := fun k =>
  match k with
  | .Int8 => ⟨1, 1, 1⟩
  | .Int16 => ⟨2, 2, 2⟩
  | .Int32 => ⟨4, 4, 4⟩
  | .Int64 => ⟨8, 4, 4⟩
  | .Uint8 => ⟨1, 1, 1⟩
  | .Uint16 => ⟨2, 2, 2⟩
  | .Uint32 => ⟨4, 4, 4⟩
  | .Uint64 => ⟨8, 4, 4⟩
  | .Float32 => ⟨4, 4, 4⟩
  | .Float64 => ⟨8, 4, 4⟩
  | .Float128 => ⟨16, 4, 4⟩
  | .Complex64 => ⟨8, 4, 4⟩
  | .Complex128 => ⟨16, 4, 4⟩
  | .Complex256 => ⟨32, 4, 4⟩
  | .Pointer => ⟨4, 4, 4⟩
  | .Function => ⟨4, 4, 4⟩
  | _ => ⟨0, 0, 0⟩ -- Array/Struct/Union: absent from the map, never looked up

/-- The 32-bit-pointer model with natural 64-bit alignment (`amd64p32`, …). -/
def MemoryModel32A64 : MemoryModel := fun k =>
  match k with
  | .Int8 => ⟨1, 1, 1⟩
  | .Int16 => ⟨2, 2, 2⟩
  | .Int32 => ⟨4, 4, 4⟩
  | .Int64 => ⟨8, 8, 8⟩
  | .Uint8 => ⟨1, 1, 1⟩
  | .Uint16 => ⟨2, 2, 2⟩
  | .Uint32 => ⟨4, 4, 4⟩
  | .Uint64 => ⟨8, 8, 8⟩
  | .Float32 => ⟨4, 4, 4⟩
  | .Float64 => ⟨8, 8, 8⟩
  | .Float128 => ⟨16, 8, 8⟩
  | .Complex64 => ⟨8, 8, 8⟩
  | .Complex128 => ⟨16, 8, 8⟩
  | .Complex256 => ⟨32, 8, 8⟩
  | .Pointer => ⟨4, 4, 4⟩
  | .Function => ⟨4, 4, 4⟩
  | _ => ⟨0, 0, 0⟩

/-- The 64-bit-target model (`amd64`, `arm64`, …). -/
def MemoryModel64 : MemoryModel := fun k =>
  match k with
  | .Int8 => ⟨1, 1, 1⟩
  | .Int16 => ⟨2, 2, 2⟩
  | .Int32 => ⟨4, 4, 4⟩
  | .Int64 => ⟨8, 8, 8⟩
  | .Uint8 => ⟨1, 1, 1⟩
  | .Uint16 => ⟨2, 2, 2⟩
  | .Uint32 => ⟨4, 4, 4⟩
  | .Uint64 => ⟨8, 8, 8⟩
  | .Float32 => ⟨4, 4, 4⟩
  | .Float64 => ⟨8, 8, 8⟩
  | .Float128 => ⟨16, 8, 8⟩
  | .Complex64 => ⟨8, 8, 8⟩
  | .Complex128 => ⟨16, 8, 8⟩
  | .Complex256 => ⟨32, 8, 8⟩
  | .Pointer => ⟨8, 8, 8⟩
  | .Function => ⟨8, 8, 8⟩
  | _ => ⟨0, 0, 0⟩

/-! ## Values (`value.go`) -/

/-- `Value`: constant initializers.  Floating and complex payloads are opaque
bit patterns here (none of the modelled code inspects them). -/
inductive Val where
  | int32Value (value : Int)
  | int64Value (value : Int)
  | float32Value (value : Int)
  | float64Value (value : Int)
  | complex64Value (value : Int)
  | complex128Value (value : Int)
  | stringValue (offset : Nat) (stringID : StringID)
  | wideStringValue (value : List Int)
  | addressValue (index : Int) (label : NameID) (linkage : Linkage) (nameID : NameID)
      (offset : Nat)
  | compositeValue (values : List Val)
  | designatedValue (index : Int) (value : Val)
deriving Repr

/-! ## Operations (`operation.go`)

The subset of the closed operation set needed by the claims; `Argument`,
`Bool`, `Const`, `Const64`, `ConstC128`, `Copy`, `Cpl`, arithmetic variants
other than `Add`, `Element`, `Field`, `FieldValue`, the increment operations,
`StringConst`, `Switch` and `Variable` are omitted (no claim depends on
them; the verifier and linker treat each of them independently through its
own local `verify`, exactly like the modelled representatives). -/

inductive Operation where
  | add (typeID : TypeID) (pos : Nat)
  | allocResult (typeID : TypeID) (typeName : NameID) (pos : Nat)
  | argumentsOp (pos : Nat) (functionPointer : Bool)
  | beginScope (value : Bool) (pos : Nat)
  | call (arguments : Nat) (comma : Bool) (index : Int) (typeID : TypeID) (pos : Nat)
  | callFP (arguments : Nat) (comma : Bool) (typeID : TypeID) (pos : Nat)
  | constOp (typeID : TypeID) (value : Option Val) (pos : Nat)
  | const32 (lop : Bool) (typeID : TypeID) (value : Int) (pos : Nat)
  | convert (result : TypeID) (typeID : TypeID) (pos : Nat)
  | drop (comma : Bool) (lop : Bool) (typeID : TypeID) (pos : Nat)
  | dup (typeID : TypeID) (pos : Nat)
  | endScope (value : Bool) (pos : Nat)
  | globalOp (address : Bool) (index : Int) (linkage : Linkage) (nameID : NameID)
      (typeID : TypeID) (typeName : NameID) (pos : Nat)
  | jmp (cond : Bool) (nameID : NameID) (number : Int) (pos : Nat)
  | jmpP (pos : Nat)
  | jnz (lop : Bool) (nameID : NameID) (number : Int) (pos : Nat)
  | jz (lop : Bool) (nameID : NameID) (number : Int) (pos : Nat)
  | labelOp (cond : Bool) (land : Bool) (lor : Bool) (nameID : NameID) (nop : Bool)
      (number : Int) (pos : Nat)
  | nilOp (typeID : TypeID) (pos : Nat)
  | notOp (pos : Nat)
  | panicOp (pos : Nat)
  | result (address : Bool) (index : Int) (typeID : TypeID) (pos : Nat)
  | returnOp (pos : Nat)
  | store (bitOffset : Int) (bits : Int) (typeID : TypeID) (pos : Nat)
  | variableDeclaration (index : Int) (nameID : NameID) (typeID : TypeID)
      (typeName : NameID) (value : Option Val) (pos : Nat)
deriving Repr

/-! ## Objects (`ir.go`) -/

/-- `ObjectBase`: fields common to all objects. -/
structure ObjectBase where
  position : Nat
  nameID : NameID
  typeID : TypeID
  linkage : Linkage
  typeName : NameID
deriving Repr, DecidableEq

/-- `Object`: a data definition or a function definition. -/
inductive Object where
  | dataDefinition (base : ObjectBase) (value : Option Val)
  | functionDefinition (arguments : List NameID) (body : List Operation)
      (base : ObjectBase) (results : List NameID)
deriving Repr

/-- `Object.Base()`. -/
def Object.base : Object → ObjectBase
  | .dataDefinition b _ => b
  | .functionDefinition _ _ b _ => b

/-! ## Function verifier (`ir.go`, `operation.go`)

Errors carry no payload; each constructor names the `fmt.Errorf` message of
the corresponding failure site.  `mustTypeFailure` stands for the panic of
`TypeCache.MustType` and `ipOutOfRange`/`phiMissing` for index panics of the
abstract interpreter; `outOfFuel` is the fuel bound of the embedding. -/

inductive VErr where
  | bodyCannotBeEmpty      -- "function body cannot be empty"
  | invalidOperation       -- "invalid operation" (single-operation body)
  | unbalancedEndScope     -- "unbalanced end scope"
  | missingReturn          -- "missing return before end of function"
  | labelRedefined         -- "label redefined"
  | invalidVariableIndex   -- "invalid variable declaration operation index"
  | unbalancedScopes       -- "unbalanced BeginScope/EndScope"
  | undefinedBranchTarget  -- "undefined branch target"
  | stacksDepthDiffer      -- "evaluation stacks depth differs"
  | stacksDiffer           -- "evaluation stacks differ"
  | phiMissing             -- panic("internal error") on a revisit without snapshot
  | ipOutOfRange           -- index panic: execution runs past the end of the body
  | outOfFuel              -- fuel exhaustion of the embedding
  | missingType            -- "missing type"
  | underflow              -- "evaluation stack underflow"
  | mismatchedOperands     -- "mismatched operand types"
  | mismatchedOperandsResult -- "mismatched operands types vs result type"
  | invalidOperandType     -- "invalid operand type"
  | branchStackType        -- "unexpected branch stack item of type"
  | nonEmptyAtScopeBegin   -- "non empty evaluation stack at scope begin"
  | nonEmptyAtScopeEnd     -- "non empty evaluation stack at scope end"
  | nonEmptyAtNamedLabel   -- "non empty evaluation stack at named label"
  | invalidLabel           -- "invalid label"
  | nonEmptyOnReturn       -- "non empty evaluation stack on return"
  | mismatchedTypes        -- "mismatched types" / "operand type mismatch" / "expected type"
  | mustTypeFailure        -- TypeCache.MustType panic (parse failure)
  | expectedPointer        -- "expected pointer type" / "expected a pointer type"
  | expectedFunction       -- "expected function type"
  | expectedFunctionPointer -- "expected a function pointer before the function arguments"
  | invalidResultIndex     -- "invalid result index"
  | mismatchedResult       -- "mismatched result #i"
  | invalidArgumentType    -- "invalid argument #i type"
  | jmpPStackShape         -- "evaluation stack must have exactly one item"
  | jmpPTOSType            -- "invalid TOS type"
  | invalidLinkage         -- "invalid linkage"
deriving DecidableEq, Repr

/-- `TypeCache.MustType`: parse failure is a panic in Go; a distinguished
error here. -/
def mustType (t : TypeID) : Except VErr Typ :=
  match typeOfText t with
  | some u => .ok u
  | none => .error .mustTypeFailure

/-- `Type.Pointer()` via `newPointerType`: a pointer node whose id is `'*'`
followed by the element's interned text. -/
def Typ.pointer (t : Typ) : Typ := .pointerT (0x2a :: t.tid) t

/-- `verifier.isVoidPtr` on an already parsed type: walk the pointer chain and
compare each level's id with `*struct{}`. -/
def isVoidPtrT : Typ → Bool
  | .pointerT tid e => tid = idVoidPtr || isVoidPtrT e
  | _ => false

mutual

/-- `verifier.assignable`.  The recursion follows interned ids (in Go the
nested lookups hit the type cache, which holds exactly the nodes parsed for
those ids); the linear fuel bound covers the strictly shrinking id texts and
is never exhausted in the development's uses. -/
def assignableF : Nat → TypeID → TypeID → Except VErr Bool
  | 0, _, _ => .error .outOfFuel
  | fuel + 1, a, b =>
    if a = b then .ok true
    else do
      let t0 ← mustType a
      let u0 ← mustType b
      let t := if t0.kind = .Function then t0.pointer else t0
      let u := if u0.kind = .Function then u0.pointer else u0
      assignLoop fuel (isVoidPtrT t0) (isVoidPtrT u0) t u

/-- The pointer-stripping loop of `assignable`; `va`/`vb` are the loop's
invariant `isVoidPtr(a)`/`isVoidPtr(b)` tests of the original ids. -/
def assignLoop : Nat → Bool → Bool → Typ → Typ → Except VErr Bool
  | 0, _, _, _, _ => .error .outOfFuel
  | fuel + 1, va, vb, t, u =>
    match t, u with
    | .pointerT _ te, .pointerT _ ue =>
      if va || vb then .ok true
      else
        match te, ue with
        | .functionT _ _ rs _, .functionT _ _ rs' _ =>
          if rs.length ≠ rs'.length then .ok false
          else allAssignable fuel (rs.zip rs')
        | _, _ => assignLoop fuel va vb te ue
    | _, _ => .ok false

/-- The pointwise result-list check of `assignable` on function pointees. -/
def allAssignable : Nat → List (Typ × Typ) → Except VErr Bool
  | 0, _ => .error .outOfFuel
  | _ + 1, [] => .ok true
  | fuel + 1, (r, r') :: rest => do
    let x ← assignableF fuel r.tid r'.tid
    if x then allAssignable fuel rest else .ok false

end

/-- `assignable` with its sufficient fuel. -/
def assignable (a b : TypeID) : Except VErr Bool :=
  assignableF (a.length + b.length + 64) a b

/-- `verifier.validPtrBinop`.  After the conditional swap the integer-kind
switch tests the pointer operand and can never match; kept verbatim. -/
def validPtrBinop (a b : TypeID) : Except VErr Bool := do
  let x ← assignable a b
  if x then return true
  let t0 ← mustType a
  let u0 ← mustType b
  let t := if t0.kind ≠ .Pointer ∧ u0.kind = .Pointer then u0 else t0
  if t.kind ≠ .Pointer then return false
  match t.kind with
  | .Int8 | .Int16 | .Int32 | .Int64 | .Uint8 | .Uint16 | .Uint32 | .Uint64 =>
    return true
  | _ => return false

/-- Branch-target keys of the verifier's `labels` map: Go encodes a named
label as the negated (positive) interned id and a numbered one as its
non-negative number, which keeps the two disjoint; a sum type captures the
same disjointness over byte-string names. -/
inductive LabKey where
  | name (nm : NameID)
  | num (k : Int)
deriving DecidableEq, Repr

/-- The key under which a branch target is registered and looked up:
`n := -int(NameID); if n == 0 { n = Number }`. -/
def labKey (nm : NameID) (num : Int) : LabKey :=
  if nm ≠ [] then .name nm else .num num

/-- The verifier context fixed for a traversal: the function's type and the
prepass results. -/
structure VerCtx where
  functionTypeID : TypeID
  labels : List (LabKey × Nat)
  vars : List TypeID -- `verifier.variables` (the name is reserved in Lean)

/-- The mutable part of `verifier` that local `verify` methods touch: the
evaluation stack (top at the head here; Go appends at the end) and the
value-block nesting level. -/
structure VState where
  stack : List TypeID
  blockValueLevel : Int
deriving Repr

/-- `verifier.binop`. -/
def binop (t : TypeID) (st : VState) : Except VErr VState :=
  match st.stack with
  | b :: a :: rest => do
    if a ≠ b then
      let ok ← validPtrBinop a b
      if ¬ ok then throw .mismatchedOperands
    if t ≠ [] ∧ a ≠ t then
      let ok ← assignable a t
      if ¬ ok then throw .mismatchedOperandsResult
    pure { st with stack := a :: rest }
  | _ => throw .underflow

/-- `verifier.unop`. -/
def unop (int : Bool) (st : VState) : Except VErr VState :=
  match st.stack with
  | a :: _ => do
    let t ← mustType a
    match t.kind with
    | .Int8 | .Int16 | .Int32 | .Int64 | .Uint8 | .Uint16 | .Uint32 | .Uint64 =>
      pure st
    | .Float32 | .Float64 | .Float128 =>
      if int then throw .invalidOperandType else pure st
    | _ => throw .invalidOperandType
  | [] => throw .underflow

/-- `verifier.relop`: `binop(0)` then the result becomes `int32`. -/
def relop (t : TypeID) (st : VState) : Except VErr VState := do
  let _ := t
  let st' ← binop [] st
  match st'.stack with
  | x :: rest => let _ := x; pure { st' with stack := idInt32 :: rest }
  | [] => pure st'

/-- `verifier.branch`: pop an `int32` condition. -/
def branch (st : VState) : Except VErr VState :=
  match st.stack with
  | g :: rest =>
    if g ≠ idInt32 then throw .branchStackType else pure { st with stack := rest }
  | [] => throw .underflow

/-- The result-slot check shared by `Call.verify` and `CallFP.verify`:
`(slot id, declared result)` pairs. -/
def checkResultTypes : List (TypeID × Typ) → Except VErr Unit
  | [] => pure ()
  | (g, r) :: rest => do
    if g ≠ r.tid then
      let ok ← assignable g r.tid
      if ¬ ok then throw .mismatchedResult
    checkResultTypes rest

/-- The argument check shared by `Call.verify` and `CallFP.verify`; a pointer
(or direct) array parameter accepts a pointer to its item type. -/
def checkArgTypes : List (TypeID × Typ) → Except VErr Unit
  | [] => pure ()
  | (g, a) :: rest => do
    if g ≠ a.tid then
      let ok ← assignable g a.tid
      if ¬ ok then
        let u := match a with | .pointerT _ e => e | _ => a
        let ok2 := match u with
          | .arrayT _ item _ => g = (item.pointer).tid
          | _ => false
        if ok2 = false then throw .invalidArgumentType
    checkArgTypes rest

/-- Strip the pointer chain (the loop of `JmpP.verify`). -/
def stripPtrs : Typ → Typ
  | .pointerT _ e => stripPtrs e
  | t => t

/-- The per-operation `verify(v *verifier)` methods of `operation.go`. -/
def opVerify (C : VerCtx) (op : Operation) (st : VState) : Except VErr VState :=
  match op with
  | .add t _ =>
    if t = [] then throw .missingType else binop t st
  | .allocResult t _ _ =>
    if t = [] then throw .missingType else pure { st with stack := t :: st.stack }
  | .argumentsOp _ _ => pure st -- verified in Call/CallFP
  | .beginScope v _ =>
    let bvl := if v then st.blockValueLevel + 1 else st.blockValueLevel
    if st.stack ≠ [] ∧ bvl = 0 then throw .nonEmptyAtScopeBegin
    else pure { st with blockValueLevel := bvl }
  | .call argc _ _ t _ => do
    if t = [] then throw .missingType
    let tt ← mustType t
    match tt with
    | .functionT _ argTs resTs _ =>
      if st.stack.length < argc then throw .underflow
      if st.stack.length < resTs.length + argc then throw .underflow
      checkResultTypes ((((st.stack.drop argc).take resTs.length).reverse).zip resTs)
      checkArgTypes
        (((st.stack.take argc).reverse).zip argTs)
      pure { st with stack := st.stack.drop argc }
    | _ => throw .expectedFunction
  | .callFP argc _ t _ => do
    if t = [] then throw .missingType
    if st.stack.length < 1 + argc then throw .underflow
    let pt ← mustType (st.stack.getD argc [])
    match pt with
    | .pointerT _ (.functionT _ argTs resTs _) =>
      if st.stack.length < resTs.length + 1 + argc then throw .underflow
      checkResultTypes ((((st.stack.drop (argc + 1)).take resTs.length).reverse).zip resTs)
      checkArgTypes (((st.stack.take argc).reverse).zip argTs)
      pure { st with stack := st.stack.drop (argc + 1) }
    | _ => throw .expectedFunctionPointer
  | .constOp t _ _ =>
    if t = [] then throw .missingType else pure { st with stack := t :: st.stack }
  | .const32 _ t _ _ =>
    if t = [] then throw .missingType else pure { st with stack := t :: st.stack }
  | .convert r t _ => do
    if t = [] ∨ r = [] then throw .missingType
    match st.stack with
    | g :: rest =>
      if g ≠ t then
        let ok ← assignable g t
        if ¬ ok then throw .mismatchedTypes
      pure { st with stack := r :: rest }
    | [] => throw .underflow
  | .drop _ _ t _ => do
    if t = [] then throw .missingType
    match st.stack with
    | g :: rest =>
      let tt ← mustType t
      let e := match tt with
        | .arrayT _ item _ => (item.pointer).tid
        | _ => t
      let ok ← assignable g e
      if ¬ ok then throw .mismatchedTypes
      pure { st with stack := rest }
    | [] => throw .underflow
  | .dup t _ => do
    if t = [] then throw .missingType
    match st.stack with
    | g :: _ =>
      if g ≠ t then
        let ok ← assignable g t
        if ¬ ok then throw .mismatchedTypes
      pure { st with stack := t :: st.stack }
    | [] => throw .underflow
  | .endScope v _ =>
    if st.stack ≠ [] ∧ st.blockValueLevel = 0 then throw .nonEmptyAtScopeEnd
    else pure { st with blockValueLevel := if v then st.blockValueLevel - 1 else st.blockValueLevel }
  | .globalOp addr _ lk _ t _ _ => do
    if t = [] then throw .missingType
    if lk ≠ .External ∧ lk ≠ .Internal then throw .invalidLinkage
    let tt ← mustType t
    if addr ∧ tt.kind ≠ .Pointer then throw .expectedPointer
    pure { st with stack := t :: st.stack }
  | .jmp _ _ _ _ => pure st
  | .jmpP _ => do
    match st.stack with
    | [g0] =>
      let g ← mustType g0
      if (stripPtrs g).tid ≠ idVoid then throw .jmpPTOSType
      pure { st with stack := [] }
    | _ => throw .jmpPStackShape
  | .jnz _ _ _ _ => branch st
  | .jz _ _ _ _ => branch st
  | .labelOp _ _ _ nm _ num _ =>
    if nm ≠ [] ∧ st.stack ≠ [] then throw .nonEmptyAtNamedLabel
    else if ¬ (nm ≠ [] ∨ num ≥ 0) then throw .invalidLabel
    else pure st
  | .nilOp t _ =>
    if t = [] then throw .missingType else pure { st with stack := t :: st.stack }
  | .notOp _ =>
    match st.stack with
    | g :: _ => if g ≠ idInt32 then throw .mismatchedTypes else pure st
    | [] => throw .underflow
  | .panicOp _ => pure st
  | .result addr idx t _ => do
    if t = [] then throw .missingType
    let ft ← mustType C.functionTypeID
    match ft with
    | .functionT _ _ resTs _ =>
      if idx < 0 ∨ idx ≥ (resTs.length : Int) then throw .invalidResultIndex
      let tr := resTs.getD idx.toNat (.base [] .Int8)
      let tr := if addr then tr.pointer else tr
      if t ≠ tr.tid then throw .mismatchedTypes
      pure { st with stack := t :: st.stack }
    | _ => throw .mustTypeFailure -- type assertion panic: function type expected
  | .returnOp _ =>
    if st.stack ≠ [] then throw .nonEmptyOnReturn else pure st
  | .store _ _ t _ => do
    if t = [] then throw .missingType
    match st.stack with
    | value :: addr :: rest =>
      let pt ← mustType addr
      match pt with
      | .pointerT _ e =>
        let ok ← assignable e.tid value
        if ¬ ok then throw .mismatchedOperands
        pure { st with stack := value :: rest }
      | _ => throw .expectedPointer
    | _ => throw .underflow
  | .variableDeclaration _ _ t _ _ _ =>
    if t = [] then throw .missingType else pure st

/-- `FunctionDefinition`. -/
structure FunctionDefinition where
  arguments : List NameID
  body : List Operation
  base : ObjectBase
  results : List NameID
deriving Repr

/-- `unconvert` (`etc.go`): remove `Convert` operations whose operand and
result types coincide. -/
def unconvert (body : List Operation) : List Operation :=
  body.filter fun op =>
    match op with
    | .convert r t _ => ¬ (t = r)
    | _ => true

/-- The state of `Verify`'s first walk over the body. -/
structure PreState where
  blockLevel : Int
  labels : List (LabKey × Nat)
  vars : List TypeID

/-- The first walk of `FunctionDefinition.Verify`: scope balance (with the
return-before-top-level-`EndScope` requirement), label registration and
variable-declaration indices. -/
def prepassGo (body : List Operation) : Nat → List Operation → PreState →
    Except VErr PreState
  | _, [], st => pure st
  | ip, op :: rest, st => do
    let st' ← (match op with
      | .beginScope _ _ => pure { st with blockLevel := st.blockLevel + 1 }
      | .endScope _ _ =>
        if st.blockLevel = 0 then throw .unbalancedEndScope
        else
          let bl := st.blockLevel - 1
          if bl = 0 then
            match body.get? (ip - 1) with
            | some (.returnOp _) => pure { st with blockLevel := bl }
            | _ => throw .missingReturn
          else pure { st with blockLevel := bl }
      | .labelOp _ _ _ nm _ num _ =>
        let k := labKey nm num
        if (st.labels.lookup k).isSome then throw .labelRedefined
        else pure { st with labels := st.labels ++ [(k, ip)] }
      | .variableDeclaration idx _ t _ _ _ =>
        if idx ≠ (st.vars.length : Int) then throw .invalidVariableIndex
        else pure { st with vars := st.vars ++ [t] }
      | _ => pure st)
    prepassGo body (ip + 1) rest st'

/-- The second walk of `Verify`: every branch target must be a registered
label; the presence of a `JmpP` switches the computed-goto closure on. -/
def resolutionGo (labels : List (LabKey × Nat)) : List Operation → Bool →
    Except VErr Bool
  | [], cg => pure cg
  | op :: rest, cg =>
    match op with
    | .jmp _ nm num _ | .jnz _ nm num _ | .jz _ nm num _ =>
      if (labels.lookup (labKey nm num)).isNone then throw .undefinedBranchTarget
      else resolutionGo labels rest cg
    | .jmpP _ => resolutionGo labels rest true
    | _ => resolutionGo labels rest cg

/-- State threaded through the abstract execution `g`: the body (mutable:
constant-branch folding rewrites it), the visited bitmap `ipFlags`, the `phi`
snapshots and the value-block level of the shared `verifier`. -/
structure GState where
  body : List Operation
  flags : List Bool
  phi : List (Nat × List TypeID)
  bvl : Int

/-- The join check of `g` on a revisit: identical depth, entries equal or
assignable. -/
def checkPhi : List (TypeID × TypeID) → Except VErr Unit
  | [] => pure ()
  | (v, e) :: rest => do
    if v ≠ e then
      let ok ← assignable v e
      if ¬ ok then throw .stacksDiffer
    checkPhi rest

/-- The depth-first abstract execution `g` of `FunctionDefinition.Verify`.
On a revisited instruction the current stack must match the recorded `phi`
snapshot; on a first visit the operation's local verify runs, then the
dispatch follows `Jmp`, folds a constant `Jnz`/`Jz` (always-taken becomes a
`Jmp` and drops the constant from emission, never-taken drops both and falls
through), records `phi` at a `Label`, ends the path at `Return`/`Panic`, and
otherwise falls through to `ip+1`. -/
def gStep : Nat → VerCtx → GState → Nat → List TypeID → Except VErr GState
  | 0, _, _, _, _ => throw .outOfFuel
  | fuel + 1, C, st, ip, stack =>
    match st.body.get? ip with
    | none => throw .ipOutOfRange
    | some op =>
      if st.flags.getD ip false then
        match st.phi.lookup ip with
        | some ex =>
          if stack.length ≠ ex.length then throw .stacksDepthDiffer
          else do
            checkPhi (stack.zip ex)
            pure st
        | none => throw .phiMissing
      else do
        let st1 := { st with flags := st.flags.set ip true }
        let vs ← opVerify C op ⟨stack, st1.bvl⟩
        let st2 := { st1 with bvl := vs.blockValueLevel }
        let stack := vs.stack
        match op with
        | .jmp _ nm num _ =>
          gStep fuel C st2 ((C.labels.lookup (labKey nm num)).getD 0) stack
        | .jnz _ nm num posJ =>
          let n := labKey nm num
          match (if ip = 0 then none else st2.body.get? (ip - 1)) with
          | some (.const32 _ _ v _) =>
            if v ≠ 0 then
              -- always taken: rewrite to Jmp, drop the constant from emission
              let st3 := { st2 with flags := st2.flags.set (ip - 1) false,
                                    body := st2.body.set ip (.jmp false nm num posJ) }
              gStep fuel C st3 ((C.labels.lookup n).getD 0) stack
            else
              -- never taken: drop both from emission and fall through
              let st3 := { st2 with flags := (st2.flags.set (ip - 1) false).set ip false }
              gStep fuel C st3 (ip + 1) stack
          | _ => do
            let st3 ← gStep fuel C st2 ((C.labels.lookup n).getD 0) stack
            gStep fuel C st3 (ip + 1) stack
        | .jz _ nm num posJ =>
          let n := labKey nm num
          match (if ip = 0 then none else st2.body.get? (ip - 1)) with
          | some (.const32 _ _ v _) =>
            if v = 0 then
              let st3 := { st2 with flags := st2.flags.set (ip - 1) false,
                                    body := st2.body.set ip (.jmp false nm num posJ) }
              gStep fuel C st3 ((C.labels.lookup n).getD 0) stack
            else
              let st3 := { st2 with flags := (st2.flags.set (ip - 1) false).set ip false }
              gStep fuel C st3 (ip + 1) stack
          | _ => do
            let st3 ← gStep fuel C st2 ((C.labels.lookup n).getD 0) stack
            gStep fuel C st3 (ip + 1) stack
        | .labelOp _ _ _ _ _ _ _ =>
          gStep fuel C { st2 with phi := (ip, stack) :: st2.phi } (ip + 1) stack
        | .returnOp _ => pure st2
        | .panicOp _ => pure st2
        | _ => gStep fuel C st2 (ip + 1) stack

/-- The computed-goto closure: re-run `g` from every named label with its
recorded snapshot (`nil` when absent). -/
def coverNamed (fuel : Nat) (C : VerCtx) : GState → List (LabKey × Nat) →
    Except VErr GState
  | st, [] => pure st
  | st, (k, v) :: rest =>
    match k with
    | .num _ => coverNamed fuel C st rest
    | .name _ => do
      let st' ← gStep fuel C st v ((st.phi.lookup v).getD [])
      coverNamed fuel C st' rest

/-- The operations `Verify`'s final pruning keeps unconditionally. -/
def structuralOp : Operation → Bool
  | .beginScope _ _ => true
  | .endScope _ _ => true
  | .variableDeclaration _ _ _ _ _ _ => true
  | .returnOp _ => true
  | _ => false

/-- The dead-code pruning of `Verify`: keep structural operations and every
operation whose ip was visited. -/
def pruneBody (body : List Operation) (flags : List Bool) : List Operation :=
  (body.zip flags).filterMap fun x =>
    if structuralOp x.1 ∨ x.2 then some x.1 else none

/-- Fuel for the abstract execution; quadratic in the body size, which covers
every traversal the dispatch can make (each ip is expanded at most once per
entry path, entries being bounded by the body length). -/
def gFuel (body : List Operation) : Nat := (body.length + 2) * (body.length + 2)

/-- `FunctionDefinition.Verify`: returns the (possibly rewritten and pruned)
body on success. -/
def Verify (f : FunctionDefinition) : Except VErr (List Operation) :=
  match f.body with
  | [] => throw .bodyCannotBeEmpty
  | [op] =>
    match op with
    | .returnOp _ => pure f.body
    | .panicOp _ => pure f.body
    | _ => throw .invalidOperation
  | _ :: _ :: _ => do
    let body0 := unconvert f.body
    let pre ← prepassGo body0 0 body0 ⟨0, [], []⟩
    if pre.blockLevel ≠ 0 then throw .unbalancedScopes
    let computedGotos ← resolutionGo pre.labels body0 false
    let C : VerCtx := ⟨f.base.typeID, pre.labels, pre.vars⟩
    let st0 : GState := ⟨body0, List.replicate body0.length false, [], 0⟩
    let st1 ← gStep (gFuel body0) C st0 0 []
    let st2 ← if computedGotos then coverNamed (gFuel body0) C st1 pre.labels
              else pure st1
    pure (pruneBody st2.body st2.flags)

/-! ## Linker (`link.go`)

Errors again name the Go failure: `panic("internal error")`, `panic("TODO")`,
undefined-symbol panics, the `*PointerType` assertion of `checkCalls`, the
`_start` lookup, slice-index panics, and the embedding's fuel bound.  The
public entry points recover panics into returned errors, so a single error
type covers both. -/

inductive LinkErr where
  | internalError
  | todo
  | undefinedExtern
  | undefinedIntern
  | startUndefined
  | typeAssertion
  | linkMustTypeFailure
  | indexOutOfRange
  | linkOutOfFuel
deriving DecidableEq, Repr

/-- `TypeCache.MustType` as used by the linker. -/
def mustTypeL (t : TypeID) : Except LinkErr Typ :=
  match typeOfText t with
  | some u => .ok u
  | none => .error .linkMustTypeFailure

/-- The `extern` map of the Go linker: a (translation unit, index in unit) reference. -/
structure ExternRef where
  unit : Nat
  index : Nat
deriving DecidableEq, Repr

/-- Insert-or-replace on an association list (Go map assignment). -/
def assocSet [BEq α] : List (α × β) → α → β → List (α × β)
  | [], k, v => [(k, v)]
  | (k', v') :: rest, k, v =>
    if k' == k then (k, v) :: rest else (k', v') :: assocSet rest k v

/-- Read `l.in[u][i]`. -/
def getObj (units : List (List Object)) (u i : Nat) : Option Object :=
  (units.getD u []).get? i

/-- Write `l.in[u][i]` (the symbol-collection merge mutates objects in
place). -/
def setObj (units : List (List Object)) (u i : Nat) (o : Object) :
    List (List Object) :=
  units.set u ((units.getD u []).set i o)

/-- The symbol tables built by `linker.collectSymbols`, together with the
input units (which the duplicate-external-data merge may update). -/
structure SymState where
  externs : List (NameID × ExternRef)
  intern : List ((NameID × Nat) × Nat)
  units : List (List Object)

/-- One object of `collectSymbols`: register or merge an external symbol,
register an internal one. -/
def collectStep (unit i : Nat) (x : Object) (st : SymState) :
    Except LinkErr SymState :=
  match x with
  | .dataDefinition b v =>
    match b.linkage with
    | .External =>
      match st.externs.lookup b.nameID with
      | some ex =>
        match getObj st.units ex.unit ex.index with
        | some (.dataDefinition db dv) =>
          if b.typeID ≠ db.typeID then throw .internalError
          else if v.isSome ∧ dv.isNone then
            pure { st with
              units := setObj st.units ex.unit ex.index (.dataDefinition db v) }
          else pure st
        | _ => throw .internalError
      | none => pure { st with externs := assocSet st.externs b.nameID ⟨unit, i⟩ }
    | .Internal =>
      match st.intern.lookup (b.nameID, unit) with
      | some _ => throw .todo
      | none => pure { st with intern := assocSet st.intern (b.nameID, unit) i }
  | .functionDefinition _ _ b _ =>
    match b.linkage with
    | .External =>
      match st.externs.lookup b.nameID with
      | some ex =>
        match getObj st.units ex.unit ex.index with
        | some (.functionDefinition _ dbody db _) =>
          if b.typeID ≠ db.typeID then throw .internalError
          else if dbody.length ≠ 1 then pure st
          else
            match dbody with
            | [.panicOp _] =>
              pure { st with externs := assocSet st.externs b.nameID ⟨unit, i⟩ }
            | _ => throw .internalError
        | _ => throw .internalError
      | none => pure { st with externs := assocSet st.externs b.nameID ⟨unit, i⟩ }
    | .Internal =>
      match st.intern.lookup (b.nameID, unit) with
      | some _ => throw .todo
      | none => pure { st with intern := assocSet st.intern (b.nameID, unit) i }

/-- The inner loop of `collectSymbols` over one unit. -/
def collectUnit (unit : Nat) : Nat → List Object → SymState → Except LinkErr SymState
  | _, [], st => pure st
  | i, x :: rest, st => collectStep unit i x st >>= collectUnit unit (i + 1) rest

/-- The outer loop of `collectSymbols`. -/
def collectAll : Nat → List (List Object) → SymState → Except LinkErr SymState
  | _, [], st => pure st
  | u, us :: rest, st => collectUnit u 0 us st >>= collectAll (u + 1) rest

/-- `linker.collectSymbols`. -/
def collectSymbols (units : List (List Object)) : Except LinkErr SymState :=
  collectAll 0 units ⟨[], [], units⟩

/-- The read-only context of the linking phase. -/
structure LinkCtx where
  externs : List (NameID × ExternRef)
  intern : List ((NameID × Nat) × Nat)
  units : List (List Object)

/-- The growing output of the linking phase. -/
structure LState where
  defined : List (ExternRef × Nat)
  out : List Object

/-- `linker.checkCalls`: one pass over a function body.  `prev` is the
operation preceding the current one in the input (the source reads `s[i-1]`
of the compacted slice, which holds a `Global` exactly when the input does,
`Global` operations being written unmodified); `static` is the side stack of
resolved call targets (head is the top); `acc` accumulates the compacted
output in reverse, so `s[w-1] = x` is a head replacement. -/
def checkCallsGo (out : List Object) :
    Option Operation → List Operation → List Int → List Operation →
    Except LinkErr (List Operation)
  | _, [], _, acc => pure acc.reverse
  | prev, v :: rest, static, acc =>
    match v with
    | .argumentsOp posA _ =>
      match prev with
      | some (.globalOp _ yidx _ _ _ _ _) =>
        (match (if 0 ≤ yidx then out.get? yidx.toNat else none) with
        | some (.functionDefinition _ _ _ _) =>
          match acc with
          | _ :: accTail =>
            checkCallsGo out (some v) rest (yidx :: static)
              (.argumentsOp posA false :: accTail)
          | [] => throw .indexOutOfRange
        | some (.dataDefinition _ _) =>
          checkCallsGo out (some v) rest ((-1) :: static)
            (.argumentsOp posA true :: acc)
        | none => throw .indexOutOfRange)
      | _ =>
        checkCallsGo out (some v) rest ((-1) :: static)
          (.argumentsOp posA true :: acc)
    | .call _ _ _ _ _ => throw .todo
    | .callFP argc comma t posC =>
      (match static with
      | [] => throw .indexOutOfRange
      | index :: staticRest =>
        if index < 0 then
          checkCallsGo out (some v) rest staticRest (v :: acc)
        else do
          let pt ← mustTypeL t
          match pt with
          | .pointerT _ e =>
            checkCallsGo out (some v) rest staticRest
              (.call argc comma index e.tid posC :: acc)
          | _ => throw .typeAssertion)
    | _ => checkCallsGo out (some v) rest static (v :: acc)

/-- `linker.checkCalls` from the start of a body. -/
def checkCalls (out : List Object) (body : List Operation) :
    Except LinkErr (List Operation) :=
  checkCallsGo out none body [] []

mutual

/-- `linker.define`: idempotent through the `defined` table; otherwise
dispatch on the shape of the referenced object. -/
def define : Nat → LinkCtx → LState → ExternRef → Except LinkErr (LState × Nat)
  | 0, _, _, _ => throw .linkOutOfFuel
  | fuel + 1, L, st, e =>
    match st.defined.lookup e with
    | some i => pure (st, i)
    | none =>
      match getObj L.units e.unit e.index with
      | some (.dataDefinition b v) => defineData fuel L st e b v
      | some (.functionDefinition args body b res) =>
        defineFunc fuel L st e args body b res
      | none => throw .indexOutOfRange

/-- `linker.defineData`: append the object, then resolve `AddressValue`
nodes of the initializer recursively. -/
def defineData (fuel : Nat) (L : LinkCtx) (st : LState) (e : ExternRef)
    (b : ObjectBase) (v : Option Val) : Except LinkErr (LState × Nat) :=
  match fuel with
  | 0 => throw .linkOutOfFuel
  | fuel + 1 =>
    let r := st.out.length
    let st1 : LState := ⟨assocSet st.defined e r, st.out ++ [.dataDefinition b v]⟩
    match v with
    | none => pure (⟨st1.defined, st1.out.set r (.dataDefinition b none)⟩, r)
    | some v0 => do
      let (st2, v1) ← walkDataVal fuel L st1 e v0
      pure (⟨st2.defined, st2.out.set r (.dataDefinition b (some v1))⟩, r)

/-- The value walk of `defineData` (its local closure `f`). -/
def walkDataVal (fuel : Nat) (L : LinkCtx) (st : LState) (e : ExternRef) :
    Val → Except LinkErr (LState × Val)
  | .addressValue _ lb lk nm off =>
    (match fuel with
    | 0 => throw .linkOutOfFuel
    | fuel + 1 =>
      match lk with
      | .External =>
        match L.externs.lookup nm with
        | some ex => do
          let (st', i) ← define fuel L st ex
          pure (st', .addressValue (i : Int) lb lk nm off)
        | none => throw .undefinedExtern
      | .Internal =>
        match L.intern.lookup (nm, e.unit) with
        | some exi => do
          let (st', i) ← define fuel L st ⟨e.unit, exi⟩
          pure (st', .addressValue (i : Int) lb lk nm off)
        | none => throw .undefinedIntern)
  | .compositeValue vs =>
    (match fuel with
    | 0 => throw .linkOutOfFuel
    | fuel + 1 => do
      let (st', vs') ← walkDataVals fuel L st e vs
      pure (st', .compositeValue vs'))
  | .int32Value x => pure (st, .int32Value x)
  | .int64Value x => pure (st, .int64Value x)
  | .float32Value x => pure (st, .float32Value x)
  | .float64Value x => pure (st, .float64Value x)
  | .complex64Value x => pure (st, .complex64Value x)
  | .complex128Value x => pure (st, .complex128Value x)
  | .stringValue o i => pure (st, .stringValue o i)
  | .wideStringValue x => pure (st, .wideStringValue x)
  | .designatedValue _ _ => throw .internalError

/-- The `CompositeValue` loop of the `defineData` walk. -/
def walkDataVals (fuel : Nat) (L : LinkCtx) (st : LState) (e : ExternRef) :
    List Val → Except LinkErr (LState × List Val)
  | [] => pure (st, [])
  | v :: vs =>
    match fuel with
    | 0 => throw .linkOutOfFuel
    | fuel + 1 => do
      let (st1, v') ← walkDataVal fuel L st e v
      let (st2, vs') ← walkDataVals fuel L st1 e vs
      pure (st2, v' :: vs')

/-- `linker.initializer` for `VariableDeclaration` values: scalars and `nil`
pass through, an external `AddressValue` is resolved (internal linkage is an
internal-error panic here), composites recurse. -/
def walkInitVal (fuel : Nat) (L : LinkCtx) (st : LState) :
    Val → Except LinkErr (LState × Val)
  | .addressValue _ lb lk nm off =>
    (match fuel with
    | 0 => throw .linkOutOfFuel
    | fuel + 1 =>
      match lk with
      | .External =>
        match L.externs.lookup nm with
        | some ex => do
          let (st', i) ← define fuel L st ex
          pure (st', .addressValue (i : Int) lb lk nm off)
        | none => throw .undefinedExtern
      | .Internal => throw .internalError)
  | .compositeValue vs =>
    (match fuel with
    | 0 => throw .linkOutOfFuel
    | fuel + 1 => do
      let (st', vs') ← walkInitVals fuel L st vs
      pure (st', .compositeValue vs'))
  | .int32Value x => pure (st, .int32Value x)
  | .int64Value x => pure (st, .int64Value x)
  | .float32Value x => pure (st, .float32Value x)
  | .float64Value x => pure (st, .float64Value x)
  | .complex64Value x => pure (st, .complex64Value x)
  | .complex128Value x => pure (st, .complex128Value x)
  | .stringValue o i => pure (st, .stringValue o i)
  | .wideStringValue x => pure (st, .wideStringValue x)
  | .designatedValue _ _ => throw .internalError

/-- The `CompositeValue` loop of `linker.initializer`. -/
def walkInitVals (fuel : Nat) (L : LinkCtx) (st : LState) :
    List Val → Except LinkErr (LState × List Val)
  | [] => pure (st, [])
  | v :: vs =>
    match fuel with
    | 0 => throw .linkOutOfFuel
    | fuel + 1 => do
      let (st1, v') ← walkInitVal fuel L st v
      let (st2, vs') ← walkInitVals fuel L st1 vs
      pure (st2, v' :: vs')

/-- The per-operation fixup of the `defineFunc` body walk: every operation is
kept as-is except `Const` of an `AddressValue`, `Global` (both resolved
through `define`, `Global` with the `__builtin_` fallback for missing
externals) and `VariableDeclaration` (whose initializer is linked). -/
def linkOp (fuel : Nat) (L : LinkCtx) (st : LState) (e : ExternRef) :
    Operation → Except LinkErr (LState × Operation)
  | .constOp t v posC =>
    (match fuel with
    | 0 => throw .linkOutOfFuel
    | fuel + 1 =>
      match v with
      | some (.addressValue _ lb lk nm off) =>
        (match lk with
        | .External =>
          match L.externs.lookup nm with
          | some ex => do
            let (st', i) ← define fuel L st ex
            pure (st', .constOp t (some (.addressValue (i : Int) lb lk nm off)) posC)
          | none => throw .todo
        | .Internal =>
          match L.intern.lookup (nm, e.unit) with
          | some exi => do
            let (st', i) ← define fuel L st ⟨e.unit, exi⟩
            pure (st', .constOp t (some (.addressValue (i : Int) lb lk nm off)) posC)
          | none => throw .todo)
      | _ => throw .internalError)
  | .globalOp addr _ lk nm t tn posG =>
    (match fuel with
    | 0 => throw .linkOutOfFuel
    | fuel + 1 =>
      match lk with
      | .External =>
        (match L.externs.lookup nm with
        | some ex => do
          let (st', i) ← define fuel L st ex
          pure (st', .globalOp addr (i : Int) lk nm t tn posG)
        | none =>
          match L.externs.lookup (idBuiltinPrefix ++ nm) with
          | some ex => do
            let (st', i) ← define fuel L st ex
            pure (st', .globalOp addr (i : Int) lk nm t tn posG)
          | none => throw .undefinedExtern)
      | .Internal =>
        match L.intern.lookup (nm, e.unit) with
        | some exi => do
          let (st', i) ← define fuel L st ⟨e.unit, exi⟩
          pure (st', .globalOp addr (i : Int) lk nm t tn posG)
        | none => throw .undefinedIntern)
  | .variableDeclaration idx nm t tn v posV =>
    (match fuel with
    | 0 => throw .linkOutOfFuel
    | fuel + 1 =>
      match v with
      | none => pure (st, .variableDeclaration idx nm t tn none posV)
      | some v0 => do
        let (st', v1) ← walkInitVal fuel L st v0
        pure (st', .variableDeclaration idx nm t tn (some v1) posV))
  | op => pure (st, op)

/-- The body loop of `defineFunc`. -/
def walkBody (fuel : Nat) (L : LinkCtx) (st : LState) (e : ExternRef) :
    List Operation → Except LinkErr (LState × List Operation)
  | [] => pure (st, [])
  | op :: rest =>
    match fuel with
    | 0 => throw .linkOutOfFuel
    | fuel + 1 => do
      let (st1, op') ← linkOp fuel L st e op
      let (st2, rest') ← walkBody fuel L st1 e rest
      pure (st2, op' :: rest')

/-- `linker.defineFunc`: append the function, `unconvert` its body, resolve
the body's references, then run `checkCalls`. -/
def defineFunc (fuel : Nat) (L : LinkCtx) (st : LState) (e : ExternRef)
    (args : List NameID) (body : List Operation) (b : ObjectBase)
    (res : List NameID) : Except LinkErr (LState × Nat) :=
  match fuel with
  | 0 => throw .linkOutOfFuel
  | fuel + 1 => do
    let r := st.out.length
    let st1 : LState :=
      ⟨assocSet st.defined e r, st.out ++ [.functionDefinition args body b res]⟩
    let body0 := unconvert body
    let (st2, body1) ← walkBody fuel L st1 e body0
    let body2 ← checkCalls st2.out body1
    pure (⟨st2.defined, st2.out.set r (.functionDefinition args body2 b res)⟩, r)

end

/-- Fuel that covers any chain of nested `define` calls over the given units
(each non-memoised call enters one more object; sizes are summed
generously). -/
def linkFuel (units : List (List Object)) : Nat :=
  64 + 64 * units.foldl (fun acc us => acc + us.foldl (fun acc2 o => acc2 +
    (match o with
     | .dataDefinition _ _ => 8
     | .functionDefinition _ body _ _ => 8 + body.length)) 8) 8

/-- `linker.linkMain`. -/
def linkMainGo (L : LinkCtx) (fuel : Nat) : Except LinkErr LState :=
  match L.externs.lookup idStart with
  | none => throw .startUndefined
  | some start => do
    let (st, _) ← define fuel L ⟨[], []⟩ start
    pure st

/-- `LinkMain` (the public entry point; panic recovery folds every panic into
the returned error, as modelled by the single error type). -/
def LinkMain (units : List (List Object)) : Except LinkErr (List Object) := do
  let sym ← collectSymbols units
  let st ← linkMainGo ⟨sym.externs, sym.intern, sym.units⟩ (linkFuel units)
  pure st.out

/-- The `main` object vector injected by `LinkLib` when no unit defines a
function named `main` (every unmentioned field is the Go zero value). -/
def mainStub : List Object :=
  [.functionDefinition []
    [.result true 0 idPint32 0,
     .const32 false idInt32 0 0,
     .store 0 0 idInt32 0,
     .drop false false idInt32 0,
     .beginScope false 0,
     .returnOp 0,
     .endScope false 0]
    ⟨0, idMain, [], .External, []⟩ []]

/-- `linker.link`: define every external symbol.  Go iterates the interned
ids in numeric order; the numeric order of the external dictionary is not
derivable from the byte strings, so the registration order of the externs
table stands in for it (no claim depends on the emission order). -/
def linkAllGo (L : LinkCtx) (fuel : Nat) :
    LState → List (NameID × ExternRef) → Except LinkErr LState
  | st, [] => pure st
  | st, (_, e) :: rest => do
    let (st', _) ← define fuel L st e
    linkAllGo L fuel st' rest

/-- `LinkLib`: ensure a `main` function exists (appending the stub unit when
none does), then emit all external symbols. -/
def LinkLib (units : List (List Object)) : Except LinkErr (List Object) := do
  let hasMain := units.any fun us => us.any fun o =>
    match o with
    | .functionDefinition _ _ b _ => b.nameID = idMain
    | _ => false
  let units1 := if hasMain then units else units ++ [mainStub]
  let sym ← collectSymbols units1
  let L : LinkCtx := ⟨sym.externs, sym.intern, sym.units⟩
  let st ← linkAllGo L (linkFuel units1) ⟨[], []⟩ sym.externs
  pure st.out

/-! Relations used by the frame-property claim: which differences linking may
introduce between a source object and the emitted one. -/

mutual

/-- Two values are related when they differ at most in the `Index` fields of
`AddressValue` nodes. -/
def valRelated : Val → Val → Prop
  | .addressValue _ lb lk nm off, .addressValue _ lb' lk' nm' off' =>
    lb = lb' ∧ lk = lk' ∧ nm = nm' ∧ off = off'
  | .compositeValue vs, .compositeValue vs' => valsRelated vs vs'
  | x, y => x = y

def valsRelated : List Val → List Val → Prop
  | [], [] => True
  | v :: vs, v' :: vs' => valRelated v v' ∧ valsRelated vs vs'
  | _, _ => False

end

/-- `valRelated` on optional initializers. -/
def optValRelated : Option Val → Option Val → Prop
  | none, none => True
  | some v, some v' => valRelated v v'
  | _, _ => False

/-- An output operation derived from an input one: identical except for
`Global.Index`, `Arguments.FunctionPointer`, `AddressValue.Index` inside
`Const` and `VariableDeclaration` initializers, or the `CallFP` → static
`Call` lowering (which preserves count, comma flag and position). -/
def opDerived : Operation → Operation → Prop
  | .globalOp a _ lk n t tn p, .globalOp a' _ lk' n' t' tn' p' =>
    a = a' ∧ lk = lk' ∧ n = n' ∧ t = t' ∧ tn = tn' ∧ p = p'
  | .argumentsOp p _, .argumentsOp p' _ => p = p'
  | .variableDeclaration i n t tn v p, .variableDeclaration i' n' t' tn' v' p' =>
    i = i' ∧ n = n' ∧ t = t' ∧ tn = tn' ∧ optValRelated v v' ∧ p = p'
  | .constOp t v p, .constOp t' v' p' => t = t' ∧ optValRelated v v' ∧ p = p'
  | .callFP a c _ p, .call a' c' _ _ p' => a = a' ∧ c = c' ∧ p = p'
  | x, y => x = y

/-- An emitted object derived from a source object: the `ObjectBase`
(position, name, type, type name, linkage) and, for functions, the argument
and result names are unchanged; a data initializer is `valRelated`; every
operation of the emitted body derives from an operation of the source body. -/
def objectDerived : Object → Object → Prop
  | .dataDefinition b v, .dataDefinition b' v' => b = b' ∧ optValRelated v v'
  | .functionDefinition args body b res, .functionDefinition args' body' b' res' =>
    args = args' ∧ b = b' ∧ res = res' ∧
      ∀ op' ∈ body', ∃ op ∈ body, opDerived op op'
  | _, _ => False

/-! ## Snapshot read checks (`Objects.ReadFrom`)

The gzip envelope and the gob payload are external; the modelled part is the
validation of the gzip `Extra` header: magic, platform, architecture and
version. -/

inductive ReadErr where
  | unrecognizedFormat  -- "unrecognized file format"
  | corruptedFile       -- "corrupted file"
  | invalidPlatform     -- "invalid platform"
  | invalidArchitecture -- "invalid architecture"
  | parseUintError      -- strconv.ParseUint failure
  | invalidVersionNumber -- "invalid version number"
deriving DecidableEq, Repr

/-- The 8-byte magic of the snapshot format. -/
def magic : List Nat := [0x64, 0xe0, 0xc8, 0x8e, 0xca, 0xeb, 0x80, 0x65]

/-- `bytes.Split` on a one-byte separator. -/
def bytesSplit (sep : Nat) : List Nat → List (List Nat)
  | [] => [[]]
  | b :: rest =>
    if b = sep then [] :: bytesSplit sep rest
    else
      match bytesSplit sep rest with
      | seg :: segs => (b :: seg) :: segs
      | [] => [[b]]

/-- `strconv.ParseUint(s, 10, 64)` on decimal digits. -/
def parseUintGo : List Nat → Nat → Option Nat
  | [], acc => some acc
  | d :: rest, acc =>
    if 0x30 ≤ d ∧ d ≤ 0x39 then
      let acc' := acc * 10 + (d - 0x30)
      if acc' ≥ 2 ^ 64 then none else parseUintGo rest acc'
    else none

/-- `strconv.ParseUint` rejects the empty string. -/
def parseUint10 (s : List Nat) : Option Nat :=
  match s with
  | [] => none
  | _ => parseUintGo s 0

/-- `binaryVersion`. -/
def binaryVersion : Nat := 1

/-- The header validation of `Objects.ReadFrom`: given the running platform
and architecture tags and the gzip `Extra` field, reproduce the checks of
the source in order. -/
def readFromChecks (goos goarch extra : List Nat) : Except ReadErr Unit := do
  if extra.length < magic.length ∨ extra.take magic.length ≠ magic then
    throw .unrecognizedFormat
  let a := bytesSplit 0x7c (extra.drop magic.length)
  if a.length ≠ 3 then throw .corruptedFile
  if a.getD 0 [] ≠ goos then throw .invalidPlatform
  if a.getD 1 [] ≠ goarch then throw .invalidArchitecture
  match parseUint10 (a.getD 2 []) with
  | none => throw .parseUintError
  | some v => if v ≠ binaryVersion then throw .invalidVersionNumber else pure ()

/-! ## Auxiliary definitions used by the claim statements -/

/-- The sum of `Size + Padding` (i.e. of `FieldProperties.Sizeof`) over a
layout. -/
def sumFP (l : List FieldProperties) : Int :=
  (l.map FieldProperties.sizeofFP).sum

/-- Operations that `checkCalls` passes through without touching its side
stack or the emitted prefix: everything except `Arguments`, `Call` and
`CallFP`. -/
def neutralOp : Operation → Bool
  | .argumentsOp _ _ => false
  | .call _ _ _ _ _ => false
  | .callFP _ _ _ _ => false
  | _ => true

/-- How an object of the symbol-collection output relates to the input
units: it is an input object, or the duplicate-external-data merge of an
input data definition without initializer with the initializer of another
input data definition of the same name and type. -/
def collectRel (units : List (List Object)) (o : Object) : Prop :=
  (∃ u i, getObj units u i = some o) ∨
  ∃ b bd v, (∃ u i, getObj units u i = some (.dataDefinition b none)) ∧
    (∃ u i, getObj units u i = some (.dataDefinition bd (some v))) ∧
    bd.nameID = b.nameID ∧ bd.typeID = b.typeID ∧ o = .dataDefinition b (some v)

/-- The linking-phase invariant: every emitted object derives from an object
of the (post-collection) units. -/
def outInv (units : List (List Object)) (st : LState) : Prop :=
  ∀ o' ∈ st.out, ∃ u i o₀, getObj units u i = some o₀ ∧ objectDerived o₀ o'

/-- A function definition over an anonymous external base, as used by the
concrete verifier examples. -/
def mkFun (body : List Operation) : FunctionDefinition :=
  ⟨[], body, ⟨0, [], strBytes "func()", .External, []⟩, []⟩

/-- Two-predecessor join: the branch reaches label `#1` with `[b]` on the
stack, the fall-through path reaches it with `[a]`. -/
def c3JoinBody (a b : TypeID) : List Operation :=
  [.beginScope false 0, .const32 false idInt32 1 1, .notOp 2, .jnz false [] 0 3,
   .nilOp a 4, .jmp false [] 1 5, .labelOp false false false [] false 0 6,
   .nilOp b 7, .labelOp false false false [] false 1 8, .panicOp 9,
   .returnOp 10, .endScope false 11]

/-- Two-predecessor join with differing depths: the branch records `[b]` at
label `#1`, the fall-through path arrives with `[a, a]`. -/
def c3DepthBody (a b : TypeID) : List Operation :=
  [.beginScope false 0, .const32 false idInt32 1 1, .notOp 2, .jnz false [] 0 3,
   .nilOp a 4, .nilOp a 5, .jmp false [] 1 6, .labelOp false false false [] false 0 7,
   .nilOp b 8, .labelOp false false false [] false 1 9, .panicOp 10,
   .returnOp 11, .endScope false 12]

/-- The body of the specification's pruning scenario: a zero constant before
`Jnz`, then a candidate pair `Const32(7); Drop`, then the branch target. -/
def c4NeverBody : List Operation :=
  [.beginScope false 0, .const32 false idInt32 0 1, .jnz false [] 0 2,
   .const32 false idInt32 7 3, .drop false false idInt32 4,
   .labelOp false false false [] false 0 5, .returnOp 6, .endScope false 7]

/-- The always-taken family: `Const32(v); Jnz L; X; L: Return`. -/
def c4JnzBody (X : Operation) (v : Int) : List Operation :=
  [.beginScope false 0, .const32 false idInt32 v 1, .jnz false [] 0 2, X,
   .labelOp false false false [] false 0 4, .returnOp 5, .endScope false 6]

/-- The always-taken `Jz` family: `Const32(0); Jz L; X; L: Return`. -/
def c4JzBody (X : Operation) : List Operation :=
  [.beginScope false 0, .const32 false idInt32 0 1, .jz false [] 0 2, X,
   .labelOp false false false [] false 0 4, .returnOp 5, .endScope false 6]

/-- The body both `c4` families are rewritten to when accepted. -/
def c4PrunedBody : List Operation :=
  [.beginScope false 0, .jmp false [] 0 2,
   .labelOp false false false [] false 0 4, .returnOp 5, .endScope false 6]

/-- A named label (`x`) reached with a non-empty evaluation stack. -/
def c9Body : List Operation :=
  [.beginScope false 0, .nilOp (strBytes "*int8") 1,
   .labelOp false false false (strBytes "x") false 0 2,
   .drop false false (strBytes "*int8") 3, .returnOp 4, .endScope false 5]

/-- `_start` referencing the external data `D` (for the linker examples). -/
def c10Start : Object :=
  .functionDefinition []
    [.globalOp false (-1) .External (strBytes "D") idPint32 [] 1]
    ⟨7, idStart, strBytes "func()", .External, []⟩ []

/-- The base of the duplicate external data definition `D` (first unit). -/
def c10DBase : ObjectBase := ⟨1, strBytes "D", idInt32, .External, []⟩

/-- The base of the second `D`: same name and type, different source
position. -/
def c10DBase2 : ObjectBase := ⟨2, strBytes "D", idInt32, .External, []⟩

/-- Three units: `_start`, `D` without initializer, `D` with initializer
`7`.  Symbol collection merges the initializer of the second `D` into the
first one. -/
def c10Units : List (List Object) :=
  [[c10Start], [.dataDefinition c10DBase none],
   [.dataDefinition c10DBase2 (some (.int32Value 7))]]

/-! ## Derivation relations and invariants used by the linking frame claim -/

/-- The change `checkCalls` may make to a single operation: copied verbatim,
an `Arguments` with a rewritten `FunctionPointer` flag, or the `CallFP` →
static `Call` lowering. -/
def ckD (op op' : Operation) : Prop :=
  op' = op ∨
  (∃ p fp fp', op = .argumentsOp p fp ∧ op' = .argumentsOp p fp') ∨
  (∃ a c t p i e, op = .callFP a c t p ∧ op' = .call a c i e p)

/-- The change the `defineFunc` body walk (`linkOp`) may make to a single
operation: copied verbatim, or an index/initializer resolution inside
`Const`, `Global` or `VariableDeclaration`. -/
def lkD (op op' : Operation) : Prop :=
  op' = op ∨
  (∃ t v v' p, optValRelated v v' ∧ op = .constOp t v p ∧ op' = .constOp t v' p) ∨
  (∃ a i i' lk n t tn p, op = .globalOp a i lk n t tn p ∧
    op' = .globalOp a i' lk n t tn p) ∨
  (∃ idx n t tn v v' p, optValRelated v v' ∧
    op = .variableDeclaration idx n t tn v p ∧
    op' = .variableDeclaration idx n t tn v' p)

/-- The target invariant of the linking phase: every object of the output
vector derives from an object of the (post-collection) unit vectors. -/
def outInvL (L : LinkCtx) (st : LState) : Prop :=
  ∀ o' ∈ st.out, ∃ u i o₀, getObj L.units u i = some o₀ ∧ objectDerived o₀ o'

/-- What one linking step guarantees about the output vector: it grows by
appending (possibly rewriting only the appended region) and preserves the
derivation invariant. -/
def outPres (L : LinkCtx) (st st' : LState) : Prop :=
  st.out.IsPrefix st'.out ∧ (outInvL L st → outInvL L st')

/-- Strict processing order on (unit, index) positions. -/
def posLt (a b : Nat × Nat) : Prop := a.1 < b.1 ∨ (a.1 = b.1 ∧ a.2 < b.2)

/-- Reflexive processing order. -/
def posLe (a b : Nat × Nat) : Prop := a.1 < b.1 ∨ (a.1 = b.1 ∧ a.2 ≤ b.2)

/-- Every object of the working unit vectors is collect-related to the
original input. -/
def cInv1 (units0 : List (List Object)) (st : SymState) : Prop :=
  ∀ u i o, getObj st.units u i = some o → collectRel units0 o

/-- Every externs-table entry points at an object carrying the entry name. -/
def cInv3 (st : SymState) : Prop :=
  ∀ nm ex, st.externs.lookup nm = some ex →
    ∃ o, getObj st.units ex.unit ex.index = some o ∧ o.base.nameID = nm

/-- Positions not yet processed still hold the original objects. -/
def cInv4 (units0 : List (List Object)) (st : SymState) (p : Nat × Nat) : Prop :=
  ∀ u i, posLe p (u, i) → getObj st.units u i = getObj units0 u i

/-- Every externs-table entry points strictly before the current position. -/
def cInv5 (st : SymState) (p : Nat × Nat) : Prop :=
  ∀ nm ex, st.externs.lookup nm = some ex → posLt (ex.unit, ex.index) p

/-! # Theorems -/

theorem roundup_zero (a : Int) : roundup 0 a = 0 := by
  simp [roundup, Int.zero_tmod]

theorem sumFP_nil : sumFP [] = 0 := rfl

theorem sumFP_cons (x : FieldProperties) (l : List FieldProperties) :
    sumFP (x :: l) = (x.Size + x.Padding) + sumFP l := by
  simp [sumFP, FieldProperties.sizeofFP]

theorem sumFP_reverse (l : List FieldProperties) : sumFP l.reverse = sumFP l := by
  simp [sumFP, List.map_reverse, List.sum_reverse]

theorem sumFP_setPadHead (p : Int) (x : FieldProperties) (xs : List FieldProperties) :
    sumFP (setPadHead p (x :: xs)) = sumFP (x :: xs) - x.Padding + p := by
  simp [setPadHead, sumFP_cons]
  ring

/-- The offset component of the `Layout` struct fold coincides with the
offset loop of `Sizeof`. -/
theorem layout_snd (m : MemoryModel) :
    ∀ (fields : List Typ) (r : List FieldProperties) (off : Int),
      (fields.foldl (layoutStructStep m) (r, off)).2 = structOffFields m fields off := by
  intro fields
  induction fields with
  | nil => intro r off; rfl
  | cons v fs ih =>
    intro r off
    rw [List.foldl_cons, structOffFields]
    exact ih _ _

/-- The running-sum invariant of the `Layout` struct fold: the accumulated
`Size + Padding` total equals the running offset, and the head of the
accumulator (the most recent field) still has zero padding. -/
theorem sumFP_layout (m : MemoryModel) :
    ∀ (fields : List Typ) (r : List FieldProperties) (off : Int),
      (match r with | [] => off = 0 | x :: _ => x.Padding = 0) →
      sumFP (fields.foldl (layoutStructStep m) (r, off)).1
          = sumFP r + ((fields.foldl (layoutStructStep m) (r, off)).2 - off) ∧
      (match (fields.foldl (layoutStructStep m) (r, off)).1 with
       | [] => (fields.foldl (layoutStructStep m) (r, off)).2 = 0
       | x :: _ => x.Padding = 0) := by
  intro fields
  induction fields with
  | nil =>
    intro r off h
    constructor
    · simp
    · simpa using h
  | cons v fs ih =>
    intro r off h
    rw [List.foldl_cons]
    have hstep : layoutStructStep m (r, off) v =
        (⟨(if StructAlignof m v ≠ 0 then roundup off (StructAlignof m v) else off),
          Sizeof m v, 0⟩ ::
          (if (if StructAlignof m v ≠ 0 then roundup off (StructAlignof m v) else off) ≠ off
           then setPadHead
             ((if StructAlignof m v ≠ 0 then roundup off (StructAlignof m v) else off) - off) r
           else r),
         (if StructAlignof m v ≠ 0 then roundup off (StructAlignof m v) else off)
           + Sizeof m v) := rfl
    rw [hstep]
    set off1 := (if StructAlignof m v ≠ 0 then roundup off (StructAlignof m v) else off)
      with hoff1
    by_cases hne : off1 ≠ off
    · -- padding inserted before this field
      rw [if_pos hne]
      match r, h with
      | [], h =>
        -- off = 0 forces off1 = 0 = off, contradiction
        exfalso
        apply hne
        rw [hoff1, h]
        split <;> simp [roundup_zero]
      | x :: xs, h =>
        have h2 := ih (⟨off1, Sizeof m v, 0⟩ :: setPadHead (off1 - off) (x :: xs))
          (off1 + Sizeof m v) rfl
        refine ⟨?_, h2.2⟩
        rw [h2.1, sumFP_cons, sumFP_setPadHead, sumFP_cons, h]
        ring
    · rw [if_neg hne]
      push_neg at hne
      have h2 := ih (⟨off1, Sizeof m v, 0⟩ :: r) (off1 + Sizeof m v) rfl
      refine ⟨?_, h2.2⟩
      rw [h2.1, sumFP_cons, hne]
      ring

/-- C2.  Layout/size invariant: for every struct type under any of the
predefined memory models, the sum over all fields of `size + padding`
computed by `Layout` equals `Sizeof`; for every union type, each field's
`size + padding` equals `Sizeof`. -/
theorem C2_layout_invariant (m : MemoryModel)
    (_hm : m = MemoryModel32 ∨ m = MemoryModel32A64 ∨ m = MemoryModel64)
    (tid : TypeID) (fields : List Typ) :
    sumFP (Layout m (.structOrUnionT tid .Struct fields))
        = Sizeof m (.structOrUnionT tid .Struct fields) ∧
    ∀ fp ∈ Layout m (.structOrUnionT tid .Union fields),
      fp.Size + fp.Padding = Sizeof m (.structOrUnionT tid .Union fields) := by
  constructor
  · match fields with
    | [] => rfl
    | v :: fs =>
      have hinv := sumFP_layout m (v :: fs) [] 0 rfl
      have hsnd := layout_snd m (v :: fs) [] 0
      rcases hfold : (v :: fs).foldl (layoutStructStep m) ([], 0) with ⟨r, off⟩
      rw [hfold] at hinv hsnd
      have hS : Sizeof m (.structOrUnionT tid .Struct (v :: fs)) =
          roundup (structOffFields m (v :: fs) 0)
            (Alignof m (.structOrUnionT tid .Struct (v :: fs))) := rfl
      rw [hS, ← hsnd]
      simp only [Layout, hfold, List.isEmpty_cons, Bool.false_eq_true, if_false,
        reduceCtorEq, reduceIte]
      dsimp only at hinv ⊢
      set al := Alignof m (.structOrUnionT tid .Struct (v :: fs)) with hal
      rw [sumFP_reverse]
      rcases r with _ | ⟨x, xs⟩
      · have hoff0 : off = 0 := hinv.2
        subst hoff0
        rw [roundup_zero]
        simp [sumFP_nil]
      · have hx : x.Padding = 0 := hinv.2
        have hsum : sumFP (x :: xs) = off := by
          have h1 := hinv.1
          simpa [sumFP_nil] using h1
        by_cases hne : roundup off al ≠ off
        · rw [if_pos hne, sumFP_setPadHead, hsum, hx]
          ring
        · rw [if_neg hne]
          push_neg at hne
          rw [hsum, hne]
  · intro fp hfp
    match fields with
    | [] => simp [Layout] at hfp
    | v :: fs =>
      have hL : Layout m (.structOrUnionT tid .Union (v :: fs)) =
          (v :: fs).map (fun w =>
            (⟨0, Sizeof m w,
              roundup (unionMaxFields m (v :: fs) 0)
                  (Alignof m (.structOrUnionT tid .Union (v :: fs))) - Sizeof m w⟩ :
              FieldProperties)) := rfl
      rw [hL, List.mem_map] at hfp
      obtain ⟨w, _, hw⟩ := hfp
      subst hw
      have hS : Sizeof m (.structOrUnionT tid .Union (v :: fs)) =
          roundup (unionMaxFields m (v :: fs) 0)
            (Alignof m (.structOrUnionT tid .Union (v :: fs))) := rfl
      rw [hS]
      dsimp
      ring

/-- C2 witness: the invariant at `struct{int8,int64}` and
`union{int8,int64}` under the 64-bit model. -/
theorem C2_layout_invariant_witness :
    (MemoryModel64 = MemoryModel32 ∨ MemoryModel64 = MemoryModel32A64 ∨
      MemoryModel64 = MemoryModel64) ∧
    sumFP (Layout MemoryModel64
        (.structOrUnionT [] .Struct [.base idInt8 .Int8, .base idInt64 .Int64]))
      = Sizeof MemoryModel64
          (.structOrUnionT [] .Struct [.base idInt8 .Int8, .base idInt64 .Int64]) ∧
    ∀ fp ∈ Layout MemoryModel64
        (.structOrUnionT [] .Union [.base idInt8 .Int8, .base idInt64 .Int64]),
      fp.Size + fp.Padding = Sizeof MemoryModel64
        (.structOrUnionT [] .Union [.base idInt8 .Int8, .base idInt64 .Int64]) :=
  ⟨Or.inr (Or.inr rfl),
   (C2_layout_invariant MemoryModel64 (Or.inr (Or.inr rfl)) []
      [.base idInt8 .Int8, .base idInt64 .Int64]).1,
   (C2_layout_invariant MemoryModel64 (Or.inr (Or.inr rfl)) []
      [.base idInt8 .Int8, .base idInt64 .Int64]).2⟩

/-- C6.  The lexer's overflow guard `n < 0 || n > math.MaxInt64` relies on
wraparound: `2^64` wraps to `0`, escapes the guard, and is lexed as a
`Number` with value `0` instead of `Illegal`; a value that wraps negative
(such as `2^63`) is caught, and `math.MaxInt64` itself lexes as a `Number`. -/
theorem C6_lexer_overflow_wraps :
    lex2 (strBytes "18446744073709551616") = (tokNumber, 0, []) ∧
    lex2 (strBytes "9223372036854775808") = (tokIllegal, 0, strBytes "8") ∧
    lex2 (strBytes "9223372036854775807") = (tokNumber, maxInt64, []) :=
  ⟨rfl, rfl, rfl⟩

/-- C7 counterexample: under a predefined model, `Alignof` of an empty
struct or union is `1` (`mathutil.Max(1, 0)`), not `0` as claimed. -/
theorem C7_counterexample :
    Alignof MemoryModel64 (.structOrUnionT idVoid .Struct []) = 1 ∧
    Alignof MemoryModel64 (.structOrUnionT (strBytes "union{}") .Union []) = 1 ∧
    (1 : Int) ≠ 0 :=
  ⟨rfl, rfl, by decide⟩

/-- C7 (amended).  For every struct or union type with no fields, `Alignof`
returns `1` under the predefined memory models (while in general it returns
`mathutil.Max(1, max over fields of Alignof(field))`). -/
theorem C7_alignof_empty_composite (m : MemoryModel)
    (_hm : m = MemoryModel32 ∨ m = MemoryModel32A64 ∨ m = MemoryModel64)
    (tid : TypeID) (k : TypeKind) (fields : List Typ) :
    Alignof m (.structOrUnionT tid k []) = 1 ∧
    Alignof m (.structOrUnionT tid k fields) = mathutilMax 1 (alignofFields m fields 0) := by
  exact ⟨by simp [Alignof, alignofFields, mathutilMax], rfl⟩

/-- C7 witness. -/
theorem C7_alignof_empty_composite_witness :
    (MemoryModel64 = MemoryModel32 ∨ MemoryModel64 = MemoryModel32A64 ∨
      MemoryModel64 = MemoryModel64) ∧
    Alignof MemoryModel64 (.structOrUnionT idVoid .Struct []) = 1 ∧
    Alignof MemoryModel64 (.structOrUnionT idVoid .Struct [.base idInt8 .Int8]) =
      mathutilMax 1 (alignofFields MemoryModel64 [.base idInt8 .Int8] 0) :=
  ⟨Or.inr (Or.inr rfl),
   (C7_alignof_empty_composite MemoryModel64 (Or.inr (Or.inr rfl)) idVoid .Struct
      [.base idInt8 .Int8]).1,
   (C7_alignof_empty_composite MemoryModel64 (Or.inr (Or.inr rfl)) idVoid .Struct
      [.base idInt8 .Int8]).2⟩

theorem bytesSplit_no_sep (sep : Nat) :
    ∀ s : List Nat, sep ∉ s → bytesSplit sep s = [s] := by
  intro s
  induction s with
  | nil => intro _; rfl
  | cons b rest ih =>
    intro h
    have hb : ¬ (b = sep) := fun hbs => h (hbs ▸ List.mem_cons_self b rest)
    have hrest : sep ∉ rest := fun hr => h (List.mem_cons_of_mem b hr)
    simp only [bytesSplit, if_neg hb, ih hrest]

theorem bytesSplit_append (sep : Nat) :
    ∀ (s rest : List Nat), sep ∉ s →
      bytesSplit sep (s ++ sep :: rest) = s :: bytesSplit sep rest := by
  intro s
  induction s with
  | nil =>
    intro rest _
    simp [bytesSplit]
  | cons b bs ih =>
    intro rest h
    have hb : ¬ (b = sep) := fun hbs => h (hbs ▸ List.mem_cons_self b bs)
    have hbs : sep ∉ bs := fun hr => h (List.mem_cons_of_mem b hr)
    rw [List.cons_append]
    simp only [bytesSplit, if_neg hb]
    rw [ih rest hbs]

/-- C8.  Snapshot read errors: an `Extra` field that does not begin with the
8-byte magic fails with "unrecognized file format"; a platform mismatch with
"invalid platform"; an architecture mismatch with "invalid architecture";
and a (parseable) version different from 1 with "invalid version number". -/
theorem C8_snapshot_read_errors (goos goarch extra : List Nat)
    (p a v : List Nat) (n : Nat) :
    (extra.take 8 ≠ magic →
      readFromChecks goos goarch extra = .error .unrecognizedFormat) ∧
    (extra = magic ++ p ++ 0x7c :: a ++ 0x7c :: v →
      0x7c ∉ p → 0x7c ∉ a → 0x7c ∉ v →
      ((p ≠ goos → readFromChecks goos goarch extra = .error .invalidPlatform) ∧
       (p = goos → a ≠ goarch →
         readFromChecks goos goarch extra = .error .invalidArchitecture) ∧
       (p = goos → a = goarch → parseUint10 v = some n → n ≠ 1 →
         readFromChecks goos goarch extra = .error .invalidVersionNumber))) := by
  constructor
  · intro hmag
    have : (extra.length < magic.length ∨ extra.take magic.length ≠ magic) := by
      right
      simpa [magic] using hmag
    simp only [readFromChecks]
    rw [if_pos this]
    rfl
  · intro hex hp ha hv
    have hmaglen : magic.length = 8 := rfl
    have htake : extra.take magic.length = magic := by
      rw [hex]
      simp only [List.append_assoc]
      exact List.take_left' rfl
    have hdrop : extra.drop magic.length = p ++ 0x7c :: (a ++ 0x7c :: v) := by
      rw [hex]
      simp only [List.append_assoc, List.cons_append]
      exact List.drop_left' rfl
    have hsplit : bytesSplit 0x7c (extra.drop magic.length) = [p, a, v] := by
      rw [hdrop]
      rw [bytesSplit_append _ _ _ hp, bytesSplit_append _ _ _ ha,
        bytesSplit_no_sep _ _ hv]
    have hnotlt : ¬ (extra.length < magic.length ∨ extra.take magic.length ≠ magic) := by
      push_neg
      constructor
      · rw [hex]
        simp [List.length_append]
      · exact htake
    refine ⟨?_, ?_, ?_⟩
    · intro hpg
      simp only [readFromChecks]
      rw [if_neg hnotlt, hsplit]
      rw [if_neg (show ¬ ([p, a, v].length ≠ 3) from fun h => h rfl)]
      rw [show [p, a, v].getD 0 [] = p from rfl]
      rw [if_pos hpg]
      rfl
    · intro hpg hag
      simp only [readFromChecks]
      rw [if_neg hnotlt, hsplit]
      rw [if_neg (show ¬ ([p, a, v].length ≠ 3) from fun h => h rfl)]
      rw [show [p, a, v].getD 0 [] = p from rfl]
      rw [if_neg (by simpa using hpg)]
      rw [show [p, a, v].getD 1 [] = a from rfl]
      rw [if_pos hag]
      rfl
    · intro hpg hag hver hn
      simp only [readFromChecks]
      rw [if_neg hnotlt, hsplit]
      rw [if_neg (show ¬ ([p, a, v].length ≠ 3) from fun h => h rfl)]
      rw [show [p, a, v].getD 0 [] = p from rfl]
      rw [if_neg (by simpa using hpg)]
      rw [show [p, a, v].getD 1 [] = a from rfl]
      rw [if_neg (by simpa using hag)]
      rw [show [p, a, v].getD 2 [] = v from rfl]
      rw [hver]
      simp only [binaryVersion]
      rw [if_pos hn]
      rfl

/-- C8 witness: concrete mismatching headers. -/
theorem C8_snapshot_read_errors_witness :
    readFromChecks (strBytes "linux") (strBytes "amd64")
        (strBytes "bad") = .error .unrecognizedFormat ∧
    readFromChecks (strBytes "linux") (strBytes "amd64")
        (magic ++ strBytes "plan9" ++ 0x7c :: strBytes "amd64" ++ 0x7c :: strBytes "1")
      = .error .invalidPlatform ∧
    readFromChecks (strBytes "linux") (strBytes "amd64")
        (magic ++ strBytes "linux" ++ 0x7c :: strBytes "arm" ++ 0x7c :: strBytes "1")
      = .error .invalidArchitecture ∧
    readFromChecks (strBytes "linux") (strBytes "amd64")
        (magic ++ strBytes "linux" ++ 0x7c :: strBytes "amd64" ++ 0x7c :: strBytes "2")
      = .error .invalidVersionNumber :=
  ⟨(C8_snapshot_read_errors (strBytes "linux") (strBytes "amd64") (strBytes "bad")
      [] [] [] 0).1 (by decide),
   ((C8_snapshot_read_errors (strBytes "linux") (strBytes "amd64")
      (magic ++ strBytes "plan9" ++ 0x7c :: strBytes "amd64" ++ 0x7c :: strBytes "1")
      (strBytes "plan9") (strBytes "amd64") (strBytes "1") 1).2 rfl (by decide)
      (by decide) (by decide)).1 (by decide),
   (((C8_snapshot_read_errors (strBytes "linux") (strBytes "amd64")
      (magic ++ strBytes "linux" ++ 0x7c :: strBytes "arm" ++ 0x7c :: strBytes "1")
      (strBytes "linux") (strBytes "arm") (strBytes "1") 1).2 rfl (by decide)
      (by decide) (by decide)).2).1 rfl (by decide),
   (((C8_snapshot_read_errors (strBytes "linux") (strBytes "amd64")
      (magic ++ strBytes "linux" ++ 0x7c :: strBytes "amd64" ++ 0x7c :: strBytes "2")
      (strBytes "linux") (strBytes "amd64") (strBytes "2") 2).2 rfl (by decide)
      (by decide) (by decide)).2).2 rfl rfl (by decide) (by decide)⟩

/-- C9.  A `Label` with a non-zero `NameID` reached with a non-empty
evaluation stack fails verification ("non empty evaluation stack at named
label"); a label identified only by a (non-negative) `Number` carries no
such restriction; and a concrete function whose named label is reached with
a value on the stack is rejected by `Verify`. -/
theorem C9_named_label_empty_stack :
    (∀ (cond land lor nop : Bool) (nm : NameID) (num : Int) (pos : Nat)
       (C : VerCtx) (st : VState), nm ≠ [] → st.stack ≠ [] →
       opVerify C (.labelOp cond land lor nm nop num pos) st =
         .error .nonEmptyAtNamedLabel) ∧
    (∀ (cond land lor nop : Bool) (num : Int) (pos : Nat) (C : VerCtx) (st : VState),
       0 ≤ num →
       opVerify C (.labelOp cond land lor [] nop num pos) st = .ok st) ∧
    Verify (mkFun c9Body) = .error .nonEmptyAtNamedLabel := by
  refine ⟨?_, ?_, ?_⟩
  · intro cond land lor nop nm num pos C st hnm hst
    simp only [opVerify, if_pos (And.intro hnm hst)]
    rfl
  · intro cond land lor nop num pos C st hnum
    simp only [opVerify]
    rw [if_neg (show ¬ (([] : NameID) ≠ [] ∧ st.stack ≠ []) from fun h => h.1 rfl)]
    rw [if_neg (show ¬ ¬ (([] : NameID) ≠ [] ∨ 0 ≤ num) from fun h => h (Or.inr hnum))]
    rfl
  · rfl

/-- C9 witness. -/
theorem C9_named_label_empty_stack_witness :
    opVerify ⟨[], [], []⟩
        (.labelOp false false false (strBytes "x") false 0 0) ⟨[idInt32], 0⟩ =
      .error .nonEmptyAtNamedLabel ∧
    opVerify ⟨[], [], []⟩ (.labelOp false false false [] false 0 0) ⟨[idInt32], 0⟩ =
      .ok ⟨[idInt32], 0⟩ :=
  ⟨C9_named_label_empty_stack.1 false false false false (strBytes "x") 0 0
      ⟨[], [], []⟩ ⟨[idInt32], 0⟩ (by decide) (by simp),
   C9_named_label_empty_stack.2.1 false false false false 0 0 ⟨[], [], []⟩
      ⟨[idInt32], 0⟩ (by decide)⟩

/-- Every successful parse stamps the root node with the id passed down
(`TypeBase.setID` keeps a non-zero id). -/
theorem parseF_tid (fuel : Nat) (p0 : List Nat) (id : TypeID) (t : Typ)
    (rest : List Nat) (h : parseF fuel p0 id = some (t, rest)) (hid : id ≠ []) :
    t.tid = id := by
  match fuel with
  | 0 => exact Option.noConfusion h
  | fuel + 1 =>
    simp only [parseF] at h
    rcases hlx : lex2 p0 with ⟨tk, m, p⟩
    rw [hlx] at h
    by_cases c1 : tk = tokI8
    · rw [if_pos c1] at h
      simp only [Option.some.injEq, Prod.mk.injEq] at h
      rw [← h.1]
      simp [Typ.tid, setID, hid]
    · rw [if_neg c1] at h
      by_cases c2 : tk = tokI16
      · rw [if_pos c2] at h
        simp only [Option.some.injEq, Prod.mk.injEq] at h
        rw [← h.1]
        simp [Typ.tid, setID, hid]
      · rw [if_neg c2] at h
        by_cases c3 : tk = tokI32
        · rw [if_pos c3] at h
          simp only [Option.some.injEq, Prod.mk.injEq] at h
          rw [← h.1]
          simp [Typ.tid, setID, hid]
        · rw [if_neg c3] at h
          by_cases c4 : tk = tokI64
          · rw [if_pos c4] at h
            simp only [Option.some.injEq, Prod.mk.injEq] at h
            rw [← h.1]
            simp [Typ.tid, setID, hid]
          · rw [if_neg c4] at h
            by_cases c5 : tk = tokU8
            · rw [if_pos c5] at h
              simp only [Option.some.injEq, Prod.mk.injEq] at h
              rw [← h.1]
              simp [Typ.tid, setID, hid]
            · rw [if_neg c5] at h
              by_cases c6 : tk = tokU16
              · rw [if_pos c6] at h
                simp only [Option.some.injEq, Prod.mk.injEq] at h
                rw [← h.1]
                simp [Typ.tid, setID, hid]
              · rw [if_neg c6] at h
                by_cases c7 : tk = tokU32
                · rw [if_pos c7] at h
                  simp only [Option.some.injEq, Prod.mk.injEq] at h
                  rw [← h.1]
                  simp [Typ.tid, setID, hid]
                · rw [if_neg c7] at h
                  by_cases c8 : tk = tokU64
                  · rw [if_pos c8] at h
                    simp only [Option.some.injEq, Prod.mk.injEq] at h
                    rw [← h.1]
                    simp [Typ.tid, setID, hid]
                  · rw [if_neg c8] at h
                    by_cases c9 : tk = tokF32
                    · rw [if_pos c9] at h
                      simp only [Option.some.injEq, Prod.mk.injEq] at h
                      rw [← h.1]
                      simp [Typ.tid, setID, hid]
                    · rw [if_neg c9] at h
                      by_cases c10 : tk = tokF64
                      · rw [if_pos c10] at h
                        simp only [Option.some.injEq, Prod.mk.injEq] at h
                        rw [← h.1]
                        simp [Typ.tid, setID, hid]
                      · rw [if_neg c10] at h
                        by_cases c11 : tk = tokF128
                        · rw [if_pos c11] at h
                          simp only [Option.some.injEq, Prod.mk.injEq] at h
                          rw [← h.1]
                          simp [Typ.tid, setID, hid]
                        · rw [if_neg c11] at h
                          by_cases c12 : tk = tokC64
                          · rw [if_pos c12] at h
                            simp only [Option.some.injEq, Prod.mk.injEq] at h
                            rw [← h.1]
                            simp [Typ.tid, setID, hid]
                          · rw [if_neg c12] at h
                            by_cases c13 : tk = tokC128
                            · rw [if_pos c13] at h
                              simp only [Option.some.injEq, Prod.mk.injEq] at h
                              rw [← h.1]
                              simp [Typ.tid, setID, hid]
                            · rw [if_neg c13] at h
                              by_cases c14 : tk = tokC256
                              · rw [if_pos c14] at h
                                simp only [Option.some.injEq, Prod.mk.injEq] at h
                                rw [← h.1]
                                simp [Typ.tid, setID, hid]
                              · rw [if_neg c14] at h
                                by_cases c15 : tk = 0x2a
                                · rw [if_pos c15] at h
                                  rcases hr1 : parseF fuel p [] with _ | ⟨el, p1⟩
                                  · simp only [hr1] at h
                                    exact Option.noConfusion h
                                  · simp only [hr1] at h
                                    simp only [Option.some.injEq, Prod.mk.injEq] at h
                                    rw [← h.1]
                                    simp [Typ.tid, setID, hid]
                                · rw [if_neg c15] at h
                                  by_cases c16 : tk = 0x5b
                                  · rw [if_pos c16] at h
                                    rcases hl2 : lex2 p with ⟨tk2, n2, p2⟩
                                    simp only [hl2] at h
                                    by_cases d1 : tk2 = tokNumber
                                    · rw [if_pos d1] at h
                                      rcases hl3 : lex p2 with ⟨tk3, p3⟩
                                      simp only [hl3] at h
                                      by_cases d2 : tk3 = 0x5d
                                      · rw [if_pos d2] at h
                                        rcases hr2 : parseF fuel p3 [] with _ | ⟨it, p4⟩
                                        · simp only [hr2] at h
                                          exact Option.noConfusion h
                                        · simp only [hr2] at h
                                          simp only [Option.some.injEq, Prod.mk.injEq] at h
                                          rw [← h.1]
                                          simp [Typ.tid, setID, hid]
                                      · rw [if_neg d2] at h
                                        exact Option.noConfusion h
                                    · rw [if_neg d1] at h
                                      exact Option.noConfusion h
                                  · rw [if_neg c16] at h
                                    by_cases c17 : tk = tokFunc
                                    · rw [if_pos c17] at h
                                      rcases hr3 : parseFuncF fuel p with _ | ⟨args, results, variadic, p1⟩
                                      · simp only [hr3] at h
                                        exact Option.noConfusion h
                                      · simp only [hr3] at h
                                        simp only [Option.some.injEq, Prod.mk.injEq] at h
                                        rw [← h.1]
                                        simp [Typ.tid, setID, hid]
                                    · rw [if_neg c17] at h
                                      by_cases c18 : tk = tokStruct ∨ tk = tokUnion
                                      · rw [if_pos c18] at h
                                        rcases hl4 : lex p with ⟨tk2, p2⟩
                                        simp only [hl4] at h
                                        by_cases d3 : tk2 = 0x7b
                                        · rw [if_pos d3] at h
                                          rcases hr4 : parseTypeListF fuel p2 with _ | ⟨l, p3⟩
                                          · simp only [hr4] at h
                                            exact Option.noConfusion h
                                          · simp only [hr4] at h
                                            rcases hl5 : lex p3 with ⟨tk4, p4⟩
                                            simp only [hl5] at h
                                            by_cases d4 : tk4 = 0x7d
                                            · rw [if_pos d4] at h
                                              simp only [Option.some.injEq, Prod.mk.injEq] at h
                                              rw [← h.1]
                                              simp [Typ.tid, setID, hid]
                                            · rw [if_neg d4] at h
                                              exact Option.noConfusion h
                                        · rw [if_neg d3] at h
                                          exact Option.noConfusion h
                                      · rw [if_neg c18] at h
                                        exact Option.noConfusion h

/-- `TypeCache.Type(id)` returns a type whose `ID()` is `id`. -/
theorem typeOfText_tid (s : TypeID) (t : Typ) (h : typeOfText s = some t) :
    t.tid = s := by
  by_cases hs : s = []
  · subst hs
    rw [show typeOfText ([] : TypeID) = none from rfl] at h
    exact Option.noConfusion h
  · simp only [typeOfText] at h
    split at h
    · exact Option.noConfusion h
    · next t' rest heq =>
      split at h
      · cases h
        exact parseF_tid _ _ _ _ _ heq hs
      · exact Option.noConfusion h

/-- C1 counterexample: `func()int8` and `func()(int8)` are two grammatical
spellings of the same structure; both parse, their parses are structurally
identical, but their ids (the interned texts) differ — so structural
identity does not imply `TypeID` equality. -/
theorem C1_counterexample :
    (typeOfText (strBytes "func()int8")).isSome = true ∧
    (typeOfText (strBytes "func()(int8)")).isSome = true ∧
    (typeOfText (strBytes "func()int8")).map Typ.strip =
      (typeOfText (strBytes "func()(int8)")).map Typ.strip ∧
    (typeOfText (strBytes "func()int8")).map Typ.tid ≠
      (typeOfText (strBytes "func()(int8)")).map Typ.tid :=
  ⟨rfl, rfl, rfl, by decide⟩

/-- C1 (amended).  For every `TypeID` whose canonical text parses,
`TypeCache.Type(id)` returns a `Type` whose `ID()` equals `id`; two `TypeID`s
are equal exactly when their underlying byte strings are equal (ids are the
interned texts), and equal `TypeID`s yield identical `Type` values — but
structurally identical types may carry different ids (see the
counterexample). -/
theorem C1_type_identity (s1 s2 : TypeID) (t1 t2 : Typ)
    (h1 : typeOfText s1 = some t1) (h2 : typeOfText s2 = some t2) :
    t1.tid = s1 ∧ (t1.tid = t2.tid ↔ s1 = s2) ∧ (s1 = s2 → t1 = t2) := by
  have e1 := typeOfText_tid s1 t1 h1
  have e2 := typeOfText_tid s2 t2 h2
  refine ⟨e1, ⟨fun h => ?_, fun h => ?_⟩, fun h => ?_⟩
  · rw [e1, e2] at h
    exact h
  · rw [e1, e2, h]
  · subst h
    rw [h1] at h2
    exact (Option.some_inj.mp h2)

/-- C1 witness. -/
theorem C1_type_identity_witness :
    typeOfText idInt8 = some (.base idInt8 .Int8) ∧
    ((Typ.base idInt8 .Int8).tid = idInt8 ∧
      ((Typ.base idInt8 .Int8).tid = (Typ.base idInt8 .Int8).tid ↔ idInt8 = idInt8) ∧
      (idInt8 = idInt8 → Typ.base idInt8 .Int8 = Typ.base idInt8 .Int8)) :=
  ⟨rfl, C1_type_identity idInt8 idInt8 (.base idInt8 .Int8) (.base idInt8 .Int8) rfl rfl⟩

/-- Helper: a phi-join entry whose sides differ and are not assignable makes
`checkPhi` fail with `stacksDiffer`. -/
theorem checkPhi_head_fail (a b : TypeID) (rest : List (TypeID × TypeID))
    (hab : a ≠ b) (hass : assignable a b = .ok false) :
    checkPhi ((a, b) :: rest) = .error .stacksDiffer := by
  simp [checkPhi, hab, hass]
  rfl

/-- C3 counterexample: a join whose predecessors arrive with stacks of
differing depth is rejected, but with the distinct message "evaluation stacks
depth differs" (`stacksDepthDiffer`), not the claimed "evaluation stacks
differ". -/
theorem C3_counterexample :
    Verify (mkFun (c3DepthBody (strBytes "*int8") (strBytes "*int8"))) =
      .error .stacksDepthDiffer ∧
    VErr.stacksDepthDiffer ≠ VErr.stacksDiffer :=
  ⟨rfl, by decide⟩

/-- C3 (amended).  On revisiting a previously reached instruction, the
abstract execution `g` requires the current stack and the recorded `phi`
snapshot to have identical depth — failing with "evaluation stacks depth
differs" otherwise — and corresponding entries to be equal or assignable,
failing with "evaluation stacks differ" otherwise; a two-predecessor join
with non-assignable element types is rejected end to end, one with differing
depths is rejected with the depth message, and one whose differing entries
are assignable (void pointer vs `*int32`) verifies. -/
theorem C3_stack_join :
    (∀ (fuel : Nat) (C : VerCtx) (st : GState) (ip : Nat) (op : Operation)
        (stack ex : List TypeID),
      st.body.get? ip = some op →
      st.flags.getD ip false = true →
      st.phi.lookup ip = some ex →
      stack.length ≠ ex.length →
      gStep (fuel + 1) C st ip stack = .error .stacksDepthDiffer) ∧
    (∀ (fuel : Nat) (C : VerCtx) (st : GState) (ip : Nat) (op : Operation)
        (stack ex : List TypeID) (a b : TypeID) (rest : List (TypeID × TypeID)),
      st.body.get? ip = some op →
      st.flags.getD ip false = true →
      st.phi.lookup ip = some ex →
      stack.length = ex.length →
      stack.zip ex = (a, b) :: rest →
      a ≠ b →
      assignable a b = .ok false →
      gStep (fuel + 1) C st ip stack = .error .stacksDiffer) ∧
    Verify (mkFun (c3DepthBody (strBytes "*int8") (strBytes "*int8"))) =
      .error .stacksDepthDiffer ∧
    Verify (mkFun (c3JoinBody (strBytes "*int8") (strBytes "*int32"))) =
      .error .stacksDiffer ∧
    (Verify (mkFun (c3JoinBody idVoidPtr (strBytes "*int32")))).isOk = true := by
  refine ⟨?_, ?_, rfl, rfl, rfl⟩
  · intro fuel C st ip op stack ex hop hfl hphi hlen
    simp only [gStep]
    rw [hop]
    simp only []
    rw [if_pos hfl, hphi]
    simp only []
    rw [if_pos hlen]
    rfl
  · intro fuel C st ip op stack ex a b rest hop hfl hphi hlen hzip hab hass
    simp only [gStep]
    rw [hop]
    simp only []
    rw [if_pos hfl, hphi]
    simp only []
    rw [if_neg (show ¬ stack.length ≠ ex.length from fun hk => hk hlen)]
    rw [hzip, checkPhi_head_fail a b rest hab hass]
    rfl

/-- C3 witness. -/
theorem C3_stack_join_witness :
    gStep 5 ⟨[], [], []⟩ ⟨[.returnOp 0], [true], [(0, [strBytes "*int32"])], 0⟩ 0
        [strBytes "*int8", strBytes "*int8"] = .error .stacksDepthDiffer ∧
    gStep 5 ⟨[], [], []⟩ ⟨[.returnOp 0], [true], [(0, [strBytes "*int32"])], 0⟩ 0
        [strBytes "*int8"] = .error .stacksDiffer :=
  ⟨C3_stack_join.1 4 ⟨[], [], []⟩ ⟨[.returnOp 0], [true], [(0, [strBytes "*int32"])], 0⟩ 0
      (.returnOp 0) [strBytes "*int8", strBytes "*int8"] [strBytes "*int32"]
      rfl rfl rfl (by decide),
   C3_stack_join.2.1 4 ⟨[], [], []⟩ ⟨[.returnOp 0], [true], [(0, [strBytes "*int32"])], 0⟩ 0
      (.returnOp 0) [strBytes "*int8"] [strBytes "*int32"]
      (strBytes "*int8") (strBytes "*int32") [] rfl rfl rfl rfl rfl (by decide) rfl⟩

/-- C4 counterexample: in `Const32(0); Jnz L; X; L:` the branch is *never*
taken (the claim has the polarity reversed): the constant and the `Jnz` are
dropped from emission and execution falls through, so `X` (here
`Const32(7); Drop`) survives verification. -/
theorem C4_counterexample :
    Verify (mkFun c4NeverBody) =
      .ok [.beginScope false 0, .const32 false idInt32 7 3,
           .drop false false idInt32 4, .labelOp false false false [] false 0 5,
           .returnOp 6, .endScope false 7] ∧
    (Operation.const32 false idInt32 7 3) ∈
      [Operation.beginScope false 0, .const32 false idInt32 7 3,
       .drop false false idInt32 4, .labelOp false false false [] false 0 5,
       .returnOp 6, .endScope false 7] :=
  ⟨rfl, List.Mem.tail _ (List.Mem.head _)⟩

/-- C4 (amended).  The constant-branch folding works with the opposite
polarity from the claim: a `Jnz` preceded by a *non-zero* `Const32` is always
taken — the abstract execution replaces the `Jnz` by a `Jmp`, un-flags the
constant (dropping it from emission) and proceeds at the branch target, never
visiting the fall-through `X`; symmetrically a `Jz` preceded by a *zero*
`Const32` folds the same way.  End to end, `Const32(1); Jnz L; X; L:` and
`Const32(0); Jz L; X; L:` both verify to the pruned body without `X` and
without the constant. -/
theorem C4_pruning :
    (∀ (fuel : Nat) (C : VerCtx) (st : GState) (ip : Nat) (b : Bool)
        (nm : NameID) (num : Int) (posJ : Nat) (stack : List TypeID) (vs : VState)
        (bc : Bool) (tc : TypeID) (v : Int) (pc : Nat),
      st.body.get? ip = some (.jnz b nm num posJ) →
      st.flags.getD ip false = false →
      opVerify C (.jnz b nm num posJ) ⟨stack, st.bvl⟩ = .ok vs →
      ip ≠ 0 →
      st.body.get? (ip - 1) = some (.const32 bc tc v pc) →
      v ≠ 0 →
      gStep (fuel + 1) C st ip stack =
        gStep fuel C
          ⟨st.body.set ip (.jmp false nm num posJ),
           (st.flags.set ip true).set (ip - 1) false,
           st.phi, vs.blockValueLevel⟩
          ((C.labels.lookup (labKey nm num)).getD 0) vs.stack) ∧
    (∀ (fuel : Nat) (C : VerCtx) (st : GState) (ip : Nat) (b : Bool)
        (nm : NameID) (num : Int) (posJ : Nat) (stack : List TypeID) (vs : VState)
        (bc : Bool) (tc : TypeID) (pc : Nat),
      st.body.get? ip = some (.jz b nm num posJ) →
      st.flags.getD ip false = false →
      opVerify C (.jz b nm num posJ) ⟨stack, st.bvl⟩ = .ok vs →
      ip ≠ 0 →
      st.body.get? (ip - 1) = some (.const32 bc tc 0 pc) →
      gStep (fuel + 1) C st ip stack =
        gStep fuel C
          ⟨st.body.set ip (.jmp false nm num posJ),
           (st.flags.set ip true).set (ip - 1) false,
           st.phi, vs.blockValueLevel⟩
          ((C.labels.lookup (labKey nm num)).getD 0) vs.stack) ∧
    Verify (mkFun (c4JnzBody (.const32 false idInt32 7 3) 1)) = .ok c4PrunedBody ∧
    Verify (mkFun (c4JzBody (.const32 false idInt32 7 3))) = .ok c4PrunedBody := by
  refine ⟨?_, ?_, rfl, rfl⟩
  · intro fuel C st ip b nm num posJ stack vs bc tc v pc hop hfl hov hip hprev hv
    simp only [gStep]
    rw [hop]
    simp only []
    rw [if_neg (show ¬ st.flags.getD ip false = true from fun h =>
      Bool.false_ne_true (hfl ▸ h))]
    rw [hov]
    rw [if_neg hip, hprev]
    rw [show (Except.ok vs : Except VErr VState) = pure vs from rfl, pure_bind]
    simp only []
    rw [if_pos hv]
  · intro fuel C st ip b nm num posJ stack vs bc tc pc hop hfl hov hip hprev
    simp only [gStep]
    rw [hop]
    simp only []
    rw [if_neg (show ¬ st.flags.getD ip false = true from fun h =>
      Bool.false_ne_true (hfl ▸ h))]
    rw [hov]
    rw [if_neg hip, hprev]
    rfl

/-- C4 witness. -/
theorem C4_pruning_witness :
    gStep 4 ⟨strBytes "func()", [(.num 0, 0)], []⟩
        ⟨[.const32 false idInt32 1 0, .jnz false [] 0 1], [false, false], [], 0⟩ 1
        [idInt32] =
      gStep 3 ⟨strBytes "func()", [(.num 0, 0)], []⟩
        ⟨[.const32 false idInt32 1 0, .jmp false [] 0 1], [false, true], [], 0⟩ 0 [] ∧
    gStep 4 ⟨strBytes "func()", [(.num 0, 0)], []⟩
        ⟨[.const32 false idInt32 0 0, .jz false [] 0 1], [false, false], [], 0⟩ 1
        [idInt32] =
      gStep 3 ⟨strBytes "func()", [(.num 0, 0)], []⟩
        ⟨[.const32 false idInt32 0 0, .jmp false [] 0 1], [false, true], [], 0⟩ 0 [] :=
  ⟨C4_pruning.1 3 ⟨strBytes "func()", [(.num 0, 0)], []⟩
      ⟨[.const32 false idInt32 1 0, .jnz false [] 0 1], [false, false], [], 0⟩ 1
      false [] 0 1 [idInt32] ⟨[], 0⟩ false idInt32 1 0
      rfl rfl rfl (by decide) rfl (by decide),
   C4_pruning.2.1 3 ⟨strBytes "func()", [(.num 0, 0)], []⟩
      ⟨[.const32 false idInt32 0 0, .jz false [] 0 1], [false, false], [], 0⟩ 1
      false [] 0 1 [idInt32] ⟨[], 0⟩ false idInt32 0
      rfl rfl rfl (by decide) rfl⟩

/-- C5 (confirmed).  The indirect-to-direct call lowering of
`linker.checkCalls`: (1) a `Global` immediately preceding an `Arguments`
whose index resolves (non-negatively) to a `FunctionDefinition` in the
output vector is dropped from the emitted body, the `Arguments` is re-emitted
with `FunctionPointer false` (static) and the same position, and the resolved
index is pushed on the side stack; (2) the matching `CallFP` whose side-stack
top is non-negative is rewritten to a static `Call` that preserves the
argument count, the `Comma` flag and the position, and whose `TypeID` is the
element type of the `CallFP`'s pointer type; (3) end to end on a concrete
body, `Global(f); Arguments; CallFP` becomes `Arguments(static); Call(0,
func())` with no `Global`. -/
theorem C5_call_lowering :
    (∀ (out : List Object) (b : Bool) (yidx : Int) (lk : Linkage) (nm : NameID)
        (t : TypeID) (tn : NameID) (pos : Nat) (posA : Nat) (fp : Bool)
        (rest : List Operation) (static : List Int) (g : Operation)
        (acc : List Operation) (fa : List TypeID) (fb : List Operation)
        (bb : ObjectBase) (fr : List NameID),
      0 ≤ yidx →
      out.get? yidx.toNat = some (.functionDefinition fa fb bb fr) →
      checkCallsGo out (some (.globalOp b yidx lk nm t tn pos))
          (.argumentsOp posA fp :: rest) static (g :: acc) =
        checkCallsGo out (some (.argumentsOp posA fp)) rest (yidx :: static)
          (.argumentsOp posA false :: acc)) ∧
    (∀ (out : List Object) (prev : Option Operation) (argc : Nat) (comma : Bool)
        (t : TypeID) (posC : Nat) (rest : List Operation) (index : Int)
        (staticRest : List Int) (acc : List Operation) (tp : TypeID) (e : Typ),
      ¬ index < 0 →
      mustTypeL t = .ok (.pointerT tp e) →
      checkCallsGo out prev (.callFP argc comma t posC :: rest)
          (index :: staticRest) acc =
        checkCallsGo out (some (.callFP argc comma t posC)) rest staticRest
          (.call argc comma index e.tid posC :: acc)) ∧
    checkCalls
      [.functionDefinition [] [.returnOp 0] ⟨0, strBytes "f", strBytes "func()", .External, []⟩ []]
      [.globalOp false 0 .External (strBytes "f") (strBytes "*func()") [] 0,
       .argumentsOp 1 true,
       .callFP 0 false (strBytes "*func()") 2,
       .returnOp 3] =
    .ok [.argumentsOp 1 false, .call 0 false 0 (strBytes "func()") 2, .returnOp 3] := by
  refine ⟨?_, ?_, rfl⟩
  · intro out b yidx lk nm t tn pos posA fp rest static g acc fa fb bb fr h1 h2
    simp only [checkCallsGo]
    rw [if_pos h1, h2]
  · intro out prev argc comma t posC rest index staticRest acc tp e h1 h2
    simp only [checkCallsGo]
    rw [if_neg h1, h2]
    rfl

/-- C5 witness. -/
theorem C5_call_lowering_witness :
    checkCallsGo
        [.functionDefinition [] [.returnOp 0] ⟨0, strBytes "f", strBytes "func()", .External, []⟩ []]
        (some (.globalOp false 0 .External (strBytes "f") (strBytes "*func()") [] 0))
        [.argumentsOp 1 true] []
        [.globalOp false 0 .External (strBytes "f") (strBytes "*func()") [] 0] =
      checkCallsGo
        [.functionDefinition [] [.returnOp 0] ⟨0, strBytes "f", strBytes "func()", .External, []⟩ []]
        (some (.argumentsOp 1 true)) [] [0] [.argumentsOp 1 false] ∧
    checkCallsGo [] none [.callFP 0 false (strBytes "*func()") 2] [0] [] =
      checkCallsGo [] (some (.callFP 0 false (strBytes "*func()") 2)) [] []
        [.call 0 false 0 (strBytes "func()") 2] :=
  ⟨C5_call_lowering.1
      [.functionDefinition [] [.returnOp 0] ⟨0, strBytes "f", strBytes "func()", .External, []⟩ []]
      false 0 .External (strBytes "f") (strBytes "*func()") [] 0 1 true [] []
      (.globalOp false 0 .External (strBytes "f") (strBytes "*func()") [] 0) []
      [] [.returnOp 0] ⟨0, strBytes "f", strBytes "func()", .External, []⟩ []
      (by decide) rfl,
   C5_call_lowering.2.1 [] none 0 false (strBytes "*func()") 2 [] 0 [] []
      (strBytes "*func()") (.functionT (strBytes "func()") [] [] false)
      (by decide) rfl⟩

mutual

theorem valRelated_refl : (v : Val) → valRelated v v
  | .int32Value _ => rfl
  | .int64Value _ => rfl
  | .float32Value _ => rfl
  | .float64Value _ => rfl
  | .complex64Value _ => rfl
  | .complex128Value _ => rfl
  | .stringValue _ _ => rfl
  | .wideStringValue _ => rfl
  | .addressValue _ _ _ _ _ => ⟨rfl, rfl, rfl, rfl⟩
  | .compositeValue vs => valsRelated_refl vs
  | .designatedValue _ _ => rfl

theorem valsRelated_refl : (vs : List Val) → valsRelated vs vs
  | [] => trivial
  | v :: vs => ⟨valRelated_refl v, valsRelated_refl vs⟩

end

theorem optValRelated_refl : (v : Option Val) → optValRelated v v
  | none => trivial
  | some v => valRelated_refl v

theorem opDerived_refl (op : Operation) : opDerived op op := by
  cases op <;> simp [opDerived, optValRelated_refl]

theorem objectDerived_refl : (o : Object) → objectDerived o o
  | .dataDefinition _ v => ⟨rfl, optValRelated_refl v⟩
  | .functionDefinition _ _ _ _ =>
    ⟨rfl, rfl, rfl, fun op h => ⟨op, h, opDerived_refl op⟩⟩

/-- Composition: a body-walk change followed by a `checkCalls` change is an
`opDerived` step (the two stages touch disjoint operation kinds). -/
theorem lkD_ckD_opDerived (a b c : Operation) (h1 : lkD a b) (h2 : ckD b c) :
    opDerived a c := by
  rcases h1 with h1 | ⟨t, v, v', p, hrel, ha, hb⟩ | ⟨ga, gi, gi', glk, gn, gt, gtn, gp, ha, hb⟩ |
    ⟨idx, n, t, tn, v, v', p, hrel, ha, hb⟩
  · subst h1
    rcases h2 with h2 | ⟨p, fp, fp', hb, hc⟩ | ⟨ca, cc, ct, cp, ci, ce, hb, hc⟩
    · subst h2; exact opDerived_refl _
    · subst hb; subst hc; exact rfl
    · subst hb; subst hc; exact ⟨rfl, rfl, rfl⟩
  · subst ha; subst hb
    rcases h2 with h2 | ⟨p', fp, fp', hb, hc⟩ | ⟨ca, cc, ct, cp, ci, ce, hb, hc⟩
    · subst h2; exact ⟨rfl, hrel, rfl⟩
    · exact Operation.noConfusion hb
    · exact Operation.noConfusion hb
  · subst ha; subst hb
    rcases h2 with h2 | ⟨p', fp, fp', hb, hc⟩ | ⟨ca, cc, ct, cp, ci, ce, hb, hc⟩
    · subst h2; exact ⟨rfl, rfl, rfl, rfl, rfl, rfl⟩
    · exact Operation.noConfusion hb
    · exact Operation.noConfusion hb
  · subst ha; subst hb
    rcases h2 with h2 | ⟨p', fp, fp', hb, hc⟩ | ⟨ca, cc, ct, cp, ci, ce, hb, hc⟩
    · subst h2; exact ⟨rfl, rfl, rfl, rfl, hrel, rfl⟩
    · exact Operation.noConfusion hb
    · exact Operation.noConfusion hb

theorem unconvert_mem (body : List Operation) (op : Operation)
    (h : op ∈ unconvert body) : op ∈ body :=
  (List.mem_filter.mp h).1

/-- Every operation emitted by `checkCalls` either derives (`ckD`) from an
operation of the remaining input or was already in the accumulator. -/
theorem checkCallsGo_mem :
    ∀ (body : List Operation) (out : List Object) (prev : Option Operation)
      (static : List Int) (acc : List Operation) (r : List Operation),
      checkCallsGo out prev body static acc = .ok r →
      ∀ op' ∈ r, (∃ op ∈ body, ckD op op') ∨ op' ∈ acc := by
  intro body
  induction body with
  | nil =>
    intro out prev static acc r h op' hop
    simp only [checkCallsGo] at h
    cases h
    exact Or.inr (List.mem_reverse.mp hop)
  | cons v rest ih =>
    intro out prev static acc r h op' hop
    have liftTail : (∃ op ∈ rest, ckD op op') ∨ op' ∈ (v :: acc) →
        (∃ op ∈ v :: rest, ckD op op') ∨ op' ∈ acc := by
      rintro (⟨op, hmem, hck⟩ | hacc)
      · exact Or.inl ⟨op, List.mem_cons_of_mem _ hmem, hck⟩
      · rcases List.mem_cons.mp hacc with heq | hacc
        · exact Or.inl ⟨v, List.mem_cons_self _ _, Or.inl heq⟩
        · exact Or.inr hacc
    cases v with
    | argumentsOp posA fp =>
      simp only [checkCallsGo] at h
      rcases prev with _ | pop
      · rcases ih out _ _ _ _ h op' hop with ⟨op, hmem, hck⟩ | hacc
        · exact Or.inl ⟨op, List.mem_cons_of_mem _ hmem, hck⟩
        · rcases List.mem_cons.mp hacc with heq | hacc
          · exact Or.inl ⟨.argumentsOp posA fp, List.mem_cons_self _ _,
              Or.inr (Or.inl ⟨posA, fp, true, rfl, heq⟩)⟩
          · exact Or.inr hacc
      · have hstep : ∀ (st2 : List Int) (ac2 : List Operation),
            checkCallsGo out (some (.argumentsOp posA fp)) rest st2 ac2 = .ok r →
            (ac2 = .argumentsOp posA true :: acc ∨
              (∃ g accTail, acc = g :: accTail ∧
                ac2 = .argumentsOp posA false :: accTail)) →
            (∃ op ∈ .argumentsOp posA fp :: rest, ckD op op') ∨ op' ∈ acc := by
          intro st2 ac2 hrec hshape
          rcases ih out _ _ _ _ hrec op' hop with ⟨op, hmem, hck⟩ | hacc
          · exact Or.inl ⟨op, List.mem_cons_of_mem _ hmem, hck⟩
          · rcases hshape with rfl | ⟨g, accTail, hacceq, hac2⟩
            · rcases List.mem_cons.mp hacc with heq | hacc
              · exact Or.inl ⟨.argumentsOp posA fp, List.mem_cons_self _ _,
                  Or.inr (Or.inl ⟨posA, fp, true, rfl, heq⟩)⟩
              · exact Or.inr hacc
            · subst hac2
              rcases List.mem_cons.mp hacc with heq | hacc
              · exact Or.inl ⟨.argumentsOp posA fp, List.mem_cons_self _ _,
                  Or.inr (Or.inl ⟨posA, fp, false, rfl, heq⟩)⟩
              · rw [hacceq]
                exact Or.inr (List.mem_cons_of_mem _ hacc)
        cases pop with
        | globalOp gb yidx glk gn gt gtn gp =>
          simp only [] at h
          rcases hy : (if (0:Int) ≤ yidx then out.get? yidx.toNat else none) with _ | yo
          · rw [hy] at h
            exact Except.noConfusion h
          · rw [hy] at h
            cases yo with
            | functionDefinition fa fb bb fr =>
              rcases acc with _ | ⟨g, accTail⟩
              · exact Except.noConfusion h
              · exact hstep _ _ h (Or.inr ⟨g, accTail, rfl, rfl⟩)
            | dataDefinition db dv =>
              exact hstep _ _ h (Or.inl rfl)
        | add t p => exact hstep _ _ h (Or.inl rfl)
        | allocResult t tn p => exact hstep _ _ h (Or.inl rfl)
        | argumentsOp p fp2 => exact hstep _ _ h (Or.inl rfl)
        | beginScope b p => exact hstep _ _ h (Or.inl rfl)
        | call a c i t p => exact hstep _ _ h (Or.inl rfl)
        | callFP a c t p => exact hstep _ _ h (Or.inl rfl)
        | constOp t v p => exact hstep _ _ h (Or.inl rfl)
        | const32 b t v p => exact hstep _ _ h (Or.inl rfl)
        | convert r2 t p => exact hstep _ _ h (Or.inl rfl)
        | drop c b t p => exact hstep _ _ h (Or.inl rfl)
        | dup t p => exact hstep _ _ h (Or.inl rfl)
        | endScope b p => exact hstep _ _ h (Or.inl rfl)
        | jmp c n m p => exact hstep _ _ h (Or.inl rfl)
        | jmpP p => exact hstep _ _ h (Or.inl rfl)
        | jnz b n m p => exact hstep _ _ h (Or.inl rfl)
        | jz b n m p => exact hstep _ _ h (Or.inl rfl)
        | labelOp c l o n q m p => exact hstep _ _ h (Or.inl rfl)
        | nilOp t p => exact hstep _ _ h (Or.inl rfl)
        | notOp p => exact hstep _ _ h (Or.inl rfl)
        | panicOp p => exact hstep _ _ h (Or.inl rfl)
        | result a i t p => exact hstep _ _ h (Or.inl rfl)
        | returnOp p => exact hstep _ _ h (Or.inl rfl)
        | store o b t p => exact hstep _ _ h (Or.inl rfl)
        | variableDeclaration i n t tn v p => exact hstep _ _ h (Or.inl rfl)
    | call a c i t p =>
      simp only [checkCallsGo] at h
      exact Except.noConfusion h
    | callFP argc comma t posC =>
      simp only [checkCallsGo] at h
      rcases static with _ | ⟨index, staticRest⟩
      · exact Except.noConfusion h
      · simp only [] at h
        by_cases hneg : index < 0
        · rw [if_pos hneg] at h
          exact liftTail (ih out _ _ _ _ h op' hop)
        · rw [if_neg hneg] at h
          rcases hmt : mustTypeL t with te | pt
          · rw [hmt] at h
            exact Except.noConfusion h
          · rw [hmt] at h
            cases pt with
            | pointerT tp e =>
              rcases ih out _ _ _ _ h op' hop with ⟨op, hmem, hck⟩ | hacc
              · exact Or.inl ⟨op, List.mem_cons_of_mem _ hmem, hck⟩
              · rcases List.mem_cons.mp hacc with heq | hacc
                · exact Or.inl ⟨.callFP argc comma t posC, List.mem_cons_self _ _,
                    Or.inr (Or.inr ⟨argc, comma, t, posC, index, e.tid, rfl, heq⟩)⟩
                · exact Or.inr hacc
            | base tb k => exact Except.noConfusion h
            | arrayT tb e n => exact Except.noConfusion h
            | functionT tb a2 r2 vr => exact Except.noConfusion h
            | structOrUnionT tb k l => exact Except.noConfusion h
    | add t p => exact liftTail (ih out _ _ _ _ (by simpa only [checkCallsGo] using h) op' hop)
    | allocResult t tn p => exact liftTail (ih out _ _ _ _ (by simpa only [checkCallsGo] using h) op' hop)
    | beginScope b p => exact liftTail (ih out _ _ _ _ (by simpa only [checkCallsGo] using h) op' hop)
    | constOp t v p => exact liftTail (ih out _ _ _ _ (by simpa only [checkCallsGo] using h) op' hop)
    | const32 b t v p => exact liftTail (ih out _ _ _ _ (by simpa only [checkCallsGo] using h) op' hop)
    | convert r2 t p => exact liftTail (ih out _ _ _ _ (by simpa only [checkCallsGo] using h) op' hop)
    | drop c b t p => exact liftTail (ih out _ _ _ _ (by simpa only [checkCallsGo] using h) op' hop)
    | dup t p => exact liftTail (ih out _ _ _ _ (by simpa only [checkCallsGo] using h) op' hop)
    | endScope b p => exact liftTail (ih out _ _ _ _ (by simpa only [checkCallsGo] using h) op' hop)
    | globalOp a i lk n t tn p => exact liftTail (ih out _ _ _ _ (by simpa only [checkCallsGo] using h) op' hop)
    | jmp c n m p => exact liftTail (ih out _ _ _ _ (by simpa only [checkCallsGo] using h) op' hop)
    | jmpP p => exact liftTail (ih out _ _ _ _ (by simpa only [checkCallsGo] using h) op' hop)
    | jnz b n m p => exact liftTail (ih out _ _ _ _ (by simpa only [checkCallsGo] using h) op' hop)
    | jz b n m p => exact liftTail (ih out _ _ _ _ (by simpa only [checkCallsGo] using h) op' hop)
    | labelOp c l o n q m p => exact liftTail (ih out _ _ _ _ (by simpa only [checkCallsGo] using h) op' hop)
    | nilOp t p => exact liftTail (ih out _ _ _ _ (by simpa only [checkCallsGo] using h) op' hop)
    | notOp p => exact liftTail (ih out _ _ _ _ (by simpa only [checkCallsGo] using h) op' hop)
    | panicOp p => exact liftTail (ih out _ _ _ _ (by simpa only [checkCallsGo] using h) op' hop)
    | result a i t p => exact liftTail (ih out _ _ _ _ (by simpa only [checkCallsGo] using h) op' hop)
    | returnOp p => exact liftTail (ih out _ _ _ _ (by simpa only [checkCallsGo] using h) op' hop)
    | store o b t p => exact liftTail (ih out _ _ _ _ (by simpa only [checkCallsGo] using h) op' hop)
    | variableDeclaration i n t tn v p => exact liftTail (ih out _ _ _ _ (by simpa only [checkCallsGo] using h) op' hop)

theorem outPres_refl (L : LinkCtx) (st : LState) : outPres L st st :=
  ⟨List.prefix_refl _, id⟩

theorem outPres_trans (L : LinkCtx) (s1 s2 s3 : LState)
    (h1 : outPres L s1 s2) (h2 : outPres L s2 s3) : outPres L s1 s3 :=
  ⟨h1.1.trans h2.1, fun hi => h2.2 (h1.2 hi)⟩

theorem set_append_len (l₁ l₂ : List Object) (x : Object) :
    (l₁ ++ l₂).set l₁.length x = l₁ ++ l₂.set 0 x := by
  induction l₁ with
  | nil => rfl
  | cons a l ih => simp [List.set, ih]

theorem outInvL_append_src (L : LinkCtx) (st : LState) (e : ExternRef)
    (o : Object) (hsrc : getObj L.units e.unit e.index = some o)
    (hinv : outInvL L st) (d : List (ExternRef × Nat)) :
    outInvL L ⟨d, st.out ++ [o]⟩ := by
  intro o' ho'
  rcases List.mem_append.mp ho' with hm | hm
  · exact hinv o' hm
  · rcases List.mem_singleton.mp hm with rfl
    exact ⟨e.unit, e.index, _, hsrc, objectDerived_refl _⟩

/-- Inversion of a successful `Except` bind. -/
theorem bind_ok_inv {α β : Type} (x : Except LinkErr α) (f : α → Except LinkErr β)
    (b : β) (h : x >>= f = .ok b) : ∃ a, x = .ok a ∧ f a = .ok b := by
  cases x with
  | error e => exact Except.noConfusion h
  | ok a => exact ⟨a, rfl, h⟩

/-- Common shape of `defineData`/`defineFunc`: append the source object, let
the recursive walk extend the output, then rewrite the appended slot with a
derived object. -/
theorem outPres_set (L : LinkCtx) (st st1 st2 : LState) (o X : Object)
    (e : ExternRef) (d : List (ExternRef × Nat)) (d2 : List (ExternRef × Nat))
    (hsrc : getObj L.units e.unit e.index = some o)
    (h1 : st1 = ⟨d, st.out ++ [o]⟩)
    (hpre : st1.out.IsPrefix st2.out)
    (hinv12 : outInvL L st1 → outInvL L st2)
    (hder : objectDerived o X) :
    outPres L st ⟨d2, st2.out.set st.out.length X⟩ := by
  obtain ⟨tail, htail⟩ := hpre
  have hst1 : st1.out = st.out ++ [o] := by rw [h1]
  have hout : st2.out.set st.out.length X = st.out ++ X :: tail := by
    rw [← htail, hst1, List.append_assoc, set_append_len]
    rfl
  have hinv2 : outInvL L st → outInvL L st2 := fun hinv =>
    hinv12 (by rw [h1]; exact outInvL_append_src L st e o hsrc hinv d)
  refine ⟨⟨X :: tail, ?_⟩, ?_⟩
  · show st.out ++ X :: tail = st2.out.set st.out.length X
    rw [hout]
  · intro hinv o' ho'
    have ho'2 : o' ∈ st.out ++ X :: tail := by
      rw [← hout]
      exact ho'
    rcases List.mem_append.mp ho'2 with hm | hm
    · refine hinv2 hinv o' ?_
      rw [← htail, hst1]
      exact List.mem_append_left _ (List.mem_append_left _ hm)
    · rcases List.mem_cons.mp hm with heq | hm
      · subst heq
        exact ⟨e.unit, e.index, o, hsrc, hder⟩
      · refine hinv2 hinv o' ?_
        rw [← htail]
        exact List.mem_append_right _ hm

/-! Unfolding equations (definitional) for the linking functions at a
successor fuel, used to drive the fuel induction. -/

theorem define_succ (n : Nat) (L : LinkCtx) (st : LState) (e : ExternRef) :
    define (n + 1) L st e =
      match st.defined.lookup e with
      | some i => pure (st, i)
      | none =>
        match getObj L.units e.unit e.index with
        | some (.dataDefinition b v) => defineData n L st e b v
        | some (.functionDefinition args body b res) =>
          defineFunc n L st e args body b res
        | none => throw .indexOutOfRange := rfl

theorem defineData_succ_some (n : Nat) (L : LinkCtx) (st : LState)
    (e : ExternRef) (b : ObjectBase) (v0 : Val) :
    defineData (n + 1) L st e b (some v0) = (do
      let (st2, v1) ← walkDataVal n L
        ⟨assocSet st.defined e st.out.length,
         st.out ++ [.dataDefinition b (some v0)]⟩ e v0
      pure (⟨st2.defined,
        st2.out.set st.out.length (.dataDefinition b (some v1))⟩,
        st.out.length) ) := rfl

theorem defineFunc_succ (n : Nat) (L : LinkCtx) (st : LState) (e : ExternRef)
    (args : List NameID) (body : List Operation) (b : ObjectBase)
    (res : List NameID) :
    defineFunc (n + 1) L st e args body b res = (do
      let (st2, body1) ← walkBody n L
        ⟨assocSet st.defined e st.out.length,
         st.out ++ [.functionDefinition args body b res]⟩ e (unconvert body)
      let body2 ← checkCalls st2.out body1
      pure (⟨st2.defined,
        st2.out.set st.out.length (.functionDefinition args body2 b res)⟩,
        st.out.length) ) := rfl

theorem walkDataVal_succ_addr (n : Nat) (L : LinkCtx) (st : LState)
    (e : ExternRef) (i : Int) (lb : NameID) (lk : Linkage) (nm : NameID)
    (off : Nat) :
    walkDataVal (n + 1) L st e (.addressValue i lb lk nm off) =
      match lk with
      | .External =>
        match L.externs.lookup nm with
        | some ex => do
          let (st', j) ← define n L st ex
          pure (st', .addressValue (j : Int) lb lk nm off)
        | none => throw .undefinedExtern
      | .Internal =>
        match L.intern.lookup (nm, e.unit) with
        | some exi => do
          let (st', j) ← define n L st ⟨e.unit, exi⟩
          pure (st', .addressValue (j : Int) lb lk nm off)
        | none => throw .undefinedIntern := rfl

theorem walkDataVal_succ_comp (n : Nat) (L : LinkCtx) (st : LState)
    (e : ExternRef) (vs : List Val) :
    walkDataVal (n + 1) L st e (.compositeValue vs) = (do
      let (st', vs') ← walkDataVals n L st e vs
      pure (st', .compositeValue vs') ) := rfl

theorem walkDataVals_succ_cons (n : Nat) (L : LinkCtx) (st : LState)
    (e : ExternRef) (v : Val) (vs : List Val) :
    walkDataVals (n + 1) L st e (v :: vs) = (do
      let (st1, v') ← walkDataVal n L st e v
      let (st2, vs') ← walkDataVals n L st1 e vs
      pure (st2, v' :: vs') ) := rfl

theorem walkInitVal_succ_addr (n : Nat) (L : LinkCtx) (st : LState)
    (i : Int) (lb : NameID) (lk : Linkage) (nm : NameID) (off : Nat) :
    walkInitVal (n + 1) L st (.addressValue i lb lk nm off) =
      match lk with
      | .External =>
        match L.externs.lookup nm with
        | some ex => do
          let (st', j) ← define n L st ex
          pure (st', .addressValue (j : Int) lb lk nm off)
        | none => throw .undefinedExtern
      | .Internal => throw .internalError := rfl

theorem walkInitVal_succ_comp (n : Nat) (L : LinkCtx) (st : LState)
    (vs : List Val) :
    walkInitVal (n + 1) L st (.compositeValue vs) = (do
      let (st', vs') ← walkInitVals n L st vs
      pure (st', .compositeValue vs') ) := rfl

theorem walkInitVals_succ_cons (n : Nat) (L : LinkCtx) (st : LState)
    (v : Val) (vs : List Val) :
    walkInitVals (n + 1) L st (v :: vs) = (do
      let (st1, v') ← walkInitVal n L st v
      let (st2, vs') ← walkInitVals n L st1 vs
      pure (st2, v' :: vs') ) := rfl

theorem linkOp_succ_const (n : Nat) (L : LinkCtx) (st : LState)
    (e : ExternRef) (t : TypeID) (v : Option Val) (posC : Nat) :
    linkOp (n + 1) L st e (.constOp t v posC) =
      match v with
      | some (.addressValue _ lb lk nm off) =>
        (match lk with
        | .External =>
          match L.externs.lookup nm with
          | some ex => do
            let (st', j) ← define n L st ex
            pure (st', .constOp t (some (.addressValue (j : Int) lb lk nm off)) posC)
          | none => throw .todo
        | .Internal =>
          match L.intern.lookup (nm, e.unit) with
          | some exi => do
            let (st', j) ← define n L st ⟨e.unit, exi⟩
            pure (st', .constOp t (some (.addressValue (j : Int) lb lk nm off)) posC)
          | none => throw .todo)
      | _ => throw .internalError := rfl

theorem linkOp_succ_global (n : Nat) (L : LinkCtx) (st : LState)
    (e : ExternRef) (addr : Bool) (i : Int) (lk : Linkage) (nm : NameID)
    (t : TypeID) (tn : NameID) (posG : Nat) :
    linkOp (n + 1) L st e (.globalOp addr i lk nm t tn posG) =
      match lk with
      | .External =>
        (match L.externs.lookup nm with
        | some ex => do
          let (st', j) ← define n L st ex
          pure (st', .globalOp addr (j : Int) lk nm t tn posG)
        | none =>
          match L.externs.lookup (idBuiltinPrefix ++ nm) with
          | some ex => do
            let (st', j) ← define n L st ex
            pure (st', .globalOp addr (j : Int) lk nm t tn posG)
          | none => throw .undefinedExtern)
      | .Internal =>
        match L.intern.lookup (nm, e.unit) with
        | some exi => do
          let (st', j) ← define n L st ⟨e.unit, exi⟩
          pure (st', .globalOp addr (j : Int) lk nm t tn posG)
        | none => throw .undefinedIntern := rfl

theorem linkOp_succ_vardecl (n : Nat) (L : LinkCtx) (st : LState)
    (e : ExternRef) (idx : Int) (nm : NameID) (t : TypeID) (tn : NameID)
    (v : Option Val) (posV : Nat) :
    linkOp (n + 1) L st e (.variableDeclaration idx nm t tn v posV) =
      match v with
      | none => pure (st, .variableDeclaration idx nm t tn none posV)
      | some v0 => (do
        let (st', v1) ← walkInitVal n L st v0
        pure (st', .variableDeclaration idx nm t tn (some v1) posV)) := rfl

theorem walkBody_succ_cons (n : Nat) (L : LinkCtx) (st : LState)
    (e : ExternRef) (op : Operation) (rest : List Operation) :
    walkBody (n + 1) L st e (op :: rest) = (do
      let (st1, op') ← linkOp n L st e op
      let (st2, rest') ← walkBody n L st1 e rest
      pure (st2, op' :: rest') ) := rfl

/-- The linking-phase frame invariant, by induction on fuel: every function
of the `define` family only appends derived objects to the output vector. -/
theorem linkInv : ∀ n : Nat,
    (∀ L st e st' i, define n L st e = .ok (st', i) → outPres L st st') ∧
    (∀ L st e b v st' i,
      getObj L.units e.unit e.index = some (.dataDefinition b v) →
      defineData n L st e b v = .ok (st', i) → outPres L st st') ∧
    (∀ L st e args body b res st' i,
      getObj L.units e.unit e.index = some (.functionDefinition args body b res) →
      defineFunc n L st e args body b res = .ok (st', i) → outPres L st st') ∧
    (∀ L st e v st' v', walkDataVal n L st e v = .ok (st', v') →
      outPres L st st' ∧ valRelated v v') ∧
    (∀ L st e vs st' vs', walkDataVals n L st e vs = .ok (st', vs') →
      outPres L st st' ∧ valsRelated vs vs') ∧
    (∀ L st v st' v', walkInitVal n L st v = .ok (st', v') →
      outPres L st st' ∧ valRelated v v') ∧
    (∀ L st vs st' vs', walkInitVals n L st vs = .ok (st', vs') →
      outPres L st st' ∧ valsRelated vs vs') ∧
    (∀ L st e op st' op', linkOp n L st e op = .ok (st', op') →
      outPres L st st' ∧ lkD op op') ∧
    (∀ L st e ops st' ops', walkBody n L st e ops = .ok (st', ops') →
      outPres L st st' ∧ ∀ x ∈ ops', ∃ y ∈ ops, lkD y x) := by
  intro n
  induction n with
  | zero =>
    refine ⟨?_, ?_, ?_, ?_, ?_, ?_, ?_, ?_, ?_⟩
    · intro L st e st' i h
      exact Except.noConfusion h
    · intro L st e b v st' i _ h
      exact Except.noConfusion h
    · intro L st e args body b res st' i _ h
      exact Except.noConfusion h
    · intro L st e v st' v' h
      cases v
      all_goals first
        | exact Except.noConfusion h
        | (injection h with hp
           injection hp with h1 h2
           subst h1
           subst h2
           exact ⟨outPres_refl _ _, valRelated_refl _⟩)
    · intro L st e vs st' vs' h
      cases vs with
      | nil =>
        injection h with hp
        injection hp with h1 h2
        subst h1
        subst h2
        exact ⟨outPres_refl _ _, trivial⟩
      | cons v vs => exact Except.noConfusion h
    · intro L st v st' v' h
      cases v
      all_goals first
        | exact Except.noConfusion h
        | (injection h with hp
           injection hp with h1 h2
           subst h1
           subst h2
           exact ⟨outPres_refl _ _, valRelated_refl _⟩)
    · intro L st vs st' vs' h
      cases vs with
      | nil =>
        injection h with hp
        injection hp with h1 h2
        subst h1
        subst h2
        exact ⟨outPres_refl _ _, trivial⟩
      | cons v vs => exact Except.noConfusion h
    · intro L st e op st' op' h
      cases op
      all_goals first
        | exact Except.noConfusion h
        | (injection h with hp
           injection hp with h1 h2
           subst h1
           subst h2
           exact ⟨outPres_refl _ _, Or.inl rfl⟩)
    · intro L st e ops st' ops' h
      cases ops with
      | nil =>
        injection h with hp
        injection hp with h1 h2
        subst h1
        subst h2
        exact ⟨outPres_refl _ _, fun x hx => absurd hx (List.not_mem_nil x)⟩
      | cons op rest => exact Except.noConfusion h
  | succ n ih =>
    obtain ⟨ihD, ihDD, ihDF, ihWD, ihWDs, ihWI, ihWIs, ihLO, ihWB⟩ := ih
    refine ⟨?_, ?_, ?_, ?_, ?_, ?_, ?_, ?_, ?_⟩
    · intro L st e st' i h
      rw [define_succ] at h
      rcases hlk : st.defined.lookup e with _ | j
      · rw [hlk] at h
        rcases ho : getObj L.units e.unit e.index with _ | o
        · rw [ho] at h
          exact Except.noConfusion h
        · rw [ho] at h
          cases o with
          | dataDefinition b v => exact ihDD L st e b v st' i ho h
          | functionDefinition args body b res =>
            exact ihDF L st e args body b res st' i ho h
      · rw [hlk] at h
        injection h with hp
        injection hp with h1 h2
        subst h1
        exact outPres_refl _ _
    · intro L st e b v st' i hsrc h
      cases v with
      | none =>
        injection h with hp
        injection hp with h1 h2
        subst h1
        exact outPres_set L st
          ⟨assocSet st.defined e st.out.length, st.out ++ [.dataDefinition b none]⟩
          ⟨assocSet st.defined e st.out.length, st.out ++ [.dataDefinition b none]⟩
          (.dataDefinition b none) (.dataDefinition b none) e
          (assocSet st.defined e st.out.length) (assocSet st.defined e st.out.length)
          hsrc rfl (List.prefix_refl _) id (objectDerived_refl _)
      | some v0 =>
        rw [defineData_succ_some] at h
        obtain ⟨⟨st2, v1⟩, hwd, h2⟩ := bind_ok_inv _ _ _ h
        injection h2 with hp
        injection hp with h3 h4
        subst h3
        obtain ⟨hpres, hrel⟩ := ihWD L
          ⟨assocSet st.defined e st.out.length,
           st.out ++ [.dataDefinition b (some v0)]⟩ e v0 _ _ hwd
        exact outPres_set L st _ st2 (.dataDefinition b (some v0))
          (.dataDefinition b (some v1)) e
          (assocSet st.defined e st.out.length) st2.defined hsrc rfl
          hpres.1 hpres.2 ⟨rfl, hrel⟩
    · intro L st e args body b res st' i hsrc h
      rw [defineFunc_succ] at h
      obtain ⟨⟨st2, body1⟩, hwb, h2⟩ := bind_ok_inv _ _ _ h
      obtain ⟨body2, hck, h3⟩ := bind_ok_inv _ _ _ h2
      injection h3 with hp
      injection hp with h4 h5
      subst h4
      obtain ⟨hpres, hmem⟩ := ihWB L
        ⟨assocSet st.defined e st.out.length,
         st.out ++ [.functionDefinition args body b res]⟩ e (unconvert body) _ _ hwb
      refine outPres_set L st _ st2 (.functionDefinition args body b res)
        (.functionDefinition args body2 b res) e
        (assocSet st.defined e st.out.length) st2.defined hsrc rfl hpres.1 hpres.2
        ⟨rfl, rfl, rfl, ?_⟩
      intro op' hop'
      rcases checkCallsGo_mem body1 st2.out none [] [] body2 hck op' hop' with
        ⟨op1, hmem1, hckd⟩ | habs
      · obtain ⟨op0, hmem0, hlkd⟩ := hmem op1 hmem1
        exact ⟨op0, unconvert_mem body op0 hmem0,
          lkD_ckD_opDerived op0 op1 op' hlkd hckd⟩
      · exact absurd habs (List.not_mem_nil op')
    · intro L st e v st' v' h
      cases v
      case addressValue i lb lk nm off =>
        rw [walkDataVal_succ_addr] at h
        cases lk with
        | External =>
          rcases hlk : L.externs.lookup nm with _ | ex
          · rw [hlk] at h
            exact Except.noConfusion h
          · rw [hlk] at h
            obtain ⟨⟨stm, j⟩, hdef, h2⟩ := bind_ok_inv _ _ _ h
            injection h2 with hp
            injection hp with h3 h4
            subst h3
            subst h4
            exact ⟨ihD L st ex _ _ hdef, rfl, rfl, rfl, rfl⟩
        | Internal =>
          rcases hlk : L.intern.lookup (nm, e.unit) with _ | exi
          · rw [hlk] at h
            exact Except.noConfusion h
          · rw [hlk] at h
            obtain ⟨⟨stm, j⟩, hdef, h2⟩ := bind_ok_inv _ _ _ h
            injection h2 with hp
            injection hp with h3 h4
            subst h3
            subst h4
            exact ⟨ihD L st ⟨e.unit, exi⟩ _ _ hdef, rfl, rfl, rfl, rfl⟩
      case compositeValue vs =>
        rw [walkDataVal_succ_comp] at h
        obtain ⟨⟨stm, vs2⟩, hws, h2⟩ := bind_ok_inv _ _ _ h
        injection h2 with hp
        injection hp with h3 h4
        subst h3
        subst h4
        obtain ⟨hpres, hrel⟩ := ihWDs L st e vs _ _ hws
        exact ⟨hpres, hrel⟩
      all_goals first
        | exact Except.noConfusion h
        | (injection h with hp
           injection hp with h1 h2
           subst h1
           subst h2
           exact ⟨outPres_refl _ _, valRelated_refl _⟩)
    · intro L st e vs st' vs' h
      cases vs with
      | nil =>
        injection h with hp
        injection hp with h1 h2
        subst h1
        subst h2
        exact ⟨outPres_refl _ _, trivial⟩
      | cons v vs =>
        rw [walkDataVals_succ_cons] at h
        obtain ⟨⟨st1, v2⟩, hw1, h2⟩ := bind_ok_inv _ _ _ h
        obtain ⟨⟨st2, vs2⟩, hw2, h3⟩ := bind_ok_inv _ _ _ h2
        injection h3 with hp
        injection hp with h4 h5
        subst h4
        subst h5
        obtain ⟨hp1, hr1⟩ := ihWD L st e v _ _ hw1
        obtain ⟨hp2, hr2⟩ := ihWDs L st1 e vs _ _ hw2
        exact ⟨outPres_trans _ _ _ _ hp1 hp2, hr1, hr2⟩
    · intro L st v st' v' h
      cases v
      case addressValue i lb lk nm off =>
        rw [walkInitVal_succ_addr] at h
        cases lk with
        | External =>
          rcases hlk : L.externs.lookup nm with _ | ex
          · rw [hlk] at h
            exact Except.noConfusion h
          · rw [hlk] at h
            obtain ⟨⟨stm, j⟩, hdef, h2⟩ := bind_ok_inv _ _ _ h
            injection h2 with hp
            injection hp with h3 h4
            subst h3
            subst h4
            exact ⟨ihD L st ex _ _ hdef, rfl, rfl, rfl, rfl⟩
        | Internal => exact Except.noConfusion h
      case compositeValue vs =>
        rw [walkInitVal_succ_comp] at h
        obtain ⟨⟨stm, vs2⟩, hws, h2⟩ := bind_ok_inv _ _ _ h
        injection h2 with hp
        injection hp with h3 h4
        subst h3
        subst h4
        obtain ⟨hpres, hrel⟩ := ihWIs L st vs _ _ hws
        exact ⟨hpres, hrel⟩
      all_goals first
        | exact Except.noConfusion h
        | (injection h with hp
           injection hp with h1 h2
           subst h1
           subst h2
           exact ⟨outPres_refl _ _, valRelated_refl _⟩)
    · intro L st vs st' vs' h
      cases vs with
      | nil =>
        injection h with hp
        injection hp with h1 h2
        subst h1
        subst h2
        exact ⟨outPres_refl _ _, trivial⟩
      | cons v vs =>
        rw [walkInitVals_succ_cons] at h
        obtain ⟨⟨st1, v2⟩, hw1, h2⟩ := bind_ok_inv _ _ _ h
        obtain ⟨⟨st2, vs2⟩, hw2, h3⟩ := bind_ok_inv _ _ _ h2
        injection h3 with hp
        injection hp with h4 h5
        subst h4
        subst h5
        obtain ⟨hp1, hr1⟩ := ihWI L st v _ _ hw1
        obtain ⟨hp2, hr2⟩ := ihWIs L st1 vs _ _ hw2
        exact ⟨outPres_trans _ _ _ _ hp1 hp2, hr1, hr2⟩
    · intro L st e op st' op' h
      cases op
      case constOp t v p =>
        rw [linkOp_succ_const] at h
        rcases v with _ | v0
        · exact Except.noConfusion h
        · cases v0
          case addressValue i lb lk nm off =>
            simp only [] at h
            cases lk with
            | External =>
              rcases hlk : L.externs.lookup nm with _ | ex
              · rw [hlk] at h
                exact Except.noConfusion h
              · rw [hlk] at h
                obtain ⟨⟨stm, j⟩, hdef, h2⟩ := bind_ok_inv _ _ _ h
                injection h2 with hp
                injection hp with h3 h4
                subst h3
                subst h4
                exact ⟨ihD L st ex _ _ hdef, Or.inr (Or.inl
                  ⟨t, some (.addressValue i lb .External nm off),
                   some (.addressValue (j : Int) lb .External nm off), p,
                   ⟨rfl, rfl, rfl, rfl⟩, rfl, rfl⟩)⟩
            | Internal =>
              rcases hlk : L.intern.lookup (nm, e.unit) with _ | exi
              · rw [hlk] at h
                exact Except.noConfusion h
              · rw [hlk] at h
                obtain ⟨⟨stm, j⟩, hdef, h2⟩ := bind_ok_inv _ _ _ h
                injection h2 with hp
                injection hp with h3 h4
                subst h3
                subst h4
                exact ⟨ihD L st ⟨e.unit, exi⟩ _ _ hdef, Or.inr (Or.inl
                  ⟨t, some (.addressValue i lb .Internal nm off),
                   some (.addressValue (j : Int) lb .Internal nm off), p,
                   ⟨rfl, rfl, rfl, rfl⟩, rfl, rfl⟩)⟩
          all_goals exact Except.noConfusion h
      case globalOp addr i lk nm t tn p =>
        rw [linkOp_succ_global] at h
        cases lk with
        | External =>
          rcases hlk : L.externs.lookup nm with _ | ex
          · rw [hlk] at h
            rcases hlk2 : L.externs.lookup (idBuiltinPrefix ++ nm) with _ | ex2
            · rw [hlk2] at h
              exact Except.noConfusion h
            · rw [hlk2] at h
              obtain ⟨⟨stm, j⟩, hdef, h2⟩ := bind_ok_inv _ _ _ h
              injection h2 with hp
              injection hp with h3 h4
              subst h3
              subst h4
              exact ⟨ihD L st ex2 _ _ hdef, Or.inr (Or.inr (Or.inl
                ⟨addr, i, (j : Int), .External, nm, t, tn, p, rfl, rfl⟩))⟩
          · rw [hlk] at h
            obtain ⟨⟨stm, j⟩, hdef, h2⟩ := bind_ok_inv _ _ _ h
            injection h2 with hp
            injection hp with h3 h4
            subst h3
            subst h4
            exact ⟨ihD L st ex _ _ hdef, Or.inr (Or.inr (Or.inl
              ⟨addr, i, (j : Int), .External, nm, t, tn, p, rfl, rfl⟩))⟩
        | Internal =>
          rcases hlk : L.intern.lookup (nm, e.unit) with _ | exi
          · rw [hlk] at h
            exact Except.noConfusion h
          · rw [hlk] at h
            obtain ⟨⟨stm, j⟩, hdef, h2⟩ := bind_ok_inv _ _ _ h
            injection h2 with hp
            injection hp with h3 h4
            subst h3
            subst h4
            exact ⟨ihD L st ⟨e.unit, exi⟩ _ _ hdef, Or.inr (Or.inr (Or.inl
              ⟨addr, i, (j : Int), .Internal, nm, t, tn, p, rfl, rfl⟩))⟩
      case variableDeclaration idx nm t tn v p =>
        rw [linkOp_succ_vardecl] at h
        cases v with
        | none =>
          injection h with hp
          injection hp with h1 h2
          subst h1
          subst h2
          exact ⟨outPres_refl _ _, Or.inl rfl⟩
        | some v0 =>
          obtain ⟨⟨stm, v1⟩, hwi, h2⟩ := bind_ok_inv _ _ _ h
          injection h2 with hp
          injection hp with h3 h4
          subst h3
          subst h4
          obtain ⟨hpres, hrel⟩ := ihWI L st v0 _ _ hwi
          exact ⟨hpres, Or.inr (Or.inr (Or.inr
            ⟨idx, nm, t, tn, some v0, some v1, p, hrel, rfl, rfl⟩))⟩
      all_goals
        injection h with hp
        injection hp with h1 h2
        subst h1
        subst h2
        exact ⟨outPres_refl _ _, Or.inl rfl⟩
    · intro L st e ops st' ops' h
      cases ops with
      | nil =>
        injection h with hp
        injection hp with h1 h2
        subst h1
        subst h2
        exact ⟨outPres_refl _ _, fun x hx => absurd hx (List.not_mem_nil x)⟩
      | cons op rest =>
        rw [walkBody_succ_cons] at h
        obtain ⟨⟨st1, op2⟩, hlo, h2⟩ := bind_ok_inv _ _ _ h
        obtain ⟨⟨st2, rest2⟩, hwb, h3⟩ := bind_ok_inv _ _ _ h2
        injection h3 with hp
        injection hp with h4 h5
        subst h4
        subst h5
        obtain ⟨hp1, hl1⟩ := ihLO L st e op _ _ hlo
        obtain ⟨hp2, hm2⟩ := ihWB L st1 e rest _ _ hwb
        refine ⟨outPres_trans _ _ _ _ hp1 hp2, ?_⟩
        intro x hx
        rcases List.mem_cons.mp hx with heq | hx
        · subst heq
          exact ⟨op, List.mem_cons_self _ _, hl1⟩
        · obtain ⟨y, hy, hld⟩ := hm2 x hx
          exact ⟨y, List.mem_cons_of_mem _ hy, hld⟩

/-! List-access helpers for the symbol-collection invariants. -/

theorem getD_set_self (l : List (List Object)) (n : Nat) (x d : List Object)
    (hn : n < l.length) : (l.set n x).getD n d = x := by
  induction l generalizing n with
  | nil => exact absurd hn (Nat.not_lt_zero n)
  | cons a t ih =>
    cases n with
    | zero => rfl
    | succ m => exact ih m (Nat.lt_of_succ_lt_succ hn)

theorem getD_set_ne (l : List (List Object)) (n m : Nat) (x d : List Object)
    (h : n ≠ m) : (l.set n x).getD m d = l.getD m d := by
  induction l generalizing n m with
  | nil => rfl
  | cons a t ih =>
    cases n with
    | zero =>
      cases m with
      | zero => exact absurd rfl h
      | succ k => rfl
    | succ n' =>
      cases m with
      | zero => rfl
      | succ k => exact ih n' k (fun hk => h (by rw [hk]))

theorem get?_set_self_obj (l : List Object) (n : Nat) (x : Object)
    (hn : n < l.length) : (l.set n x).get? n = some x := by
  induction l generalizing n with
  | nil => exact absurd hn (Nat.not_lt_zero n)
  | cons a t ih =>
    cases n with
    | zero => rfl
    | succ m => exact ih m (Nat.lt_of_succ_lt_succ hn)

theorem get?_set_ne_obj (l : List Object) (n m : Nat) (x : Object)
    (h : n ≠ m) : (l.set n x).get? m = l.get? m := by
  induction l generalizing n m with
  | nil => rfl
  | cons a t ih =>
    cases n with
    | zero =>
      cases m with
      | zero => exact absurd rfl h
      | succ k => rfl
    | succ n' =>
      cases m with
      | zero => rfl
      | succ k => exact ih n' k (fun hk => h (by rw [hk]))

theorem getObj_some_lt (units : List (List Object)) (u i : Nat) (o : Object)
    (h : getObj units u i = some o) : u < units.length := by
  by_contra hu
  have hD : units.getD u [] = [] :=
    List.getD_eq_default _ _ (Nat.le_of_not_lt hu)
  rw [getObj, hD] at h
  exact Option.noConfusion h

theorem getObj_setObj_self (units : List (List Object)) (a b : Nat)
    (x o₀ : Object) (h : getObj units a b = some o₀) :
    getObj (setObj units a b x) a b = some x := by
  have ha : a < units.length := getObj_some_lt units a b o₀ h
  have hb : b < (units.getD a []).length := by
    rw [getObj] at h
    exact List.get?_eq_some.mp h |>.1
  rw [getObj, setObj, getD_set_self _ _ _ _ ha]
  exact get?_set_self_obj _ _ _ hb

theorem getObj_setObj_ne (units : List (List Object)) (a b u i : Nat)
    (x : Object) (h : ¬ (a = u ∧ b = i)) :
    getObj (setObj units a b x) u i = getObj units u i := by
  by_cases hau : a = u
  · subst hau
    have hbi : b ≠ i := fun hk => h ⟨rfl, hk⟩
    by_cases ha : a < units.length
    · rw [getObj, setObj, getD_set_self _ _ _ _ ha, getObj]
      exact get?_set_ne_obj _ _ _ _ hbi
    · have : units.set a ((units.getD a []).set b x) = units :=
        List.set_eq_of_length_le (Nat.le_of_not_lt ha)
      rw [getObj, setObj, this, getObj]
  · rw [getObj, setObj, getD_set_ne _ _ _ _ _ hau, getObj]

theorem lookup_assocSet (l : List (NameID × ExternRef)) (k : NameID)
    (v : ExternRef) (k' : NameID) :
    (assocSet l k v).lookup k' = if k' = k then some v else l.lookup k' := by
  induction l with
  | nil =>
    by_cases h : k' = k
    · simp [assocSet, List.lookup, h]
    · simp [assocSet, List.lookup, h, beq_eq_false_iff_ne.mpr h]
  | cons kv rest ih =>
    rcases kv with ⟨k0, v0⟩
    by_cases hk0 : k0 = k
    · subst hk0
      by_cases h : k' = k0
      · subst h
        simp [assocSet, List.lookup]
      · simp [assocSet, List.lookup, h, beq_eq_false_iff_ne.mpr h]
    · by_cases h : k' = k
      · subst h
        simp [assocSet, List.lookup, ih, beq_eq_false_iff_ne.mpr hk0,
          beq_eq_false_iff_ne.mpr (show ¬ k' = k0 from fun hh => hk0 hh.symm)]
      · by_cases h0 : k' = k0
        · subst h0
          simp [assocSet, List.lookup, h, beq_eq_false_iff_ne.mpr hk0]
        · simp [assocSet, List.lookup, ih, h,
            beq_eq_false_iff_ne.mpr hk0, beq_eq_false_iff_ne.mpr h0]

/-! Invariants of the symbol-collection fold, indexed by the processing
position (unit, index). -/

theorem posLe_succ (u i : Nat) (q : Nat × Nat) (h : posLe (u, i + 1) q) :
    posLe (u, i) q := by
  rcases h with h | ⟨h1, h2⟩
  · exact Or.inl h
  · exact Or.inr ⟨h1, Nat.le_of_succ_le h2⟩

theorem posLt_succ (p : Nat × Nat) (u i : Nat) (h : posLt p (u, i)) :
    posLt p (u, i + 1) := by
  rcases h with h | ⟨h1, h2⟩
  · exact Or.inl h
  · exact Or.inr ⟨h1, Nat.lt_succ_of_lt h2⟩

theorem posLe_next_unit (u i u' i' : Nat) (h : posLe (u + 1, 0) (u', i')) :
    posLe (u, i) (u', i') := by
  rcases h with h | ⟨h1, h2⟩
  · exact Or.inl (Nat.lt_of_succ_lt h)
  · exact Or.inl (by rw [← h1]; exact Nat.lt_succ_self u)

theorem posLt_next_unit (p : Nat × Nat) (u i : Nat) (h : posLt p (u, i)) :
    posLt p (u + 1, 0) := by
  rcases h with h | ⟨h1, h2⟩
  · exact Or.inl (Nat.lt_succ_of_lt h)
  · exact Or.inl (by rw [h1]; exact Nat.lt_succ_self u)

/-- Registration of a fresh external name at the current position preserves
the collection invariants. -/
theorem cInv_register (units0 : List (List Object)) (st : SymState)
    (unit i : Nat) (nm : NameID) (x : Object) (intern2 : List ((NameID × Nat) × Nat))
    (hx : getObj units0 unit i = some x) (hnm : x.base.nameID = nm)
    (h1 : cInv1 units0 st) (h3 : cInv3 st) (h4 : cInv4 units0 st (unit, i))
    (h5 : cInv5 st (unit, i)) :
    cInv1 units0 ⟨assocSet st.externs nm ⟨unit, i⟩, intern2, st.units⟩ ∧
    cInv3 ⟨assocSet st.externs nm ⟨unit, i⟩, intern2, st.units⟩ ∧
    cInv4 units0 ⟨assocSet st.externs nm ⟨unit, i⟩, intern2, st.units⟩ (unit, i + 1) ∧
    cInv5 ⟨assocSet st.externs nm ⟨unit, i⟩, intern2, st.units⟩ (unit, i + 1) := by
  refine ⟨h1, ?_, ?_, ?_⟩
  · intro nm' ex hex
    rw [show (⟨assocSet st.externs nm ⟨unit, i⟩, intern2, st.units⟩ : SymState).externs
        = assocSet st.externs nm ⟨unit, i⟩ from rfl, lookup_assocSet] at hex
    by_cases hk : nm' = nm
    · rw [if_pos hk] at hex
      injection hex with hex2
      subst hex2
      refine ⟨x, ?_, by rw [hnm, hk]⟩
      rw [show (⟨assocSet st.externs nm ⟨unit, i⟩, intern2, st.units⟩ : SymState).units
          = st.units from rfl]
      rw [h4 unit i (Or.inr ⟨rfl, Nat.le_refl i⟩)]
      exact hx
    · rw [if_neg hk] at hex
      exact h3 nm' ex hex
  · intro u' i' hle
    exact h4 u' i' (posLe_succ _ _ _ hle)
  · intro nm' ex hex
    rw [show (⟨assocSet st.externs nm ⟨unit, i⟩, intern2, st.units⟩ : SymState).externs
        = assocSet st.externs nm ⟨unit, i⟩ from rfl, lookup_assocSet] at hex
    by_cases hk : nm' = nm
    · rw [if_pos hk] at hex
      injection hex with hex2
      subst hex2
      exact Or.inr ⟨rfl, Nat.lt_succ_self i⟩
    · rw [if_neg hk] at hex
      exact posLt_succ _ _ _ (h5 nm' ex hex)

theorem cInv_advance (units0 : List (List Object)) (st : SymState)
    (unit i : Nat) (h4 : cInv4 units0 st (unit, i)) (h5 : cInv5 st (unit, i)) :
    cInv4 units0 st (unit, i + 1) ∧ cInv5 st (unit, i + 1) :=
  ⟨fun u' i' hle => h4 u' i' (posLe_succ _ _ _ hle),
   fun nm ex hex => posLt_succ _ _ _ (h5 nm ex hex)⟩

theorem posLt_posLe_absurd (p q : Nat × Nat) (h1 : posLt p q) (h2 : posLe q p) :
    False := by
  rcases h1 with h1 | ⟨h1a, h1b⟩
  · rcases h2 with h2 | ⟨h2a, h2b⟩
    · exact Nat.lt_irrefl _ (Nat.lt_trans h1 h2)
    · rw [h2a] at h1
      exact Nat.lt_irrefl _ h1
  · rcases h2 with h2 | ⟨h2a, h2b⟩
    · rw [h1a] at h2
      exact Nat.lt_irrefl _ h2
    · exact Nat.lt_irrefl _ (Nat.lt_of_lt_of_le h1b h2b)

theorem collectStep_inv (units0 : List (List Object)) (unit i : Nat)
    (x : Object) (st st' : SymState)
    (hx : getObj units0 unit i = some x)
    (h : collectStep unit i x st = .ok st')
    (h1 : cInv1 units0 st) (h3 : cInv3 st) (h4 : cInv4 units0 st (unit, i))
    (h5 : cInv5 st (unit, i)) :
    cInv1 units0 st' ∧ cInv3 st' ∧ cInv4 units0 st' (unit, i + 1) ∧
      cInv5 st' (unit, i + 1) := by
  cases x with
  | dataDefinition b v =>
    simp only [collectStep] at h
    cases hL : b.linkage with
    | External =>
      rw [hL] at h
      rcases hex : st.externs.lookup b.nameID with _ | ex
      · rw [hex] at h
        injection h with hp
        subst hp
        exact cInv_register units0 st unit i b.nameID (.dataDefinition b v)
          st.intern hx rfl h1 h3 h4 h5
      · rw [hex] at h
        simp only [] at h
        rcases hgo : getObj st.units ex.unit ex.index with _ | o
        · rw [hgo] at h
          exact Except.noConfusion h
        · rw [hgo] at h
          cases o with
          | functionDefinition fa fbody fb fres => exact Except.noConfusion h
          | dataDefinition db dv =>
            simp only [] at h
            by_cases htid : b.typeID ≠ db.typeID
            · rw [if_pos htid] at h
              exact Except.noConfusion h
            · rw [if_neg htid] at h
              by_cases hmg : v.isSome ∧ dv.isNone
              · rw [if_pos hmg] at h
                injection h with hp
                subst hp
                rcases v with _ | v0
                · exact absurd hmg.1 (by simp)
                rcases dv with _ | dv0
                on_goal 2 => exact absurd hmg.2 (by simp)
                have hEq : b.typeID = db.typeID := not_ne_iff.mp htid
                have hname : db.nameID = b.nameID := by
                  obtain ⟨o₂, hgo₂, hnm₂⟩ := h3 b.nameID ex hex
                  rw [hgo] at hgo₂
                  injection hgo₂ with ho₂
                  rw [← ho₂] at hnm₂
                  exact hnm₂
                have origNone : ∃ u' i',
                    getObj units0 u' i' = some (.dataDefinition db none) := by
                  rcases h1 ex.unit ex.index _ hgo with ⟨u', i', hu⟩ |
                    ⟨b₂, bd₂, v₂, hA, hB, hn₂, ht₂, hoEq⟩
                  · exact ⟨u', i', hu⟩
                  · exact absurd hoEq (by simp)
                have hmergeLt : posLt (ex.unit, ex.index) (unit, i) :=
                  h5 b.nameID ex hex
                refine ⟨?_, ?_, ?_, ?_⟩
                · intro u' i' o' ho'
                  by_cases hpos : ex.unit = u' ∧ ex.index = i'
                  · rcases hpos with ⟨he1, he2⟩
                    rw [← he1, ← he2] at ho'
                    rw [show (⟨st.externs, st.intern,
                        setObj st.units ex.unit ex.index
                          (.dataDefinition db (some v0))⟩ : SymState).units =
                      setObj st.units ex.unit ex.index
                        (.dataDefinition db (some v0)) from rfl,
                      getObj_setObj_self st.units ex.unit ex.index _ _ hgo] at ho'
                    injection ho' with ho'2
                    rw [← ho'2]
                    exact Or.inr ⟨db, b, v0, origNone, ⟨unit, i, hx⟩,
                      hname.symm, hEq, rfl⟩
                  · rw [show (⟨st.externs, st.intern,
                        setObj st.units ex.unit ex.index
                          (.dataDefinition db (some v0))⟩ : SymState).units =
                      setObj st.units ex.unit ex.index
                        (.dataDefinition db (some v0)) from rfl,
                      getObj_setObj_ne st.units ex.unit ex.index u' i' _ hpos] at ho'
                    exact h1 u' i' o' ho'
                · intro nm' ex' hex'
                  obtain ⟨o₂, hgo₂, hnm₂⟩ := h3 nm' ex' hex'
                  by_cases hpos : ex.unit = ex'.unit ∧ ex.index = ex'.index
                  · rcases hpos with ⟨he1, he2⟩
                    refine ⟨.dataDefinition db (some v0), ?_, ?_⟩
                    · rw [show (⟨st.externs, st.intern,
                          setObj st.units ex.unit ex.index
                            (.dataDefinition db (some v0))⟩ : SymState).units =
                        setObj st.units ex.unit ex.index
                          (.dataDefinition db (some v0)) from rfl,
                        ← he1, ← he2]
                      exact getObj_setObj_self st.units ex.unit ex.index _ _ hgo
                    · rw [← he1, ← he2] at hgo₂
                      rw [hgo] at hgo₂
                      injection hgo₂ with ho₂
                      rw [← ho₂] at hnm₂
                      exact hnm₂
                  · refine ⟨o₂, ?_, hnm₂⟩
                    rw [show (⟨st.externs, st.intern,
                        setObj st.units ex.unit ex.index
                          (.dataDefinition db (some v0))⟩ : SymState).units =
                      setObj st.units ex.unit ex.index
                        (.dataDefinition db (some v0)) from rfl,
                      getObj_setObj_ne st.units ex.unit ex.index _ _ _ hpos]
                    exact hgo₂
                · intro u' i' hle
                  have hle' := posLe_succ _ _ _ hle
                  have hpos : ¬ (ex.unit = u' ∧ ex.index = i') := by
                    rintro ⟨he1, he2⟩
                    rw [he1, he2] at hmergeLt
                    exact posLt_posLe_absurd _ _ hmergeLt hle'
                  rw [show (⟨st.externs, st.intern,
                      setObj st.units ex.unit ex.index
                        (.dataDefinition db (some v0))⟩ : SymState).units =
                    setObj st.units ex.unit ex.index
                      (.dataDefinition db (some v0)) from rfl,
                    getObj_setObj_ne st.units ex.unit ex.index _ _ _ hpos]
                  exact h4 u' i' hle'
                · intro nm' ex' hex'
                  exact posLt_succ _ _ _ (h5 nm' ex' hex')
              · rw [if_neg hmg] at h
                injection h with hp
                subst hp
                exact ⟨h1, h3, (cInv_advance units0 st unit i h4 h5).1,
                  (cInv_advance units0 st unit i h4 h5).2⟩
    | Internal =>
      rw [hL] at h
      rcases hin : st.intern.lookup (b.nameID, unit) with _ | j
      · rw [hin] at h
        injection h with hp
        subst hp
        exact ⟨h1, h3, (cInv_advance units0 st unit i h4 h5).1,
          (cInv_advance units0 st unit i h4 h5).2⟩
      · rw [hin] at h
        exact Except.noConfusion h
  | functionDefinition fa fbody b fres =>
    simp only [collectStep] at h
    cases hL : b.linkage with
    | External =>
      rw [hL] at h
      rcases hex : st.externs.lookup b.nameID with _ | ex
      · rw [hex] at h
        injection h with hp
        subst hp
        exact cInv_register units0 st unit i b.nameID
          (.functionDefinition fa fbody b fres) st.intern hx rfl h1 h3 h4 h5
      · rw [hex] at h
        simp only [] at h
        rcases hgo : getObj st.units ex.unit ex.index with _ | o
        · rw [hgo] at h
          exact Except.noConfusion h
        · rw [hgo] at h
          cases o with
          | dataDefinition db dv => exact Except.noConfusion h
          | functionDefinition da dbody db dres =>
            simp only [] at h
            by_cases htid : b.typeID ≠ db.typeID
            · rw [if_pos htid] at h
              exact Except.noConfusion h
            · rw [if_neg htid] at h
              by_cases hlen : dbody.length ≠ 1
              · rw [if_pos hlen] at h
                injection h with hp
                subst hp
                exact ⟨h1, h3, (cInv_advance units0 st unit i h4 h5).1,
                  (cInv_advance units0 st unit i h4 h5).2⟩
              · rw [if_neg hlen] at h
                rcases dbody with _ | ⟨op1, drest⟩
                · exact Except.noConfusion h
                · rcases drest with _ | ⟨op2, drest2⟩
                  · cases op1 <;>
                      first
                      | exact Except.noConfusion h
                      | (injection h with hp
                         subst hp
                         exact cInv_register units0 st unit i b.nameID
                           (.functionDefinition fa fbody b fres) st.intern hx rfl
                           h1 h3 h4 h5)
                  · cases op1 <;> exact Except.noConfusion h
    | Internal =>
      rw [hL] at h
      rcases hin : st.intern.lookup (b.nameID, unit) with _ | j
      · rw [hin] at h
        injection h with hp
        subst hp
        exact ⟨h1, h3, (cInv_advance units0 st unit i h4 h5).1,
          (cInv_advance units0 st unit i h4 h5).2⟩
      · rw [hin] at h
        exact Except.noConfusion h

theorem collectUnit_inv (units0 : List (List Object)) (unit : Nat) :
    ∀ (rest : List Object) (i : Nat) (st st' : SymState),
      collectUnit unit i rest st = .ok st' →
      (units0.getD unit []).drop i = rest →
      cInv1 units0 st → cInv3 st → cInv4 units0 st (unit, i) → cInv5 st (unit, i) →
      cInv1 units0 st' ∧ cInv3 st' ∧ cInv4 units0 st' (unit, i + rest.length) ∧
        cInv5 st' (unit, i + rest.length) := by
  intro rest
  induction rest with
  | nil =>
    intro i st st' h _ h1 h3 h4 h5
    injection h with hp
    subst hp
    exact ⟨h1, h3, by simpa using h4, by simpa using h5⟩
  | cons x rest ih =>
    intro i st st' h hdrop h1 h3 h4 h5
    obtain ⟨st1, hstep, hrec⟩ := bind_ok_inv _ _ _ h
    have hx : getObj units0 unit i = some x := by
      have h0 := congrArg (fun l => l.get? 0) hdrop
      simpa [List.get?_drop, getObj] using h0
    have hdrop2 : (units0.getD unit []).drop (i + 1) = rest := by
      have h2 := congrArg (List.drop 1) hdrop
      rw [List.drop_drop] at h2
      simpa [Nat.add_comm] using h2
    obtain ⟨h1b, h3b, h4b, h5b⟩ :=
      collectStep_inv units0 unit i x st st1 hx hstep h1 h3 h4 h5
    obtain ⟨r1, r3, r4, r5⟩ := ih (i + 1) st1 st' hrec hdrop2 h1b h3b h4b h5b
    have hlen : i + (x :: rest).length = (i + 1) + rest.length := by
      simp [List.length_cons]
      omega
    refine ⟨r1, r3, ?_, ?_⟩
    · rw [hlen]
      exact r4
    · rw [hlen]
      exact r5

theorem collectAll_inv (units0 : List (List Object)) :
    ∀ (restU : List (List Object)) (u : Nat) (st st' : SymState),
      collectAll u restU st = .ok st' →
      units0.drop u = restU →
      cInv1 units0 st → cInv3 st → cInv4 units0 st (u, 0) → cInv5 st (u, 0) →
      cInv1 units0 st' := by
  intro restU
  induction restU with
  | nil =>
    intro u st st' h _ h1 _ _ _
    injection h with hp
    subst hp
    exact h1
  | cons us restU ih =>
    intro u st st' h hdrop h1 h3 h4 h5
    obtain ⟨st1, hunit, hrec⟩ := bind_ok_inv _ _ _ h
    have hus : (units0.getD u []).drop 0 = us := by
      have hget : units0.get? u = some us := by
        have h0 := congrArg (fun l => l.get? 0) hdrop
        simpa [List.get?_drop] using h0
      rw [List.drop_zero, List.getD_eq_getElem?_getD, ← List.get?_eq_getElem?, hget]
      rfl
    have hdrop2 : units0.drop (u + 1) = restU := by
      have h2 := congrArg (List.drop 1) hdrop
      rw [List.drop_drop] at h2
      simpa [Nat.add_comm] using h2
    obtain ⟨h1b, h3b, h4b, h5b⟩ :=
      collectUnit_inv units0 u us 0 st st1 hunit hus h1 h3 h4 h5
    have h4c : cInv4 units0 st1 (u + 1, 0) :=
      fun u' i' hle => h4b u' i' (posLe_next_unit u (0 + us.length) u' i' hle)
    have h5c : cInv5 st1 (u + 1, 0) :=
      fun nm ex hex => posLt_next_unit _ u (0 + us.length) (h5b nm ex hex)
    exact ih (u + 1) st1 st' hrec hdrop2 h1b h3b h4c h5c

/-- Every object of the post-collection unit vectors is collect-related to
the input units. -/
theorem collect_rel (units : List (List Object)) (sym : SymState)
    (h : collectSymbols units = .ok sym) :
    ∀ u i o, getObj sym.units u i = some o → collectRel units o := by
  have h1 : cInv1 units ⟨[], [], units⟩ := by
    intro u i o ho
    exact Or.inl ⟨u, i, ho⟩
  have h3 : cInv3 ⟨[], [], units⟩ := by
    intro nm ex hex
    exact Option.noConfusion hex
  have h4 : cInv4 units ⟨[], [], units⟩ (0, 0) := fun u i _ => rfl
  have h5 : cInv5 ⟨[], [], units⟩ (0, 0) := fun nm ex hex => Option.noConfusion hex
  exact collectAll_inv units units 0 ⟨[], [], units⟩ sym h rfl h1 h3 h4 h5

theorem getObj_append (units more : List (List Object)) (u i : Nat) (o : Object)
    (h : getObj units u i = some o) : getObj (units ++ more) u i = some o := by
  have hu : u < units.length := getObj_some_lt units u i o h
  rw [getObj] at h
  rw [getObj, List.getD_append _ _ _ _ hu]
  exact h

theorem collectRel_append (units more : List (List Object)) (o : Object)
    (h : collectRel units o) : collectRel (units ++ more) o := by
  rcases h with ⟨u, i, hu⟩ | ⟨b, bd, v, ⟨u1, i1, hA⟩, ⟨u2, i2, hB⟩, hn, ht, hoEq⟩
  · exact Or.inl ⟨u, i, getObj_append _ _ _ _ _ hu⟩
  · exact Or.inr ⟨b, bd, v, ⟨u1, i1, getObj_append _ _ _ _ _ hA⟩,
      ⟨u2, i2, getObj_append _ _ _ _ _ hB⟩, hn, ht, hoEq⟩

theorem linkAllGo_inv (L : LinkCtx) (fuel : Nat) :
    ∀ (l : List (NameID × ExternRef)) (st st' : LState),
      linkAllGo L fuel st l = .ok st' → outInvL L st → outInvL L st' := by
  intro l
  induction l with
  | nil =>
    intro st st' h hinv
    injection h with hp
    subst hp
    exact hinv
  | cons kv rest ih =>
    intro st st' h hinv
    rcases kv with ⟨nm, e⟩
    obtain ⟨⟨st1, j⟩, hdef, hrec⟩ := bind_ok_inv _ _ _ h
    exact ih st1 st' hrec (((linkInv fuel).1 L st e st1 j hdef).2 hinv)

theorem linkMainGo_inv (L : LinkCtx) (fuel : Nat) (st : LState)
    (h : linkMainGo L fuel = .ok st) : outInvL L st := by
  simp only [linkMainGo] at h
  rcases hls : L.externs.lookup idStart with _ | start
  · rw [hls] at h
    exact Except.noConfusion h
  · rw [hls] at h
    obtain ⟨⟨st1, j⟩, hdef, h2⟩ := bind_ok_inv _ _ _ h
    injection h2 with hp
    subst hp
    exact ((linkInv fuel).1 L ⟨[], []⟩ start st1 j hdef).2
      (fun o' ho' => absurd ho' (List.not_mem_nil o'))

/-- Core of the `LinkLib` frame property, for an arbitrary (possibly
stub-extended) unit vector. -/
theorem linkLib_core : ∀ (units1 : List (List Object)) (out : List Object),
    (do
      let sym ← collectSymbols units1
      let st ← linkAllGo ⟨sym.externs, sym.intern, sym.units⟩ (linkFuel units1)
        ⟨[], []⟩ sym.externs
      pure st.out : Except LinkErr (List Object)) = .ok out →
    ∀ o' ∈ out, ∃ o₀, collectRel units1 o₀ ∧ objectDerived o₀ o' := by
  intro units1 out h o' ho'
  obtain ⟨sym, hcol, h2⟩ := bind_ok_inv _ _ _ h
  obtain ⟨st, hall, h3⟩ := bind_ok_inv _ _ _ h2
  injection h3 with hp
  subst hp
  obtain ⟨u, i, o₀, hgo, hder⟩ := linkAllGo_inv ⟨sym.externs, sym.intern, sym.units⟩
    (linkFuel units1) sym.externs ⟨[], []⟩ st hall
    (fun o'' ho'' => absurd ho'' (List.not_mem_nil o'')) o' ho'
  exact ⟨o₀, collect_rel units1 sym hcol u i o₀ hgo, hder⟩

/-- C10 counterexample: linking `c10Units` emits a `D` whose initializer
(`int32 7`) was filled in by the duplicate-external-data merge of symbol
collection; no single input object yields the emitted object under the
claimed mutation set (base and name unchanged, only indices rewritten) — the
initializer came from a *different* input object. -/
theorem C10_counterexample :
    LinkMain c10Units =
      .ok [.functionDefinition []
             [.globalOp false 1 .External (strBytes "D") idPint32 [] 1]
             ⟨7, idStart, strBytes "func()", .External, []⟩ [],
           .dataDefinition c10DBase (some (.int32Value 7))] ∧
    (∀ u i o₀, getObj c10Units u i = some o₀ →
      ¬ objectDerived o₀ (.dataDefinition c10DBase (some (.int32Value 7)))) := by
  refine ⟨rfl, ?_⟩
  intro u i o₀ hgo hder
  rcases u with _ | _ | _ | u
  · rcases i with _ | i
    · injection hgo with ho
      rw [← ho] at hder
      exact hder
    · exact Option.noConfusion hgo
  · rcases i with _ | i
    · injection hgo with ho
      rw [← ho] at hder
      exact hder.2
    · exact Option.noConfusion hgo
  · rcases i with _ | i
    · injection hgo with ho
      rw [← ho] at hder
      exact absurd hder.1 (by decide)
    · exact Option.noConfusion hgo
  · exact Option.noConfusion hgo

/-- C10 (amended).  Every object emitted by `LinkMain`/`LinkLib` derives
(`objectDerived`: base, name, type, type name, linkage, source position and,
for functions, argument/result names unchanged; bodies and initializers
rewritten only in `Global.Index`, `Arguments.FunctionPointer`,
`AddressValue.Index` and the `CallFP` → static `Call` lowering) from an
object that is collect-related (`collectRel`) to the input units: an input
object itself, or the merge of an uninitialised external data definition
with the initializer of another input data definition of the same name and
type.  For `LinkLib` the input may additionally be the injected `main`
stub. -/
theorem C10_frame :
    (∀ (units : List (List Object)) (out : List Object),
      LinkMain units = .ok out →
      ∀ o' ∈ out, ∃ o₀, collectRel units o₀ ∧ objectDerived o₀ o') ∧
    (∀ (units : List (List Object)) (out : List Object),
      LinkLib units = .ok out →
      ∀ o' ∈ out, ∃ o₀, collectRel (units ++ [mainStub]) o₀ ∧ objectDerived o₀ o') := by
  constructor
  · intro units out h o' ho'
    obtain ⟨sym, hcol, h2⟩ := bind_ok_inv _ _ _ h
    obtain ⟨st, hmain, h3⟩ := bind_ok_inv _ _ _ h2
    injection h3 with hp
    subst hp
    obtain ⟨u, i, o₀, hgo, hder⟩ := linkMainGo_inv
      ⟨sym.externs, sym.intern, sym.units⟩ (linkFuel units) st hmain o' ho'
    exact ⟨o₀, collect_rel units sym hcol u i o₀ hgo, hder⟩
  · intro units out h o' ho'
    have h' := linkLib_core
      (if (units.any fun us => us.any fun o =>
          match o with
          | Object.functionDefinition _ _ b _ => b.nameID = idMain
          | _ => false) = true then units else units ++ [mainStub]) out h o' ho'
    by_cases hm : (units.any fun us => us.any fun o =>
        match o with
        | Object.functionDefinition _ _ b _ => b.nameID = idMain
        | _ => false) = true
    · rw [if_pos hm] at h'
      obtain ⟨o₀, hrel, hder⟩ := h'
      exact ⟨o₀, collectRel_append units [mainStub] o₀ hrel, hder⟩
    · rw [if_neg hm] at h'
      exact h'

/-- C10 witness. -/
theorem C10_frame_witness :
    ∃ o₀, collectRel c10Units o₀ ∧
      objectDerived o₀ (.dataDefinition c10DBase (some (.int32Value 7))) :=
  C10_frame.1 c10Units
    [.functionDefinition [] [.globalOp false 1 .External (strBytes "D") idPint32 [] 1]
       ⟨7, idStart, strBytes "func()", .External, []⟩ [],
     .dataDefinition c10DBase (some (.int32Value 7))] rfl
    (.dataDefinition c10DBase (some (.int32Value 7)))
    (List.Mem.tail _ (List.Mem.head _))

end IR
